import Mathlib

/-!
# T234 HWPM aperture utilities: PMA / RTR reservation and SLCG sequencing

A shallow embedding of `hal/t234/t234_hwpm_aperture_utils.c`.

* Pointers that the source tests against `NULL` are `Option`s; a dereference
  of a `NULL` pointer has no defined result and the embedded function returns
  `none` there.
* Every slot of `ip_perfmux` / `ip_perfmon` is a distinct object, so a slot
  array is a list of optional records and a loop over the array rebuilds it.
* `u32` values are natural numbers; the 32-bit complement is explicit.
* The per-slot sub-operations `t234_hwpm_perfmon_reserve` and
  `t234_hwpm_perfmon_release`, the register primitives and the hardware
  constants live outside this file of the driver; they are parameters.
* A ghost event log records every invocation of a sub-operation and every
  register write, in program order.
-/

namespace T234Hwpm

/-! ## Data model -/

/-- Linux `EINVAL`; the source returns it negated. -/
def EINVAL : Int := 22

/-- Linux `ENODEV`; the source returns it negated. -/
def ENODEV : Int := 19

/-- The two IP blocks handled by the file (`T234_HWPM_IP_PMA`, `T234_HWPM_IP_RTR`). -/
inductive IpId where
  | pma
  | rtr
deriving DecidableEq, Repr

/-- Kind of slot array a sub-operation was invoked on. -/
inductive SlotKind where
  | perfmux
  | perfmon
deriving DecidableEq, Repr

/-- The two per-slot sub-operations. -/
inductive SubOp where
  | reserve
  | release
deriving DecidableEq, Repr

/-- Ghost log entries: a sub-operation invoked on slot `idx` of a slot array of a
block, with its return code; a register write; a bounded status poll. -/
inductive Event where
  | call (op : SubOp) (ip : IpId) (kind : SlotKind) (idx : Nat) (ret : Int)
  | writel (aperture_pa : Nat) (addr : Nat) (val : Nat)
  | poll (cond : Nat) (timed_out : Bool)
deriving DecidableEq, Repr

/-- One aperture (`hwpm_ip_perfmux`; `hwpm_ip_perfmon` is the same record, the
source passes perfmuxes to the perfmon sub-operations). `dt_mmio` and
`fake_registers` are pointers, `none` being `NULL`. -/
structure hwpm_ip_perfmux where
  start_abs_pa : Nat
  start_pa : Nat
  end_pa : Nat
  dt_mmio : Option Nat
  fake_registers : Option Nat
  hw_inst_mask : Nat
deriving DecidableEq, Repr

/-- One IP block (`struct hwpm_ip`); `num_perfmux_slots` and `num_perfmon_slots`
are the lengths of the two slot arrays. The file uses `perfmux_static_array`
only to name a register aperture (`&perfmux_static_array[0U]`), and an aperture
is identified by its `start_abs_pa`, which nothing here changes; so the array
is kept as its own list of records. -/
structure hwpm_ip where
  ip_perfmux : List (Option hwpm_ip_perfmux)
  ip_perfmon : List (Option hwpm_ip_perfmux)
  perfmux_static_array : List hwpm_ip_perfmux
  fs_mask : Nat
  reserved : Bool
deriving DecidableEq, Repr

/-- The chip: `chip_ips[T234_HWPM_IP_PMA]` and `chip_ips[T234_HWPM_IP_RTR]`. -/
structure tegra_soc_hwpm_chip where
  ip_pma : Option hwpm_ip
  ip_rtr : Option hwpm_ip
deriving DecidableEq, Repr

/-- The driver handle together with what is reachable through it: the register
contents of the hardware (by aperture base address, then register address), the
state `world` of the external collaborators, and the ghost event log. -/
structure tegra_soc_hwpm (W : Type) where
  active_chip : Option tegra_soc_hwpm_chip
  fake_registers_enabled : Bool
  regs : Nat → Nat → Nat
  world : W
  trace : List Event

/-- What one call of a per-slot sub-operation leaves behind: its return code and
the mapping fields of the slot it was called on. -/
structure SubResult where
  ret : Int
  start_pa : Nat
  end_pa : Nat
  dt_mmio : Option Nat
  fake_registers : Option Nat
deriving DecidableEq, Repr

/-- Modelled from the spec: `t234_hwpm_perfmon_reserve` and
`t234_hwpm_perfmon_release` are defined outside this file. A call may succeed
or fail arbitrarily (depending on the collaborators' own state and on the
slot), may rewrite the slot's block-relative range, mapped handle and
fake-register buffer, and leaves the slot's fixed identity (`start_abs_pa`,
`hw_inst_mask`) alone. -/
structure SubOps (W : Type) where
  perfmon_reserve : W → hwpm_ip_perfmux → SubResult × W
  perfmon_release : W → hwpm_ip_perfmux → SubResult × W

/-- The slot after a sub-operation returned `r`. -/
def apply_result (p : hwpm_ip_perfmux) (r : SubResult) : hwpm_ip_perfmux :=
  { p with start_pa := r.start_pa, end_pa := r.end_pa, dt_mmio := r.dt_mmio,
           fake_registers := r.fake_registers }

/-- The 32-bit complement `~m` of a `u32`. -/
def u32_not (m : Nat) : Nat := (2 ^ 32 - 1) - m % 2 ^ 32

/-- What a loop over a slot array reads and writes besides the slots: the local
`ret`, the block's `fs_mask`, the collaborators' state and the event log. -/
structure LoopSt (W : Type) where
  ret : Int
  fs_mask : Nat
  world : W
  trace : List Event

/-- The loop shape shared by the file:
`for (idx = 0; idx < num_slots; idx++) { p = slots[idx]; if (p == NULL) continue; body }`.
The body answers `true` when it left the loop (`return` or `goto`). The result
is that flag, the slot array and the loop state at that point. -/
def for_each_slot {W : Type}
    (body : Nat → hwpm_ip_perfmux → LoopSt W → Bool × hwpm_ip_perfmux × LoopSt W) :
    Nat → List (Option hwpm_ip_perfmux) → LoopSt W →
      Bool × List (Option hwpm_ip_perfmux) × LoopSt W
  | _, [], st => (false, [], st)
  | idx, none :: rest, st =>
      let r := for_each_slot body (idx + 1) rest st
      (r.1, none :: r.2.1, r.2.2)
  | idx, some p :: rest, st =>
      let b := body idx p st
      if b.1 then (true, some b.2.1 :: rest, b.2.2)
      else
        let r := for_each_slot body (idx + 1) rest b.2.2
        (r.1, some b.2.1 :: r.2.1, r.2.2)

/-! ## `t234_hwpm_reserve_pma` -/

/-- Body of the "Reserve PMA perfmux" loop (lines 47-61). -/
def reserve_pma_perfmux_body {W : Type} (ops : SubOps W) (perfmux_idx : Nat)
    (pma_perfmux : hwpm_ip_perfmux) (st : LoopSt W) :
    Bool × hwpm_ip_perfmux × LoopSt W :=
  let r := ops.perfmon_reserve st.world pma_perfmux
  let p := apply_result pma_perfmux r.1
  let st1 : LoopSt W :=
    { st with ret := r.1.ret, world := r.2,
              trace := st.trace ++ [Event.call SubOp.reserve IpId.pma SlotKind.perfmux perfmux_idx r.1.ret] }
  if r.1.ret ≠ 0 then (true, p, st1)
  else (false, p, { st1 with fs_mask := st1.fs_mask ||| p.hw_inst_mask })

/-- Body of the "Reserve PMA perfmons" loop (lines 67-78); `true` is `goto fail`. -/
def reserve_pma_perfmon_body {W : Type} (ops : SubOps W) (perfmon_idx : Nat)
    (pma_perfmon : hwpm_ip_perfmux) (st : LoopSt W) :
    Bool × hwpm_ip_perfmux × LoopSt W :=
  let r := ops.perfmon_reserve st.world pma_perfmon
  let p := apply_result pma_perfmon r.1
  let st1 : LoopSt W :=
    { st with ret := r.1.ret, world := r.2,
              trace := st.trace ++ [Event.call SubOp.reserve IpId.pma SlotKind.perfmon perfmon_idx r.1.ret] }
  if r.1.ret ≠ 0 then (true, p, st1) else (false, p, st1)

/-- Body of the loop under `fail:` (lines 87-99). The release result goes to the
local `err`, which is only logged: `ret` is untouched and the loop goes on. -/
def reserve_pma_fail_body {W : Type} (ops : SubOps W) (perfmux_idx : Nat)
    (pma_perfmux : hwpm_ip_perfmux) (st : LoopSt W) :
    Bool × hwpm_ip_perfmux × LoopSt W :=
  let r := ops.perfmon_release st.world pma_perfmux
  let p := apply_result pma_perfmux r.1
  (false, p,
    { st with world := r.2,
              trace := st.trace ++ [Event.call SubOp.release IpId.pma SlotKind.perfmux perfmux_idx r.1.ret],
              fs_mask := st.fs_mask &&& u32_not p.hw_inst_mask })

/-- Write a PMA block and the loop's collaborators' state and log back into the handle. -/
def store_pma {W : Type} (hwpm : tegra_soc_hwpm W) (active_chip : tegra_soc_hwpm_chip)
    (ip : hwpm_ip) (st : LoopSt W) : tegra_soc_hwpm W :=
  { hwpm with active_chip := some { active_chip with ip_pma := some ip },
              world := st.world, trace := st.trace }

/-- Write an RTR block and the loop's collaborators' state and log back into the handle. -/
def store_rtr {W : Type} (hwpm : tegra_soc_hwpm W) (active_chip : tegra_soc_hwpm_chip)
    (ip : hwpm_ip) (st : LoopSt W) : tegra_soc_hwpm W :=
  { hwpm with active_chip := some { active_chip with ip_rtr := some ip },
              world := st.world, trace := st.trace }

/-- Embedding of `t234_hwpm_reserve_pma` (lines 27-102). -/
def t234_hwpm_reserve_pma {W : Type} (ops : SubOps W) (hwpm : tegra_soc_hwpm W) :
    Option (Int × tegra_soc_hwpm W) :=
  match hwpm.active_chip with
  | none => none
  | some active_chip =>
    match active_chip.ip_pma with
    | none => none
    | some chip_ip_pma =>
      if chip_ip_pma.reserved = true then some (0, hwpm)
      else
        let st0 : LoopSt W := ⟨0, chip_ip_pma.fs_mask, hwpm.world, hwpm.trace⟩
        let l1 := for_each_slot (reserve_pma_perfmux_body ops) 0 chip_ip_pma.ip_perfmux st0
        if l1.1 then
          some (l1.2.2.ret,
            store_pma hwpm active_chip
              { chip_ip_pma with ip_perfmux := l1.2.1, fs_mask := l1.2.2.fs_mask } l1.2.2)
        else
          let l2 := for_each_slot (reserve_pma_perfmon_body ops) 0 chip_ip_pma.ip_perfmon l1.2.2
          if l2.1 then
            let l3 := for_each_slot (reserve_pma_fail_body ops) 0 l1.2.1 l2.2.2
            some (l3.2.2.ret,
              store_pma hwpm active_chip
                { chip_ip_pma with ip_perfmux := l3.2.1, ip_perfmon := l2.2.1,
                                   fs_mask := l3.2.2.fs_mask } l3.2.2)
          else
            some (0,
              store_pma hwpm active_chip
                { chip_ip_pma with ip_perfmux := l1.2.1, ip_perfmon := l2.2.1,
                                   fs_mask := l2.2.2.fs_mask, reserved := true } l2.2.2)

/-! ## `t234_hwpm_release_pma` -/

/-- Body of the "Release PMA perfmux" loop (lines 123-136). -/
def release_pma_perfmux_body {W : Type} (ops : SubOps W) (perfmux_idx : Nat)
    (pma_perfmux : hwpm_ip_perfmux) (st : LoopSt W) :
    Bool × hwpm_ip_perfmux × LoopSt W :=
  let r := ops.perfmon_release st.world pma_perfmux
  let p := apply_result pma_perfmux r.1
  let st1 : LoopSt W :=
    { st with ret := r.1.ret, world := r.2,
              trace := st.trace ++ [Event.call SubOp.release IpId.pma SlotKind.perfmux perfmux_idx r.1.ret] }
  if r.1.ret ≠ 0 then (true, p, st1)
  else (false, p, { st1 with fs_mask := st1.fs_mask &&& u32_not p.hw_inst_mask })

/-- Body of the "Release PMA perfmons" loop (lines 142-153). -/
def release_pma_perfmon_body {W : Type} (ops : SubOps W) (perfmon_idx : Nat)
    (pma_perfmon : hwpm_ip_perfmux) (st : LoopSt W) :
    Bool × hwpm_ip_perfmux × LoopSt W :=
  let r := ops.perfmon_release st.world pma_perfmon
  let p := apply_result pma_perfmon r.1
  let st1 : LoopSt W :=
    { st with ret := r.1.ret, world := r.2,
              trace := st.trace ++ [Event.call SubOp.release IpId.pma SlotKind.perfmon perfmon_idx r.1.ret] }
  if r.1.ret ≠ 0 then (true, p, st1) else (false, p, st1)

/-- Embedding of `t234_hwpm_release_pma` (lines 104-159). -/
def t234_hwpm_release_pma {W : Type} (ops : SubOps W) (hwpm : tegra_soc_hwpm W) :
    Option (Int × tegra_soc_hwpm W) :=
  match hwpm.active_chip with
  | none => none
  | some active_chip =>
    match active_chip.ip_pma with
    | none => none
    | some chip_ip_pma =>
      if chip_ip_pma.reserved = false then some (0, hwpm)
      else
        let st0 : LoopSt W := ⟨0, chip_ip_pma.fs_mask, hwpm.world, hwpm.trace⟩
        let l1 := for_each_slot (release_pma_perfmux_body ops) 0 chip_ip_pma.ip_perfmux st0
        if l1.1 then
          some (l1.2.2.ret,
            store_pma hwpm active_chip
              { chip_ip_pma with ip_perfmux := l1.2.1, fs_mask := l1.2.2.fs_mask } l1.2.2)
        else
          let l2 := for_each_slot (release_pma_perfmon_body ops) 0 chip_ip_pma.ip_perfmon l1.2.2
          if l2.1 then
            some (l2.2.2.ret,
              store_pma hwpm active_chip
                { chip_ip_pma with ip_perfmux := l1.2.1, ip_perfmon := l2.2.1,
                                   fs_mask := l2.2.2.fs_mask } l2.2.2)
          else
            some (0,
              store_pma hwpm active_chip
                { chip_ip_pma with ip_perfmux := l1.2.1, ip_perfmon := l2.2.1,
                                   fs_mask := l2.2.2.fs_mask, reserved := false } l2.2.2)

/-! ## `t234_hwpm_reserve_rtr` and `t234_hwpm_release_rtr` -/

/-- The pointer `ip_perfmux[0U]` of a block: `NULL` when the slot is absent, and
taken as `NULL` too when the block has no perfmux slot at all. -/
def perfmux_slot0 (ip : hwpm_ip) : Option hwpm_ip_perfmux :=
  match ip.ip_perfmux with
  | [] => none
  | p :: _ => p

/-- Body of the "Reserve RTR perfmuxes" loop (lines 188-214), `pma_perfmux`
being PMA's slot 0. -/
def reserve_rtr_body {W : Type} (ops : SubOps W) (fake_registers_enabled : Bool)
    (pma_perfmux : hwpm_ip_perfmux) (perfmux_idx : Nat)
    (rtr_perfmux : hwpm_ip_perfmux) (st : LoopSt W) :
    Bool × hwpm_ip_perfmux × LoopSt W :=
  if rtr_perfmux.start_abs_pa = pma_perfmux.start_abs_pa then
    let p : hwpm_ip_perfmux :=
      { rtr_perfmux with
          start_pa := pma_perfmux.start_pa, end_pa := pma_perfmux.end_pa,
          dt_mmio := pma_perfmux.dt_mmio,
          fake_registers :=
            if fake_registers_enabled then pma_perfmux.fake_registers
            else rtr_perfmux.fake_registers }
    (false, p, { st with fs_mask := st.fs_mask ||| p.hw_inst_mask })
  else
    let r := ops.perfmon_reserve st.world rtr_perfmux
    let p := apply_result rtr_perfmux r.1
    let st1 : LoopSt W :=
      { st with ret := r.1.ret, world := r.2,
                trace := st.trace ++ [Event.call SubOp.reserve IpId.rtr SlotKind.perfmux perfmux_idx r.1.ret] }
    if r.1.ret ≠ 0 then (true, p, st1)
    else (false, p, { st1 with fs_mask := st1.fs_mask ||| p.hw_inst_mask })

/-- Body of the "Release RTR perfmux" loop (lines 254-278). -/
def release_rtr_body {W : Type} (ops : SubOps W) (fake_registers_enabled : Bool)
    (pma_perfmux : hwpm_ip_perfmux) (perfmux_idx : Nat)
    (rtr_perfmux : hwpm_ip_perfmux) (st : LoopSt W) :
    Bool × hwpm_ip_perfmux × LoopSt W :=
  if rtr_perfmux.start_abs_pa = pma_perfmux.start_abs_pa then
    let p : hwpm_ip_perfmux :=
      { rtr_perfmux with
          start_pa := 0, end_pa := 0, dt_mmio := none,
          fake_registers :=
            if fake_registers_enabled then none else rtr_perfmux.fake_registers }
    (false, p, { st with fs_mask := st.fs_mask &&& u32_not p.hw_inst_mask })
  else
    let r := ops.perfmon_release st.world rtr_perfmux
    let p := apply_result rtr_perfmux r.1
    let st1 : LoopSt W :=
      { st with ret := r.1.ret, world := r.2,
                trace := st.trace ++ [Event.call SubOp.release IpId.rtr SlotKind.perfmux perfmux_idx r.1.ret] }
    if r.1.ret ≠ 0 then (true, p, st1)
    else (false, p, { st1 with fs_mask := st1.fs_mask &&& u32_not p.hw_inst_mask })

/-- True when the slot array holds a present slot. -/
def has_present_slot (slots : List (Option hwpm_ip_perfmux)) : Bool :=
  slots.any Option.isSome

/-- Embedding of `t234_hwpm_reserve_rtr` (lines 161-226). `chip_ip_pma` is
dereferenced before the ordering check, `chip_ip_rtr` after it; `pma_perfmux`
is dereferenced at the first present RTR slot. The empty perfmon loop is
omitted. -/
def t234_hwpm_reserve_rtr {W : Type} (ops : SubOps W) (hwpm : tegra_soc_hwpm W) :
    Option (Int × tegra_soc_hwpm W) :=
  match hwpm.active_chip with
  | none => none
  | some active_chip =>
    match active_chip.ip_pma with
    | none => none
    | some chip_ip_pma =>
      if chip_ip_pma.reserved = false then some (-EINVAL, hwpm)
      else
        match active_chip.ip_rtr with
        | none => none
        | some chip_ip_rtr =>
          if chip_ip_rtr.reserved = true then some (0, hwpm)
          else
            let st0 : LoopSt W := ⟨0, chip_ip_rtr.fs_mask, hwpm.world, hwpm.trace⟩
            match perfmux_slot0 chip_ip_pma with
            | none =>
              if has_present_slot chip_ip_rtr.ip_perfmux then none
              else some (0, store_rtr hwpm active_chip { chip_ip_rtr with reserved := true } st0)
            | some pma_perfmux =>
              let l1 := for_each_slot
                (reserve_rtr_body ops hwpm.fake_registers_enabled pma_perfmux) 0
                chip_ip_rtr.ip_perfmux st0
              if l1.1 then
                some (l1.2.2.ret,
                  store_rtr hwpm active_chip
                    { chip_ip_rtr with ip_perfmux := l1.2.1, fs_mask := l1.2.2.fs_mask } l1.2.2)
              else
                some (l1.2.2.ret,
                  store_rtr hwpm active_chip
                    { chip_ip_rtr with ip_perfmux := l1.2.1, fs_mask := l1.2.2.fs_mask,
                                       reserved := true } l1.2.2)

/-- Embedding of `t234_hwpm_release_rtr` (lines 228-289). -/
def t234_hwpm_release_rtr {W : Type} (ops : SubOps W) (hwpm : tegra_soc_hwpm W) :
    Option (Int × tegra_soc_hwpm W) :=
  match hwpm.active_chip with
  | none => none
  | some active_chip =>
    match active_chip.ip_pma with
    | none => none
    | some chip_ip_pma =>
      if chip_ip_pma.reserved = false then some (-EINVAL, hwpm)
      else
        match active_chip.ip_rtr with
        | none => none
        | some chip_ip_rtr =>
          if chip_ip_rtr.reserved = false then some (0, hwpm)
          else
            let st0 : LoopSt W := ⟨0, chip_ip_rtr.fs_mask, hwpm.world, hwpm.trace⟩
            match perfmux_slot0 chip_ip_pma with
            | none =>
              if has_present_slot chip_ip_rtr.ip_perfmux then none
              else some (0, store_rtr hwpm active_chip { chip_ip_rtr with reserved := false } st0)
            | some pma_perfmux =>
              let l1 := for_each_slot
                (release_rtr_body ops hwpm.fake_registers_enabled pma_perfmux) 0
                chip_ip_rtr.ip_perfmux st0
              if l1.1 then
                some (l1.2.2.ret,
                  store_rtr hwpm active_chip
                    { chip_ip_rtr with ip_perfmux := l1.2.1, fs_mask := l1.2.2.fs_mask } l1.2.2)
              else
                some (0,
                  store_rtr hwpm active_chip
                    { chip_ip_rtr with ip_perfmux := l1.2.1, fs_mask := l1.2.2.fs_mask,
                                       reserved := false } l1.2.2)

/-! ## Register access and the SLCG toggles -/

/-- Modelled from the spec: the register access primitive is defined outside this
file. `read32(aperture, offset) -> u32` yields the 32-bit content of the
register at `addr` of the aperture, the aperture being identified by its
absolute physical address; a `NULL` aperture is rejected and reads as 0. -/
def tegra_hwpm_readl {W : Type} (hwpm : tegra_soc_hwpm W)
    (aperture : Option hwpm_ip_perfmux) (addr : Nat) : Nat :=
  match aperture with
  | none => 0
  | some a => hwpm.regs a.start_abs_pa addr % 2 ^ 32

/-- Modelled from the spec: `write32(aperture, offset, value)` stores the 32-bit
value in the register at `addr` of the aperture and is logged; a `NULL`
aperture is rejected and nothing is written. -/
def tegra_hwpm_writel {W : Type} (hwpm : tegra_soc_hwpm W)
    (aperture : Option hwpm_ip_perfmux) (addr : Nat) (val : Nat) : tegra_soc_hwpm W :=
  match aperture with
  | none => hwpm
  | some a =>
    { hwpm with
        regs := fun pa r =>
          if pa = a.start_abs_pa ∧ r = addr then val % 2 ^ 32 else hwpm.regs pa r,
        trace := hwpm.trace ++ [Event.writel a.start_abs_pa addr (val % 2 ^ 32)] }

/-- Modelled from the spec: the field helper `set_field(val, mask, field)` is
defined outside this file; it clears the bits of `mask` in `val` and ORs the
field encoding in, `(val AND NOT mask) OR field`. -/
def set_field (val mask field : Nat) : Nat := (val &&& u32_not mask) ||| field

/-- The clock-gating constants of the hardware headers
(`t234_pmasys_soc_hwpm.h`, `t234_pmmsys_soc_hwpm.h`), which are outside this
file: register addresses, field masks (`_m`) and field encodings (`_f`). -/
structure SlcgRegs where
  pmasys_cg2_r : Nat
  pmasys_cg2_slcg_m : Nat
  pmasys_cg2_slcg_disabled_f : Nat
  pmasys_cg2_slcg_enabled_f : Nat
  pmmsys_sys0router_cg2_r : Nat
  pmmsys_sys0router_cg2_slcg_perfmon_m : Nat
  pmmsys_sys0router_cg2_slcg_router_m : Nat
  pmmsys_sys0router_cg2_slcg_m : Nat
  pmmsys_sys0router_cg2_slcg_perfmon_disabled_f : Nat
  pmmsys_sys0router_cg2_slcg_router_disabled_f : Nat
  pmmsys_sys0router_cg2_slcg_disabled_f : Nat
  pmmsys_sys0router_cg2_slcg_perfmon__prod_f : Nat
  pmmsys_sys0router_cg2_slcg_router__prod_f : Nat
  pmmsys_sys0router_cg2_slcg__prod_f : Nat
deriving DecidableEq, Repr

/-- The aperture at `&ip->perfmux_static_array[0U]` (none when the array is empty). -/
def perfmux_static0 (ip : hwpm_ip) : Option hwpm_ip_perfmux :=
  ip.perfmux_static_array.head?

/-- The register sequence of `t234_hwpm_disable_slcg` after its guards (lines 413-435). -/
def disable_slcg_writes {W : Type} (hw : SlcgRegs) (hwpm : tegra_soc_hwpm W)
    (pma_ip rtr_ip : hwpm_ip) : tegra_soc_hwpm W :=
  let pma_perfmux := perfmux_slot0 pma_ip
  let rtr_perfmux := perfmux_static0 rtr_ip
  let reg_val := tegra_hwpm_readl hwpm pma_perfmux hw.pmasys_cg2_r
  let reg_val := set_field reg_val hw.pmasys_cg2_slcg_m hw.pmasys_cg2_slcg_disabled_f
  let hwpm1 := tegra_hwpm_writel hwpm pma_perfmux hw.pmasys_cg2_r reg_val
  let field_mask := hw.pmmsys_sys0router_cg2_slcg_perfmon_m |||
    hw.pmmsys_sys0router_cg2_slcg_router_m ||| hw.pmmsys_sys0router_cg2_slcg_m
  let field_val := hw.pmmsys_sys0router_cg2_slcg_perfmon_disabled_f |||
    hw.pmmsys_sys0router_cg2_slcg_router_disabled_f |||
    hw.pmmsys_sys0router_cg2_slcg_disabled_f
  let reg_val := tegra_hwpm_readl hwpm1 rtr_perfmux hw.pmmsys_sys0router_cg2_r
  let reg_val := set_field reg_val field_mask field_val
  tegra_hwpm_writel hwpm1 rtr_perfmux hw.pmmsys_sys0router_cg2_r reg_val

/-- Embedding of `t234_hwpm_disable_slcg` (lines 384-436). -/
def t234_hwpm_disable_slcg {W : Type} (hw : SlcgRegs) (hwpm : tegra_soc_hwpm W) :
    Int × tegra_soc_hwpm W :=
  match hwpm.active_chip with
  | none => (-ENODEV, hwpm)
  | some active_chip =>
    match active_chip.ip_pma with
    | none => (-ENODEV, hwpm)
    | some pma_ip =>
      if !pma_ip.reserved then (-ENODEV, hwpm)
      else
        match active_chip.ip_rtr with
        | none => (-ENODEV, hwpm)
        | some rtr_ip =>
          if !rtr_ip.reserved then (-ENODEV, hwpm)
          else (0, disable_slcg_writes hw hwpm pma_ip rtr_ip)

/-- The register sequence of `t234_hwpm_enable_slcg` after its guards (lines 467-489). -/
def enable_slcg_writes {W : Type} (hw : SlcgRegs) (hwpm : tegra_soc_hwpm W)
    (pma_ip rtr_ip : hwpm_ip) : tegra_soc_hwpm W :=
  let pma_perfmux := perfmux_slot0 pma_ip
  let rtr_perfmux := perfmux_static0 rtr_ip
  let reg_val := tegra_hwpm_readl hwpm pma_perfmux hw.pmasys_cg2_r
  let reg_val := set_field reg_val hw.pmasys_cg2_slcg_m hw.pmasys_cg2_slcg_enabled_f
  let hwpm1 := tegra_hwpm_writel hwpm pma_perfmux hw.pmasys_cg2_r reg_val
  let field_mask := hw.pmmsys_sys0router_cg2_slcg_perfmon_m |||
    hw.pmmsys_sys0router_cg2_slcg_router_m ||| hw.pmmsys_sys0router_cg2_slcg_m
  let field_val := hw.pmmsys_sys0router_cg2_slcg_perfmon__prod_f |||
    hw.pmmsys_sys0router_cg2_slcg_router__prod_f |||
    hw.pmmsys_sys0router_cg2_slcg__prod_f
  let reg_val := tegra_hwpm_readl hwpm1 rtr_perfmux hw.pmmsys_sys0router_cg2_r
  let reg_val := set_field reg_val field_mask field_val
  tegra_hwpm_writel hwpm1 rtr_perfmux hw.pmmsys_sys0router_cg2_r reg_val

/-- Embedding of `t234_hwpm_enable_slcg` (lines 438-490). -/
def t234_hwpm_enable_slcg {W : Type} (hw : SlcgRegs) (hwpm : tegra_soc_hwpm W) :
    Int × tegra_soc_hwpm W :=
  match hwpm.active_chip with
  | none => (-ENODEV, hwpm)
  | some active_chip =>
    match active_chip.ip_pma with
    | none => (-ENODEV, hwpm)
    | some pma_ip =>
      if !pma_ip.reserved then (-ENODEV, hwpm)
      else
        match active_chip.ip_rtr with
        | none => (-ENODEV, hwpm)
        | some rtr_ip =>
          if !rtr_ip.reserved then (-ENODEV, hwpm)
          else (0, enable_slcg_writes hw hwpm pma_ip rtr_ip)

/-! ## Observations on a state -/

/-- The PMA block of the active chip, when both exist. -/
def pma_ip {W : Type} (hwpm : tegra_soc_hwpm W) : Option hwpm_ip :=
  match hwpm.active_chip with
  | none => none
  | some c => c.ip_pma

/-- The RTR block of the active chip, when both exist. -/
def rtr_ip {W : Type} (hwpm : tegra_soc_hwpm W) : Option hwpm_ip :=
  match hwpm.active_chip with
  | none => none
  | some c => c.ip_rtr

/-- `PMA.reserved` (false when the block is absent). -/
def pma_reserved {W : Type} (hwpm : tegra_soc_hwpm W) : Bool :=
  match pma_ip hwpm with
  | none => false
  | some ip => ip.reserved

/-- `RTR.reserved` (false when the block is absent). -/
def rtr_reserved {W : Type} (hwpm : tegra_soc_hwpm W) : Bool :=
  match rtr_ip hwpm with
  | none => false
  | some ip => ip.reserved

/-- The events logged between an earlier log and a later one that extends it. -/
def new_events (before after : List Event) : List Event :=
  after.drop before.length

/-- Number of invocations of sub-operation `op` on slot `idx` of the `kind`
array of block `ip` in a list of events. -/
def calls_on (op : SubOp) (ip : IpId) (kind : SlotKind) (idx : Nat)
    (evs : List Event) : Nat :=
  evs.countP fun ev =>
    match ev with
    | Event.call o i k j _ => decide (o = op ∧ i = ip ∧ k = kind ∧ j = idx)
    | _ => false

/-- True for a register write. -/
def Event.is_write : Event → Bool
  | Event.writel _ _ _ => true
  | _ => false

/-- The slot is the view of PMA's primary aperture: same absolute physical address. -/
def aliases (pma_perfmux rtr_perfmux : hwpm_ip_perfmux) : Bool :=
  decide (rtr_perfmux.start_abs_pa = pma_perfmux.start_abs_pa)

/-! ## Sequences of reservation calls -/

/-- The four reservation entry points. -/
inductive Op where
  | reserve_pma
  | release_pma
  | reserve_rtr
  | release_rtr
deriving DecidableEq, Repr

/-- One call of an entry point. -/
def run_op {W : Type} (ops : SubOps W) (op : Op) (hwpm : tegra_soc_hwpm W) :
    Option (Int × tegra_soc_hwpm W) :=
  match op with
  | Op.reserve_pma => t234_hwpm_reserve_pma ops hwpm
  | Op.release_pma => t234_hwpm_release_pma ops hwpm
  | Op.reserve_rtr => t234_hwpm_reserve_rtr ops hwpm
  | Op.release_rtr => t234_hwpm_release_rtr ops hwpm

/-- The state after a sequence of calls, whatever each call returned. -/
def run_ops {W : Type} (ops : SubOps W) :
    List Op → tegra_soc_hwpm W → Option (tegra_soc_hwpm W)
  | [], hwpm => some hwpm
  | op :: rest, hwpm =>
    match run_op ops op hwpm with
    | none => none
    | some r => run_ops ops rest r.2

/-- The state after a sequence of calls in which the caller keeps the release
order: `release_pma` is only called while RTR is unreserved. A sequence that
breaks the rule has no result. -/
def run_ops_ordered {W : Type} (ops : SubOps W) :
    List Op → tegra_soc_hwpm W → Option (tegra_soc_hwpm W)
  | [], hwpm => some hwpm
  | op :: rest, hwpm =>
    if op = Op.release_pma ∧ rtr_reserved hwpm = true then none
    else
      match run_op ops op hwpm with
      | none => none
      | some r => run_ops_ordered ops rest r.2

/-! ## Concrete collaborators and states -/

/-- A scripted reserve: the head of the script is the return code of the call
(success once the script is used up). Success maps the aperture; failure leaves
the slot as it was. -/
def scripted_reserve (w : List Int) (p : hwpm_ip_perfmux) : SubResult × List Int :=
  match w with
  | [] => (⟨0, p.start_abs_pa, p.start_abs_pa + 4095, some p.start_abs_pa, none⟩, [])
  | r :: rest =>
    if r = 0 then (⟨0, p.start_abs_pa, p.start_abs_pa + 4095, some p.start_abs_pa, none⟩, rest)
    else (⟨r, p.start_pa, p.end_pa, p.dt_mmio, p.fake_registers⟩, rest)

/-- A scripted release: success unmaps the aperture; failure leaves the slot as it was. -/
def scripted_release (w : List Int) (p : hwpm_ip_perfmux) : SubResult × List Int :=
  match w with
  | [] => (⟨0, 0, 0, none, none⟩, [])
  | r :: rest =>
    if r = 0 then (⟨0, 0, 0, none, none⟩, rest)
    else (⟨r, p.start_pa, p.end_pa, p.dt_mmio, p.fake_registers⟩, rest)

/-- Collaborators whose return codes follow a script. -/
def scripted_ops : SubOps (List Int) := ⟨scripted_reserve, scripted_release⟩

/-- PMA's primary aperture, unmapped. -/
def ex_pma_perfmux : hwpm_ip_perfmux := ⟨0x0f14a000, 0, 0, none, none, 1⟩

/-- A PMA perfmon, unmapped. -/
def ex_pma_perfmon : hwpm_ip_perfmux := ⟨0x0f14b000, 0, 0, none, none, 1⟩

/-- RTR's own aperture, unmapped. -/
def ex_rtr_perfmux : hwpm_ip_perfmux := ⟨0x0f14d000, 0, 0, none, none, 1⟩

/-- RTR's view of PMA's primary aperture, unmapped. -/
def ex_rtr_pma_view : hwpm_ip_perfmux := ⟨0x0f14a000, 0, 0, none, none, 2⟩

/-- An unreserved PMA block with one perfmux and one perfmon. -/
def ex_pma : hwpm_ip := ⟨[some ex_pma_perfmux], [some ex_pma_perfmon], [ex_pma_perfmux], 0, false⟩

/-- An unreserved RTR block: its own aperture and its view of PMA's. -/
def ex_rtr : hwpm_ip :=
  ⟨[some ex_rtr_perfmux, some ex_rtr_pma_view], [], [ex_rtr_perfmux, ex_rtr_pma_view], 0, false⟩

/-- The initial state: both blocks unreserved, all registers 0, empty log, and
the given script of sub-operation return codes. -/
def ex_init (script : List Int) : tegra_soc_hwpm (List Int) :=
  ⟨some ⟨some ex_pma, some ex_rtr⟩, false, fun _ _ => 0, script, []⟩

/-- An unreserved PMA block with two present perfmuxes around an absent slot,
and one perfmon. -/
def ex_pma_wide : hwpm_ip :=
  ⟨[some ex_pma_perfmux, none, some ⟨0x0f14c000, 0, 0, none, none, 4⟩], [some ex_pma_perfmon],
    [ex_pma_perfmux], 0, false⟩

/-- The initial state with the wide PMA block. -/
def ex_init_wide (script : List Int) : tegra_soc_hwpm (List Int) :=
  ⟨some ⟨some ex_pma_wide, some ex_rtr⟩, false, fun _ _ => 0, script, []⟩

/-- A state over the scripted collaborators: both blocks present, all registers 0. -/
def ex_state (pma rtr : hwpm_ip) (fake : Bool) (script : List Int) (trace : List Event) :
    tegra_soc_hwpm (List Int) :=
  ⟨some ⟨some pma, some rtr⟩, fake, fun _ _ => 0, script, trace⟩

/-- PMA's primary aperture, mapped. -/
def ex_pma_perfmux_on : hwpm_ip_perfmux :=
  ⟨0x0f14a000, 0x0f14a000, 0x0f14afff, some 0x0f14a000, none, 1⟩

/-- The PMA perfmon, mapped. -/
def ex_pma_perfmon_on : hwpm_ip_perfmux :=
  ⟨0x0f14b000, 0x0f14b000, 0x0f14bfff, some 0x0f14b000, none, 1⟩

/-- The PMA block, reserved. -/
def ex_pma_on : hwpm_ip :=
  ⟨[some ex_pma_perfmux_on], [some ex_pma_perfmon_on], [ex_pma_perfmux], 1, true⟩

/-- RTR's own aperture, mapped. -/
def ex_rtr_perfmux_on : hwpm_ip_perfmux :=
  ⟨0x0f14d000, 0x0f14d000, 0x0f14dfff, some 0x0f14d000, none, 1⟩

/-- RTR's view of PMA's primary aperture, sharing PMA's range and handle. -/
def ex_rtr_pma_view_on : hwpm_ip_perfmux :=
  ⟨0x0f14a000, 0x0f14a000, 0x0f14afff, some 0x0f14a000, none, 2⟩

/-- The RTR block, reserved. -/
def ex_rtr_on : hwpm_ip :=
  ⟨[some ex_rtr_perfmux_on, some ex_rtr_pma_view_on], [], [ex_rtr_perfmux, ex_rtr_pma_view], 3,
    true⟩

/-- The mask `fs` with the `hw_inst_mask` of every present slot ORed in, in slot order. -/
def or_masks (fs : Nat) : List (Option hwpm_ip_perfmux) → Nat
  | [] => fs
  | none :: rest => or_masks fs rest
  | some p :: rest => or_masks (fs ||| p.hw_inst_mask) rest

/-- An RTR slot once `reserve_rtr` has made it share PMA's primary aperture `p`. -/
def shares (fake_registers_enabled : Bool) (p q : hwpm_ip_perfmux) : hwpm_ip_perfmux :=
  { q with start_pa := p.start_pa, end_pa := p.end_pa, dt_mmio := p.dt_mmio,
           fake_registers :=
             if fake_registers_enabled then p.fake_registers else q.fake_registers }

/-- An RTR slot once `release_rtr` has cleared what it shared. -/
def unshared (fake_registers_enabled : Bool) (q : hwpm_ip_perfmux) : hwpm_ip_perfmux :=
  { q with start_pa := 0, end_pa := 0, dt_mmio := none,
           fake_registers := if fake_registers_enabled then none else q.fake_registers }

/-- RTR's view of PMA's primary aperture, holding a fake-register buffer of its own. -/
def ex_rtr_pma_view_stale : hwpm_ip_perfmux :=
  ⟨0x0f14a000, 0x0f14a000, 0x0f14afff, some 0x0f14a000, some 7, 2⟩

/-- The RTR block, reserved, its view of PMA's aperture holding a fake-register buffer. -/
def ex_rtr_stale : hwpm_ip :=
  ⟨[some ex_rtr_perfmux_on, some ex_rtr_pma_view_stale], [], [ex_rtr_perfmux, ex_rtr_pma_view],
    3, true⟩

/-- The three-field mask of the RTR clock-gating register, as the toggles build it. -/
def SlcgRegs.rtr_cg2_mask (hw : SlcgRegs) : Nat :=
  hw.pmmsys_sys0router_cg2_slcg_perfmon_m ||| hw.pmmsys_sys0router_cg2_slcg_router_m |||
    hw.pmmsys_sys0router_cg2_slcg_m

/-- The production encodings of the three RTR fields, as `enable_slcg` builds them. -/
def SlcgRegs.rtr_cg2_prod (hw : SlcgRegs) : Nat :=
  hw.pmmsys_sys0router_cg2_slcg_perfmon__prod_f ||| hw.pmmsys_sys0router_cg2_slcg_router__prod_f |||
    hw.pmmsys_sys0router_cg2_slcg__prod_f

/-- Example clock-gating constants: one-bit fields whose disabled encoding sets
the bit and whose enabled (production) encoding clears it. -/
def ex_slcg_regs : SlcgRegs :=
  { pmasys_cg2_r := 0x0f14a044
    pmasys_cg2_slcg_m := 0x1
    pmasys_cg2_slcg_disabled_f := 0x1
    pmasys_cg2_slcg_enabled_f := 0x0
    pmmsys_sys0router_cg2_r := 0x0f14d018
    pmmsys_sys0router_cg2_slcg_perfmon_m := 0x80000000
    pmmsys_sys0router_cg2_slcg_router_m := 0x40000000
    pmmsys_sys0router_cg2_slcg_m := 0x20000000
    pmmsys_sys0router_cg2_slcg_perfmon_disabled_f := 0x80000000
    pmmsys_sys0router_cg2_slcg_router_disabled_f := 0x40000000
    pmmsys_sys0router_cg2_slcg_disabled_f := 0x20000000
    pmmsys_sys0router_cg2_slcg_perfmon__prod_f := 0x0
    pmmsys_sys0router_cg2_slcg_router__prod_f := 0x0
    pmmsys_sys0router_cg2_slcg__prod_f := 0x0 }

/-- Both blocks reserved, and both clock-gating registers holding the disabled
encodings in their SLCG fields (with one more bit set outside the fields). -/
def ex_slcg_gated_off : tegra_soc_hwpm (List Int) :=
  ⟨some ⟨some ex_pma_on, some ex_rtr_on⟩, false,
    fun pa r =>
      if pa = 0x0f14a000 ∧ r = 0x0f14a044 then 0x11
      else if pa = 0x0f14d000 ∧ r = 0x0f14d018 then 0xe0000010
      else 0,
    [], []⟩

/-! ## `t234_hwpm_disable_triggers` and `t234_hwpm_init_prod_values` -/

/-- Linux errno 5 (I/O error); the source returns it negated. -/
def EIO : Int := 5

/-- The trigger and status constants of the hardware headers, which are outside
this file: register addresses (`_r`), field masks (`_m`), field encodings
(`_f`), field values (`_v`) and field extractors (`_v` of a register value). -/
structure TriggerRegs where
  pmasys_trigger_config_user_r : Nat → Nat
  pmasys_trigger_config_user_pma_pulse_m : Nat
  pmasys_trigger_config_user_pma_pulse_disable_f : Nat
  pmasys_sys_trigger_start_mask_r : Nat
  pmasys_sys_trigger_start_maskb_r : Nat
  pmasys_sys_trigger_stop_mask_r : Nat
  pmasys_sys_trigger_stop_maskb_r : Nat
  pmmsys_sys0router_perfmonstatus_r : Nat
  pmmsys_sys0router_perfmonstatus_merged_v : Nat → Nat
  pmmsys_sys0router_enginestatus_r : Nat
  pmmsys_sys0router_enginestatus_status_v : Nat → Nat
  pmmsys_sys0router_enginestatus_status_empty_v : Nat
  pmasys_enginestatus_r : Nat
  pmasys_enginestatus_status_m : Nat
  pmasys_enginestatus_rbufempty_m : Nat
  pmasys_enginestatus_status_empty_f : Nat
  pmasys_enginestatus_rbufempty_empty_f : Nat

/-- Modelled from the spec: what the hardware does while a bounded poll waits is
outside this file. `wait w cond` tells whether the retry budget of poll `cond`
ran out before the condition was met (`true` is a timeout). -/
structure PollOps (W : Type) where
  wait : W → Nat → Bool × W

/-- Modelled from the spec: the macro `HWPM_TIMEOUT(check, msg)` is defined
outside this file. It polls the condition within a bounded retry budget and
answers `true` when the budget expired: a condition that reads met at once is
met without retrying, otherwise the outcome is the hardware's. The poll is
logged with its outcome. -/
def HWPM_TIMEOUT {W : Type} (polls : PollOps W) (hwpm : tegra_soc_hwpm W) (cond : Nat)
    (check : Bool) : Bool × tegra_soc_hwpm W :=
  let r := if check then (false, hwpm.world) else polls.wait hwpm.world cond
  (r.1, { hwpm with world := r.2, trace := hwpm.trace ++ [Event.poll cond r.1] })

/-- The register writes of `t234_hwpm_disable_triggers` (lines 308-323): the
pulse field of the trigger configuration is set to its disabled encoding and
the four trigger masks are zeroed. -/
def disable_triggers_writes {W : Type} (hw : TriggerRegs) (hwpm : tegra_soc_hwpm W)
    (pma_perfmux : Option hwpm_ip_perfmux) : tegra_soc_hwpm W :=
  let reg_val := tegra_hwpm_readl hwpm pma_perfmux (hw.pmasys_trigger_config_user_r 0)
  let reg_val := set_field reg_val hw.pmasys_trigger_config_user_pma_pulse_m
    hw.pmasys_trigger_config_user_pma_pulse_disable_f
  let h1 := tegra_hwpm_writel hwpm pma_perfmux (hw.pmasys_trigger_config_user_r 0) reg_val
  let h2 := tegra_hwpm_writel h1 pma_perfmux hw.pmasys_sys_trigger_start_mask_r 0
  let h3 := tegra_hwpm_writel h2 pma_perfmux hw.pmasys_sys_trigger_start_maskb_r 0
  let h4 := tegra_hwpm_writel h3 pma_perfmux hw.pmasys_sys_trigger_stop_mask_r 0
  tegra_hwpm_writel h4 pma_perfmux hw.pmasys_sys_trigger_stop_maskb_r 0

/-- The three polls of `t234_hwpm_disable_triggers` (lines 325-354), numbered
0 (RTR merged perfmon status), 1 (RTR engine status) and 2 (PMA engine status),
with the local `ret` starting at 0. -/
def disable_triggers_waits {W : Type} (polls : PollOps W) (hw : TriggerRegs)
    (hwpm : tegra_soc_hwpm W) (pma_perfmux rtr_perfmux : Option hwpm_ip_perfmux) :
    Int × tegra_soc_hwpm W :=
  let ret : Int := 0
  let t1 := HWPM_TIMEOUT polls hwpm 0
    (decide (hw.pmmsys_sys0router_perfmonstatus_merged_v
      (tegra_hwpm_readl hwpm rtr_perfmux hw.pmmsys_sys0router_perfmonstatus_r) = 0))
  let ret : Int := if t1.1 = true ∧ ret = 0 then - EIO else ret
  let t2 := HWPM_TIMEOUT polls t1.2 1
    (decide (hw.pmmsys_sys0router_enginestatus_status_v
      (tegra_hwpm_readl t1.2 rtr_perfmux hw.pmmsys_sys0router_enginestatus_r)
        = hw.pmmsys_sys0router_enginestatus_status_empty_v))
  let ret : Int := if t2.1 = true ∧ ret = 0 then - EIO else ret
  let field_mask := hw.pmasys_enginestatus_status_m ||| hw.pmasys_enginestatus_rbufempty_m
  let field_val := hw.pmasys_enginestatus_status_empty_f |||
    hw.pmasys_enginestatus_rbufempty_empty_f
  let t3 := HWPM_TIMEOUT polls t2.2 2
    (decide (tegra_hwpm_readl t2.2 pma_perfmux hw.pmasys_enginestatus_r &&& field_mask
      = field_val))
  let ret : Int := if t3.1 = true ∧ ret = 0 then - EIO else ret
  (ret, t3.2)

/-- Embedding of `t234_hwpm_disable_triggers` (lines 291-355). `active_chip` and
both blocks are dereferenced to name the two apertures. -/
def t234_hwpm_disable_triggers {W : Type} (polls : PollOps W) (hw : TriggerRegs)
    (hwpm : tegra_soc_hwpm W) : Option (Int × tegra_soc_hwpm W) :=
  match hwpm.active_chip with
  | none => none
  | some active_chip =>
    match active_chip.ip_pma with
    | none => none
    | some chip_ip_pma =>
      match active_chip.ip_rtr with
      | none => none
      | some chip_ip_rtr =>
        let pma_perfmux := perfmux_slot0 chip_ip_pma
        let rtr_perfmux := perfmux_static0 chip_ip_rtr
        some (disable_triggers_waits polls hw
          (disable_triggers_writes hw hwpm pma_perfmux) pma_perfmux rtr_perfmux)

/-- The production constants of the hardware headers used by
`t234_hwpm_init_prod_values`, which are outside this file. -/
structure ProdRegs where
  pmasys_controlb_r : Nat
  pmasys_controlb_coalesce_timeout_cycles_m : Nat
  pmasys_controlb_coalesce_timeout_cycles__prod_f : Nat
  pmasys_channel_config_user_r : Nat → Nat
  pmasys_channel_config_user_coalesce_timeout_cycles_m : Nat
  pmasys_channel_config_user_coalesce_timeout_cycles__prod_f : Nat

/-- The register sequence of `t234_hwpm_init_prod_values` (lines 367-379). -/
def init_prod_values_writes {W : Type} (hw : ProdRegs) (hwpm : tegra_soc_hwpm W)
    (pma_perfmux : Option hwpm_ip_perfmux) : tegra_soc_hwpm W :=
  let reg_val := tegra_hwpm_readl hwpm pma_perfmux hw.pmasys_controlb_r
  let reg_val := set_field reg_val hw.pmasys_controlb_coalesce_timeout_cycles_m
    hw.pmasys_controlb_coalesce_timeout_cycles__prod_f
  let h1 := tegra_hwpm_writel hwpm pma_perfmux hw.pmasys_controlb_r reg_val
  let reg_val := tegra_hwpm_readl h1 pma_perfmux (hw.pmasys_channel_config_user_r 0)
  let reg_val := set_field reg_val hw.pmasys_channel_config_user_coalesce_timeout_cycles_m
    hw.pmasys_channel_config_user_coalesce_timeout_cycles__prod_f
  tegra_hwpm_writel h1 pma_perfmux (hw.pmasys_channel_config_user_r 0) reg_val

/-- Embedding of `t234_hwpm_init_prod_values` (lines 357-382). `active_chip` and
the PMA block are dereferenced to name the aperture. -/
def t234_hwpm_init_prod_values {W : Type} (hw : ProdRegs) (hwpm : tegra_soc_hwpm W) :
    Option (Int × tegra_soc_hwpm W) :=
  match hwpm.active_chip with
  | none => none
  | some active_chip =>
    match active_chip.ip_pma with
    | none => none
    | some chip_ip_pma =>
      some (0, init_prod_values_writes hw hwpm (perfmux_slot0 chip_ip_pma))

/-- True for a status poll. -/
def Event.is_poll : Event → Bool
  | Event.poll _ _ => true
  | _ => false

/-- Example trigger constants: one-bit pulse field whose disabled encoding is 0,
status fields in the low bits whose empty encoding is 0. -/
def ex_trigger_regs : TriggerRegs :=
  { pmasys_trigger_config_user_r := fun i => 0x0f14a620 + 0x20 * i
    pmasys_trigger_config_user_pma_pulse_m := 0x1
    pmasys_trigger_config_user_pma_pulse_disable_f := 0x0
    pmasys_sys_trigger_start_mask_r := 0x0f14a66c
    pmasys_sys_trigger_start_maskb_r := 0x0f14a670
    pmasys_sys_trigger_stop_mask_r := 0x0f14a684
    pmasys_sys_trigger_stop_maskb_r := 0x0f14a688
    pmmsys_sys0router_perfmonstatus_r := 0x0f14d014
    pmmsys_sys0router_perfmonstatus_merged_v := fun r => r % 8
    pmmsys_sys0router_enginestatus_r := 0x0f14d010
    pmmsys_sys0router_enginestatus_status_v := fun r => r % 8
    pmmsys_sys0router_enginestatus_status_empty_v := 0
    pmasys_enginestatus_r := 0x0f14a75c
    pmasys_enginestatus_status_m := 0x7
    pmasys_enginestatus_rbufempty_m := 0x10
    pmasys_enginestatus_status_empty_f := 0x0
    pmasys_enginestatus_rbufempty_empty_f := 0x10 }

/-- Example production constants. -/
def ex_prod_regs : ProdRegs :=
  { pmasys_controlb_r := 0x0f14a070
    pmasys_controlb_coalesce_timeout_cycles_m := 0x70
    pmasys_controlb_coalesce_timeout_cycles__prod_f := 0x40
    pmasys_channel_config_user_r := fun i => 0x0f14a640 + 0x4 * i
    pmasys_channel_config_user_coalesce_timeout_cycles_m := 0x7
    pmasys_channel_config_user_coalesce_timeout_cycles__prod_f := 0x4 }

/-- Polls whose outcomes follow a script: the head of the script tells whether
the wait times out (no timeout once the script is used up). -/
def scripted_polls : PollOps (List Int) :=
  ⟨fun w _ => match w with
    | [] => (false, [])
    | r :: rest => (decide (r ≠ 0), rest)⟩

/-- Both blocks reserved, triggers armed (pulse bit and all four masks set) and
every status register reading busy. -/
def ex_triggers_armed (script : List Int) : tegra_soc_hwpm (List Int) :=
  ⟨some ⟨some ex_pma_on, some ex_rtr_on⟩, false,
    fun pa r =>
      if pa = 0x0f14a000 ∧ r = 0x0f14a620 then 0x31
      else if pa = 0x0f14a000 ∧
        (r = 0x0f14a66c ∨ r = 0x0f14a670 ∨ r = 0x0f14a684 ∨ r = 0x0f14a688) then 0xff
      else if pa = 0x0f14a000 ∧ r = 0x0f14a070 then 0x13
      else if pa = 0x0f14a000 ∧ r = 0x0f14a640 then 0x1a
      else 1,
    script, []⟩

/-! ## Vocabulary for exact loop logs, masks and slot sub-states -/

/-- The log of a loop over `slots` from index `idx` in which every call returned 0:
one event per present slot the body calls the sub-operation on, in slot order. -/
def expected_calls (calls : hwpm_ip_perfmux → Bool) (op : SubOp) (ip : IpId)
    (kind : SlotKind) : Nat → List (Option hwpm_ip_perfmux) → List Event
  | _, [] => []
  | idx, none :: rest => expected_calls calls op ip kind (idx + 1) rest
  | idx, some p :: rest =>
      (if calls p then [Event.call op ip kind idx 0] else []) ++
        expected_calls calls op ip kind (idx + 1) rest

/-- The mask `fs` after `f` has been applied with the `hw_inst_mask` of every
present slot, in slot order. -/
def fold_masks (f : Nat → Nat → Nat) (fs : Nat) : List (Option hwpm_ip_perfmux) → Nat
  | [] => fs
  | none :: rest => fold_masks f fs rest
  | some p :: rest => fold_masks f (f fs p.hw_inst_mask) rest

/-- The mask `fs` with the `hw_inst_mask` bits of every present slot cleared. -/
def and_not_masks (fs : Nat) : List (Option hwpm_ip_perfmux) → Nat
  | [] => fs
  | none :: rest => and_not_masks fs rest
  | some p :: rest => and_not_masks (fs &&& u32_not p.hw_inst_mask) rest

/-- What a loop body does to the block's `fs_mask`: `f` is applied with the
slot's mask when the body goes on, nothing when it leaves the loop. -/
def MaskSpec {W : Type}
    (body : Nat → hwpm_ip_perfmux → LoopSt W → Bool × hwpm_ip_perfmux × LoopSt W)
    (f : Nat → Nat → Nat) : Prop :=
  ∀ idx p st,
    ((body idx p st).1 = false →
      (body idx p st).2.2.fs_mask = f st.fs_mask p.hw_inst_mask) ∧
    ((body idx p st).1 = true → (body idx p st).2.2.fs_mask = st.fs_mask)

/-- The sub-state of slot `idx` of the `kind` array of block `ip` after a log,
starting from `acc`: a reserve that returned 0 puts the slot in its reserved
sub-state, a release that returned 0 takes it out, nothing else touches it. -/
def sub_state (ip : IpId) (kind : SlotKind) (idx : Nat) (acc : Bool) : List Event → Bool
  | [] => acc
  | Event.call op i k j ret :: rest =>
      if i = ip ∧ k = kind ∧ j = idx ∧ ret = 0 then
        sub_state ip kind idx (decide (op = SubOp.reserve)) rest
      else sub_state ip kind idx acc rest
  | _ :: rest => sub_state ip kind idx acc rest

/-- The slot is in its reserved sub-state: its reserve step completed and it has
not since been released. -/
def slot_reserved (ip : IpId) (kind : SlotKind) (idx : Nat) (trace : List Event) : Bool :=
  sub_state ip kind idx false trace

/-- The wide PMA block, reserved. -/
def ex_pma_wide_on : hwpm_ip :=
  ⟨[some ex_pma_perfmux_on, none, some ⟨0x0f14c000, 0x0f14c000, 0x0f14cfff, some 0x0f14c000, none, 4⟩],
    [some ex_pma_perfmon_on], [ex_pma_perfmux], 5, true⟩

/-- An unreserved RTR block whose view of PMA's aperture comes first. -/
def ex_rtr_view_first : hwpm_ip :=
  ⟨[some ex_rtr_pma_view, some ex_rtr_perfmux], [], [ex_rtr_perfmux, ex_rtr_pma_view], 0, false⟩

/-- An unreserved PMA block with one perfmux and two perfmons. -/
def ex_pma_two_perfmons : hwpm_ip :=
  ⟨[some ex_pma_perfmux], [some ex_pma_perfmon, some ⟨0x0f14c000, 0, 0, none, none, 1⟩],
    [ex_pma_perfmux], 0, false⟩

/-! ## Vocabulary for the SLCG overwrite laws -/

/-- The disabled encodings of the three RTR fields, as `disable_slcg` builds them. -/
def SlcgRegs.rtr_cg2_disabled (hw : SlcgRegs) : Nat :=
  hw.pmmsys_sys0router_cg2_slcg_perfmon_disabled_f |||
    hw.pmmsys_sys0router_cg2_slcg_router_disabled_f |||
    hw.pmmsys_sys0router_cg2_slcg_disabled_f

/-- Every field encoding of the clock-gating constants lies inside its field mask. -/
def SlcgRegs.fields_in_masks (hw : SlcgRegs) : Prop :=
  hw.pmasys_cg2_slcg_disabled_f &&& hw.pmasys_cg2_slcg_m = hw.pmasys_cg2_slcg_disabled_f ∧
  hw.pmasys_cg2_slcg_enabled_f &&& hw.pmasys_cg2_slcg_m = hw.pmasys_cg2_slcg_enabled_f ∧
  hw.pmmsys_sys0router_cg2_slcg_perfmon_disabled_f &&& hw.pmmsys_sys0router_cg2_slcg_perfmon_m
    = hw.pmmsys_sys0router_cg2_slcg_perfmon_disabled_f ∧
  hw.pmmsys_sys0router_cg2_slcg_router_disabled_f &&& hw.pmmsys_sys0router_cg2_slcg_router_m
    = hw.pmmsys_sys0router_cg2_slcg_router_disabled_f ∧
  hw.pmmsys_sys0router_cg2_slcg_disabled_f &&& hw.pmmsys_sys0router_cg2_slcg_m
    = hw.pmmsys_sys0router_cg2_slcg_disabled_f ∧
  hw.pmmsys_sys0router_cg2_slcg_perfmon__prod_f &&& hw.pmmsys_sys0router_cg2_slcg_perfmon_m
    = hw.pmmsys_sys0router_cg2_slcg_perfmon__prod_f ∧
  hw.pmmsys_sys0router_cg2_slcg_router__prod_f &&& hw.pmmsys_sys0router_cg2_slcg_router_m
    = hw.pmmsys_sys0router_cg2_slcg_router__prod_f ∧
  hw.pmmsys_sys0router_cg2_slcg__prod_f &&& hw.pmmsys_sys0router_cg2_slcg_m
    = hw.pmmsys_sys0router_cg2_slcg__prod_f

/-- The register contents after one read-modify-write of a field: register `addr`
of the aperture holds `set_field(old, m, f)` as a `u32`, every other register is
as before; nothing is written through a `NULL` aperture. -/
def rmw (regs : Nat → Nat → Nat) (ap : Option hwpm_ip_perfmux) (addr m f : Nat) :
    Nat → Nat → Nat :=
  match ap with
  | none => regs
  | some a => fun pa r =>
      if pa = a.start_abs_pa ∧ r = addr then
        set_field (regs a.start_abs_pa addr % 2 ^ 32) m f % 2 ^ 32
      else regs pa r

/-- Bit `i` of register `r` of the aperture at `pa` lies in the field `mask` of
register `addr` of the aperture `ap`. -/
def in_field (ap : Option hwpm_ip_perfmux) (addr mask : Nat) (pa r i : Nat) : Prop :=
  ∃ a, ap = some a ∧ pa = a.start_abs_pa ∧ r = addr ∧ mask.testBit i = true

/-! ## Vocabulary for the block invariant -/

/-- The order in which the loops of a block visit its slots: the perfmux slots
by index, then the perfmon slots by index. -/
def slot_before (k1 : SlotKind) (i1 : Nat) (k2 : SlotKind) (i2 : Nat) : Prop :=
  (k1 = SlotKind.perfmux ∧ k2 = SlotKind.perfmon) ∨ (k1 = k2 ∧ i1 < i2)

/-- The slots a block reserves and releases through the sub-operation, the ones
whose sub-state the log tells: every present perfmux and perfmon slot of PMA,
and the present perfmux slots of RTR that do not alias PMA's slot 0 (the RTR
loops never visit a perfmon slot). -/
def tracked (pma rtr : hwpm_ip) : IpId → SlotKind → Nat → Prop
  | IpId.pma, SlotKind.perfmux, i => ∃ p, pma.ip_perfmux[i]? = some (some p)
  | IpId.pma, SlotKind.perfmon, i => ∃ p, pma.ip_perfmon[i]? = some (some p)
  | IpId.rtr, SlotKind.perfmux, i =>
      ∃ p q, perfmux_slot0 pma = some p ∧ rtr.ip_perfmux[i]? = some (some q) ∧
        aliases p q = false
  | IpId.rtr, SlotKind.perfmon, _ => False

/-- The `reserved` flag of a block. -/
def block_reserved (pma rtr : hwpm_ip) : IpId → Bool
  | IpId.pma => pma.reserved
  | IpId.rtr => rtr.reserved

/-- No release sub-operation on a slot of the block has returned an error. -/
def no_failed_release (ip : IpId) (trace : List Event) : Prop :=
  ∀ (kind : SlotKind) (idx : Nat) (ret : Int),
    Event.call SubOp.release ip kind idx ret ∈ trace → ret = 0

/-- The invariant of a block with slots `T`, flag `res` and log `trace`: while no
release has failed a reserved block has all its slots reserved, and the last
slot of an unreserved block is not reserved. -/
def block_inv (T : SlotKind → Nat → Prop) (ip : IpId) (res : Bool) (trace : List Event) :
    Prop :=
  (res = true → no_failed_release ip trace →
    ∀ (kind : SlotKind) (i : Nat), T kind i → slot_reserved ip kind i trace = true) ∧
  (res = false →
    ∀ (kind : SlotKind) (i : Nat), T kind i →
      (∀ (kind2 : SlotKind) (j : Nat), T kind2 j → ¬ slot_before kind i kind2 j) →
      slot_reserved ip kind i trace = false)

/-- What one call of an entry point does to a block with slots `T`, as the events
`new` it logs tell: nothing; a complete reserve; a reserve that stopped before
the last slot; a complete release; a release that stopped on an error. -/
def step_outcome (T : SlotKind → Nat → Prop) (ip : IpId) (res res2 : Bool)
    (new : List Event) : Prop :=
  (res2 = res ∧ ∀ (op : SubOp) (kind : SlotKind) (i : Nat), Event.call op ip kind i 0 ∉ new) ∨
  (res2 = true ∧ ∀ (kind : SlotKind) (i : Nat), T kind i →
    Event.call SubOp.reserve ip kind i 0 ∈ new ∧
    ∀ (op : SubOp), Event.call op ip kind i 0 ∈ new → op = SubOp.reserve) ∨
  (res = false ∧ res2 = false ∧ ∀ (kind : SlotKind) (i : Nat),
    Event.call SubOp.reserve ip kind i 0 ∈ new →
    ∃ (kind2 : SlotKind) (j : Nat), T kind2 j ∧ slot_before kind i kind2 j) ∨
  (res2 = false ∧ ∀ (kind : SlotKind) (i : Nat), T kind i →
    Event.call SubOp.release ip kind i 0 ∈ new ∧
    ∀ (op : SubOp), Event.call op ip kind i 0 ∈ new → op = SubOp.release) ∨
  (res2 = true ∧ ∃ (kind : SlotKind) (i : Nat) (ret : Int), ret ≠ 0 ∧
    Event.call SubOp.release ip kind i ret ∈ new)

/-- The invariant of both blocks of a state. -/
def blocks_inv {W : Type} (s : tegra_soc_hwpm W) : Prop :=
  ∀ (pma rtr : hwpm_ip), pma_ip s = some pma → rtr_ip s = some rtr →
    ∀ (ip : IpId), block_inv (tracked pma rtr ip) ip (block_reserved pma rtr ip) s.trace

/-- One call took `s` to `s2`: the blocks of `s2` are those of `s` with the same
slots, the log grew by some events, and each block met one of the outcomes. -/
def call_outcome {W : Type} (s s2 : tegra_soc_hwpm W) : Prop :=
  ∀ (pma2 rtr2 : hwpm_ip), pma_ip s2 = some pma2 → rtr_ip s2 = some rtr2 →
    ∃ (pma rtr : hwpm_ip) (new : List Event),
      pma_ip s = some pma ∧ rtr_ip s = some rtr ∧ s2.trace = s.trace ++ new ∧
      (∀ (ip : IpId) (kind : SlotKind) (i : Nat),
        tracked pma2 rtr2 ip kind i ↔ tracked pma rtr ip kind i) ∧
      ∀ (ip : IpId), step_outcome (tracked pma rtr ip) ip (block_reserved pma rtr ip)
        (block_reserved pma2 rtr2 ip) new

/-! ## Specification vocabulary for the slot loops -/

/-- What a loop body may do, as far as the log and the locals go. `calls p`
tells whether the body invokes the sub-operation on slot `p`; if so it logs
exactly one event `call op ip kind idx ret`, and it leaves the loop exactly
when `abort` holds and `ret` is non-zero; `ret` reaches the local `ret` only in
an aborting loop. The slot keeps its address and its instance mask. -/
def BodySpec {W : Type}
    (body : Nat → hwpm_ip_perfmux → LoopSt W → Bool × hwpm_ip_perfmux × LoopSt W)
    (calls : hwpm_ip_perfmux → Bool) (op : SubOp) (ip : IpId) (kind : SlotKind)
    (abort : Bool) : Prop :=
  ∀ idx p st,
    (body idx p st).2.1.start_abs_pa = p.start_abs_pa ∧
    (body idx p st).2.1.hw_inst_mask = p.hw_inst_mask ∧
    (calls p = false →
      (body idx p st).1 = false ∧ (body idx p st).2.2.trace = st.trace ∧
      (body idx p st).2.2.ret = st.ret) ∧
    (calls p = true →
      ∃ ret, (body idx p st).2.2.trace = st.trace ++ [Event.call op ip kind idx ret] ∧
        (body idx p st).1 = (abort && decide (ret ≠ 0)) ∧
        (body idx p st).2.2.ret = if abort then ret else st.ret)

/-- The logs a loop over `slots`, starting at index `idx`, can produce, with the
flag telling whether the loop was left early. -/
inductive LoopRuns (calls : hwpm_ip_perfmux → Bool) (op : SubOp) (ip : IpId)
    (kind : SlotKind) (abort : Bool) :
    Nat → List (Option hwpm_ip_perfmux) → List Event → Bool → Prop where
  | done (idx : Nat) : LoopRuns calls op ip kind abort idx [] [] false
  | absent (idx : Nat) (rest : List (Option hwpm_ip_perfmux)) (evs : List Event) (flag : Bool) :
      LoopRuns calls op ip kind abort (idx + 1) rest evs flag →
      LoopRuns calls op ip kind abort idx (none :: rest) evs flag
  | uncalled (idx : Nat) (p : hwpm_ip_perfmux) (rest : List (Option hwpm_ip_perfmux))
      (evs : List Event) (flag : Bool) :
      calls p = false →
      LoopRuns calls op ip kind abort (idx + 1) rest evs flag →
      LoopRuns calls op ip kind abort idx (some p :: rest) evs flag
  | left (idx : Nat) (p : hwpm_ip_perfmux) (rest : List (Option hwpm_ip_perfmux)) (ret : Int) :
      calls p = true → abort = true → ret ≠ 0 →
      LoopRuns calls op ip kind abort idx (some p :: rest) [Event.call op ip kind idx ret] true
  | called (idx : Nat) (p : hwpm_ip_perfmux) (rest : List (Option hwpm_ip_perfmux)) (ret : Int)
      (evs : List Event) (flag : Bool) :
      calls p = true → (abort = true → ret = 0) →
      LoopRuns calls op ip kind abort (idx + 1) rest evs flag →
      LoopRuns calls op ip kind abort idx (some p :: rest)
        (Event.call op ip kind idx ret :: evs) flag

/-- The fixed identity of a slot: presence, address, instance mask. -/
def slot_key (o : Option hwpm_ip_perfmux) : Option (Nat × Nat) :=
  o.map fun p => (p.start_abs_pa, p.hw_inst_mask)

end T234Hwpm

namespace T234Hwpm

/-! ## The slot loops -/

theorem new_events_append (t l : List Event) : new_events t (t ++ l) = l := by
  simp [new_events]

theorem loopRuns_events {calls : hwpm_ip_perfmux → Bool} {op : SubOp} {ip : IpId}
    {kind : SlotKind} {abort : Bool} {idx : Nat} {slots : List (Option hwpm_ip_perfmux)}
    {evs : List Event} {flag : Bool} (h : LoopRuns calls op ip kind abort idx slots evs flag) :
    ∀ ev ∈ evs, ∃ i p ret, slots[i]? = some (some p) ∧ calls p = true ∧
      ev = Event.call op ip kind (idx + i) ret := by
  induction h with
  | done idx => intro ev hev; simp at hev
  | absent idx rest evs flag _ ih =>
    intro ev hev
    obtain ⟨i, p, ret, h1, h2, h3⟩ := ih ev hev
    exact ⟨i + 1, p, ret, by simpa using h1, h2, by rw [h3]; congr 1; omega⟩
  | uncalled idx p rest evs flag _ _ ih =>
    intro ev hev
    obtain ⟨i, q, ret, h1, h2, h3⟩ := ih ev hev
    exact ⟨i + 1, q, ret, by simpa using h1, h2, by rw [h3]; congr 1; omega⟩
  | left idx p rest ret hc _ _ =>
    intro ev hev
    simp at hev
    exact ⟨0, p, ret, by simp, hc, by simpa using hev⟩
  | called idx p rest ret evs flag hc _ _ ih =>
    intro ev hev
    rcases List.mem_cons.mp hev with h | h
    · exact ⟨0, p, ret, by simp, hc, by simpa using h⟩
    · obtain ⟨i, q, r, h1, h2, h3⟩ := ih ev h
      exact ⟨i + 1, q, r, by simpa using h1, h2, by rw [h3]; congr 1; omega⟩

theorem calls_on_eq_zero_of_lt {calls : hwpm_ip_perfmux → Bool} {op : SubOp} {ip : IpId}
    {kind : SlotKind} {abort : Bool} {idx : Nat} {slots : List (Option hwpm_ip_perfmux)}
    {evs : List Event} {flag : Bool} (h : LoopRuns calls op ip kind abort idx slots evs flag)
    (o : SubOp) (i : IpId) (k : SlotKind) (j : Nat) (hj : j < idx) :
    calls_on o i k j evs = 0 := by
  unfold calls_on
  rw [List.countP_eq_zero]
  intro ev hev
  obtain ⟨n, p, ret, _, _, rfl⟩ := loopRuns_events h ev hev
  simp
  intro _ _ _
  omega

theorem calls_on_uncalled {calls : hwpm_ip_perfmux → Bool} {op : SubOp} {ip : IpId}
    {kind : SlotKind} {abort : Bool} {idx : Nat} {slots : List (Option hwpm_ip_perfmux)}
    {evs : List Event} {flag : Bool} (h : LoopRuns calls op ip kind abort idx slots evs flag)
    (i : Nat) (p : hwpm_ip_perfmux) (hp : slots[i]? = some (some p)) (hc : calls p = false)
    (o : SubOp) (b : IpId) (k : SlotKind) :
    calls_on o b k (idx + i) evs = 0 := by
  unfold calls_on
  rw [List.countP_eq_zero]
  intro ev hev
  obtain ⟨n, q, ret, hq, hcq, rfl⟩ := loopRuns_events h ev hev
  simp
  intro _ _ _ hn
  have : n = i := by omega
  subst this
  rw [hp] at hq
  simp at hq
  subst hq
  rw [hc] at hcq
  simp at hcq

theorem calls_on_called {calls : hwpm_ip_perfmux → Bool} {op : SubOp} {ip : IpId}
    {kind : SlotKind} {abort : Bool} {idx : Nat} {slots : List (Option hwpm_ip_perfmux)}
    {evs : List Event} {flag : Bool} (h : LoopRuns calls op ip kind abort idx slots evs flag) :
    flag = false → ∀ i p, slots[i]? = some (some p) → calls p = true →
      calls_on op ip kind (idx + i) evs = 1 := by
  induction h with
  | done idx => intro _ i p hp; simp at hp
  | absent idx rest evs flag _ ih =>
    intro hf i p hp hc
    cases i with
    | zero => simp at hp
    | succ i =>
      have := ih hf i p (by simpa using hp) hc
      rw [← this]; congr 1; omega
  | uncalled idx q rest evs flag hq _ ih =>
    intro hf i p hp hc
    cases i with
    | zero =>
      simp at hp; subst hp; rw [hq] at hc; simp at hc
    | succ i =>
      have := ih hf i p (by simpa using hp) hc
      rw [← this]; congr 1; omega
  | left idx q rest ret _ _ _ => intro hf; simp at hf
  | called idx q rest ret evs flag hq _ hrest ih =>
    intro hf i p hp hc
    cases i with
    | zero =>
      have h0 := calls_on_eq_zero_of_lt hrest op ip kind idx (by omega)
      simp [calls_on] at h0 ⊢
      simpa [List.countP_eq_zero] using h0
    | succ i =>
      have := ih hf i p (by simpa using hp) hc
      have e : idx + 1 + i = idx + (i + 1) := by omega
      rw [e] at this
      simp [calls_on, List.countP_cons] at this ⊢
      exact this

theorem loopRuns_left {calls : hwpm_ip_perfmux → Bool} {op : SubOp} {ip : IpId}
    {kind : SlotKind} {abort : Bool} {idx : Nat} {slots : List (Option hwpm_ip_perfmux)}
    {evs : List Event} {flag : Bool} (h : LoopRuns calls op ip kind abort idx slots evs flag) :
    flag = true → abort = true := by
  induction h with
  | done idx => intro hf; simp at hf
  | absent idx rest evs flag _ ih => exact ih
  | uncalled idx q rest evs flag _ _ ih => exact ih
  | left idx q rest ret _ ha _ => intro _; exact ha
  | called idx q rest ret evs flag _ _ _ ih => exact ih

theorem loopRuns_nonzero {calls : hwpm_ip_perfmux → Bool} {op : SubOp} {ip : IpId}
    {kind : SlotKind} {abort : Bool} {idx : Nat} {slots : List (Option hwpm_ip_perfmux)}
    {evs : List Event} {flag : Bool} (h : LoopRuns calls op ip kind abort idx slots evs flag)
    (ha : abort = true) :
    ∀ o i k j r, Event.call o i k j r ∈ evs → r ≠ 0 →
      flag = true ∧
      ∀ o2 i2 k2 j2 r2, Event.call o2 i2 k2 j2 r2 ∈ evs → r2 ≠ 0 → r2 = r := by
  induction h with
  | done idx => intro o i k j r hev; simp at hev
  | absent idx rest evs flag _ ih => exact ih
  | uncalled idx q rest evs flag _ _ ih => exact ih
  | left idx q rest ret _ _ hr =>
    intro o i k j r hev hr0
    simp at hev
    refine ⟨rfl, ?_⟩
    intro o2 i2 k2 j2 r2 hev2 _
    simp at hev2
    rw [hev2.2.2.2.2, hev.2.2.2.2]
  | called idx q rest ret evs flag _ hz _ ih =>
    intro o i k j r hev hr0
    have hret : ret = 0 := hz ha
    rcases List.mem_cons.mp hev with h | h
    · simp at h; rw [h.2.2.2.2, hret] at hr0; exact absurd rfl hr0
    · obtain ⟨hf, hu⟩ := ih o i k j r h hr0
      refine ⟨hf, ?_⟩
      intro o2 i2 k2 j2 r2 hev2 hr2
      rcases List.mem_cons.mp hev2 with h2 | h2
      · simp at h2; rw [h2.2.2.2.2, hret] at hr2; exact absurd rfl hr2
      · exact hu o2 i2 k2 j2 r2 h2 hr2

theorem for_each_slot_runs {W : Type}
    {body : Nat → hwpm_ip_perfmux → LoopSt W → Bool × hwpm_ip_perfmux × LoopSt W}
    {calls : hwpm_ip_perfmux → Bool} {op : SubOp} {ip : IpId} {kind : SlotKind}
    {abort : Bool} (hb : BodySpec body calls op ip kind abort) :
    ∀ (slots : List (Option hwpm_ip_perfmux)) (idx : Nat) (st : LoopSt W),
      ∃ evs, (for_each_slot body idx slots st).2.2.trace = st.trace ++ evs ∧
        LoopRuns calls op ip kind abort idx slots evs (for_each_slot body idx slots st).1 ∧
        ((for_each_slot body idx slots st).1 = true →
          (for_each_slot body idx slots st).2.2.ret ≠ 0 ∧
          ∃ j, Event.call op ip kind j (for_each_slot body idx slots st).2.2.ret ∈ evs) ∧
        (abort = false → (for_each_slot body idx slots st).2.2.ret = st.ret) ∧
        ((for_each_slot body idx slots st).1 = false → st.ret = 0 →
          (for_each_slot body idx slots st).2.2.ret = 0) ∧
        (for_each_slot body idx slots st).2.1.map slot_key = slots.map slot_key := by
  intro slots
  induction slots with
  | nil =>
    intro idx st
    exact ⟨[], by simp [for_each_slot], by simpa [for_each_slot] using LoopRuns.done idx,
      by simp [for_each_slot], by simp [for_each_slot], by simp [for_each_slot],
      by simp [for_each_slot]⟩
  | cons a rest ih =>
    intro idx st
    cases a with
    | none =>
      obtain ⟨evs, h1, h2, h3, h4, h5, h6⟩ := ih (idx + 1) st
      refine ⟨evs, by simpa [for_each_slot] using h1, ?_, by simpa [for_each_slot] using h3,
        by simpa [for_each_slot] using h4, by simpa [for_each_slot] using h5,
        by simpa [for_each_slot] using h6⟩
      simpa [for_each_slot] using LoopRuns.absent idx rest evs _ h2
    | some p =>
      obtain ⟨hpa, hmask, hno, hyes⟩ := hb idx p st
      have hkey : slot_key (some (body idx p st).2.1) = slot_key (some p) := by
        simp [slot_key, hpa, hmask]
      cases hc : calls p with
      | false =>
        obtain ⟨hflag, htr, hret⟩ := hno hc
        obtain ⟨evs, h1, h2, h3, h4, h5, h6⟩ := ih (idx + 1) (body idx p st).2.2
        refine ⟨evs, ?_, ?_, ?_, ?_, ?_, ?_⟩
        · simp [for_each_slot, hflag, h1, htr]
        · simpa [for_each_slot, hflag] using LoopRuns.uncalled idx p rest evs _ hc h2
        · simpa [for_each_slot, hflag] using h3
        · intro ha; simp [for_each_slot, hflag, h4 ha, hret]
        · intro hf h0
          simp [for_each_slot, hflag] at hf ⊢
          exact h5 hf (by rw [hret]; exact h0)
        · simp [for_each_slot, hflag, h6, hkey]
      | true =>
        obtain ⟨ret, htr, hflag, hret⟩ := hyes hc
        cases hx : (abort && decide (ret ≠ 0)) with
        | true =>
          rw [hx] at hflag
          have ha : abort = true := by
            cases abort <;> simp at hx ⊢
          have hr : ret ≠ 0 := by
            cases abort <;> simp at hx ⊢
            exact hx
          have hret2 : (body idx p st).2.2.ret = ret := by simp [hret, ha]
          refine ⟨[Event.call op ip kind idx ret], ?_, ?_, ?_, ?_, ?_, ?_⟩
          · simp [for_each_slot, hflag, htr]
          · simpa [for_each_slot, hflag] using LoopRuns.left idx p rest ret hc ha hr
          · intro _
            simp [for_each_slot, hflag, hret2]
            exact hr
          · intro hab; rw [ha] at hab; simp at hab
          · intro hf; simp [for_each_slot, hflag] at hf
          · simp [for_each_slot, hflag, hkey]
        | false =>
          rw [hx] at hflag
          have hz : abort = true → ret = 0 := by
            intro ha
            rw [ha] at hx
            simpa using hx
          obtain ⟨evs, h1, h2, h3, h4, h5, h6⟩ := ih (idx + 1) (body idx p st).2.2
          refine ⟨Event.call op ip kind idx ret :: evs, ?_, ?_, ?_, ?_, ?_, ?_⟩
          · simp [for_each_slot, hflag, h1, htr]
          · simpa [for_each_slot, hflag] using LoopRuns.called idx p rest ret evs _ hc hz h2
          · intro hf
            simp only [for_each_slot, hflag] at hf ⊢
            simp at hf ⊢
            obtain ⟨g1, j, g2⟩ := h3 hf
            exact ⟨g1, j, Or.inr g2⟩
          · intro ha
            simp [for_each_slot, hflag, h4 ha, hret, ha]
          · intro hf h0
            simp [for_each_slot, hflag] at hf ⊢
            apply h5 hf
            rw [hret]
            cases abort with
            | true => simpa using hz rfl
            | false => simpa using h0
          · simp [for_each_slot, hflag, h6, hkey]

/-! ## The seven loop bodies meet the body specification -/

theorem reserve_pma_perfmux_body_spec {W : Type} (ops : SubOps W) :
    BodySpec (reserve_pma_perfmux_body ops) (fun _ => true)
      SubOp.reserve IpId.pma SlotKind.perfmux true := by
  intro idx p st
  refine ⟨?_, ?_, ?_, ?_⟩
  · simp only [reserve_pma_perfmux_body, apply_result]; split <;> rfl
  · simp only [reserve_pma_perfmux_body, apply_result]; split <;> rfl
  · intro h; simp at h
  · intro _
    refine ⟨(ops.perfmon_reserve st.world p).1.ret, ?_, ?_, ?_⟩ <;>
      simp only [reserve_pma_perfmux_body] <;> split <;> simp_all

theorem reserve_pma_perfmon_body_spec {W : Type} (ops : SubOps W) :
    BodySpec (reserve_pma_perfmon_body ops) (fun _ => true)
      SubOp.reserve IpId.pma SlotKind.perfmon true := by
  intro idx p st
  refine ⟨?_, ?_, ?_, ?_⟩
  · simp only [reserve_pma_perfmon_body, apply_result]; split <;> rfl
  · simp only [reserve_pma_perfmon_body, apply_result]; split <;> rfl
  · intro h; simp at h
  · intro _
    refine ⟨(ops.perfmon_reserve st.world p).1.ret, ?_, ?_, ?_⟩ <;>
      simp only [reserve_pma_perfmon_body] <;> split <;> simp_all

theorem reserve_pma_fail_body_spec {W : Type} (ops : SubOps W) :
    BodySpec (reserve_pma_fail_body ops) (fun _ => true)
      SubOp.release IpId.pma SlotKind.perfmux false := by
  intro idx p st
  refine ⟨rfl, rfl, ?_, ?_⟩
  · intro h; simp at h
  · intro _
    exact ⟨(ops.perfmon_release st.world p).1.ret, rfl, rfl, rfl⟩

theorem release_pma_perfmux_body_spec {W : Type} (ops : SubOps W) :
    BodySpec (release_pma_perfmux_body ops) (fun _ => true)
      SubOp.release IpId.pma SlotKind.perfmux true := by
  intro idx p st
  refine ⟨?_, ?_, ?_, ?_⟩
  · simp only [release_pma_perfmux_body, apply_result]; split <;> rfl
  · simp only [release_pma_perfmux_body, apply_result]; split <;> rfl
  · intro h; simp at h
  · intro _
    refine ⟨(ops.perfmon_release st.world p).1.ret, ?_, ?_, ?_⟩ <;>
      simp only [release_pma_perfmux_body] <;> split <;> simp_all

theorem release_pma_perfmon_body_spec {W : Type} (ops : SubOps W) :
    BodySpec (release_pma_perfmon_body ops) (fun _ => true)
      SubOp.release IpId.pma SlotKind.perfmon true := by
  intro idx p st
  refine ⟨?_, ?_, ?_, ?_⟩
  · simp only [release_pma_perfmon_body, apply_result]; split <;> rfl
  · simp only [release_pma_perfmon_body, apply_result]; split <;> rfl
  · intro h; simp at h
  · intro _
    refine ⟨(ops.perfmon_release st.world p).1.ret, ?_, ?_, ?_⟩ <;>
      simp only [release_pma_perfmon_body] <;> split <;> simp_all

theorem reserve_rtr_body_spec {W : Type} (ops : SubOps W) (fake : Bool)
    (pma_perfmux : hwpm_ip_perfmux) :
    BodySpec (reserve_rtr_body ops fake pma_perfmux) (fun p => !aliases pma_perfmux p)
      SubOp.reserve IpId.rtr SlotKind.perfmux true := by
  intro idx p st
  by_cases ha : p.start_abs_pa = pma_perfmux.start_abs_pa
  · refine ⟨?_, ?_, ?_, ?_⟩
    · simp [reserve_rtr_body, ha]
    · simp [reserve_rtr_body, ha]
    · intro _; simp [reserve_rtr_body, ha]
    · intro h; simp [aliases, ha] at h
  · refine ⟨?_, ?_, ?_, ?_⟩
    · simp only [reserve_rtr_body, apply_result, if_neg ha]; split <;> rfl
    · simp only [reserve_rtr_body, apply_result, if_neg ha]; split <;> rfl
    · intro h; simp [aliases, ha] at h
    · intro _
      refine ⟨(ops.perfmon_reserve st.world p).1.ret, ?_, ?_, ?_⟩ <;>
        simp only [reserve_rtr_body, if_neg ha] <;> split <;> simp_all

theorem release_rtr_body_spec {W : Type} (ops : SubOps W) (fake : Bool)
    (pma_perfmux : hwpm_ip_perfmux) :
    BodySpec (release_rtr_body ops fake pma_perfmux) (fun p => !aliases pma_perfmux p)
      SubOp.release IpId.rtr SlotKind.perfmux true := by
  intro idx p st
  by_cases ha : p.start_abs_pa = pma_perfmux.start_abs_pa
  · refine ⟨?_, ?_, ?_, ?_⟩
    · simp [release_rtr_body, ha]
    · simp [release_rtr_body, ha]
    · intro _; simp [release_rtr_body, ha]
    · intro h; simp [aliases, ha] at h
  · refine ⟨?_, ?_, ?_, ?_⟩
    · simp only [release_rtr_body, apply_result, if_neg ha]; split <;> rfl
    · simp only [release_rtr_body, apply_result, if_neg ha]; split <;> rfl
    · intro h; simp [aliases, ha] at h
    · intro _
      refine ⟨(ops.perfmon_release st.world p).1.ret, ?_, ?_, ?_⟩ <;>
        simp only [release_rtr_body, if_neg ha] <;> split <;> simp_all

/-! ## Reading the blocks of a state -/

theorem pma_ip_eq_some {W : Type} {hwpm : tegra_soc_hwpm W} {pma : hwpm_ip}
    (h : pma_ip hwpm = some pma) :
    ∃ c, hwpm.active_chip = some c ∧ c.ip_pma = some pma := by
  unfold pma_ip at h
  split at h
  · simp at h
  · rename_i c hc; exact ⟨c, hc, h⟩

theorem rtr_ip_eq_some {W : Type} {hwpm : tegra_soc_hwpm W} {rtr : hwpm_ip}
    (h : rtr_ip hwpm = some rtr) :
    ∃ c, hwpm.active_chip = some c ∧ c.ip_rtr = some rtr := by
  unfold rtr_ip at h
  split at h
  · simp at h
  · rename_i c hc; exact ⟨c, hc, h⟩

@[simp] theorem pma_ip_store_pma {W : Type} (hwpm : tegra_soc_hwpm W) (c : tegra_soc_hwpm_chip)
    (ip : hwpm_ip) (st : LoopSt W) : pma_ip (store_pma hwpm c ip st) = some ip := rfl

@[simp] theorem rtr_ip_store_pma {W : Type} (hwpm : tegra_soc_hwpm W) (c : tegra_soc_hwpm_chip)
    (ip : hwpm_ip) (st : LoopSt W) : rtr_ip (store_pma hwpm c ip st) = c.ip_rtr := rfl

@[simp] theorem pma_ip_store_rtr {W : Type} (hwpm : tegra_soc_hwpm W) (c : tegra_soc_hwpm_chip)
    (ip : hwpm_ip) (st : LoopSt W) : pma_ip (store_rtr hwpm c ip st) = c.ip_pma := rfl

@[simp] theorem rtr_ip_store_rtr {W : Type} (hwpm : tegra_soc_hwpm W) (c : tegra_soc_hwpm_chip)
    (ip : hwpm_ip) (st : LoopSt W) : rtr_ip (store_rtr hwpm c ip st) = some ip := rfl

/-! ## What each entry point does to the two `reserved` flags -/

theorem reserve_pma_flags {W : Type} (ops : SubOps W) (hwpm s : tegra_soc_hwpm W) (r : Int)
    (h : t234_hwpm_reserve_pma ops hwpm = some (r, s)) :
    rtr_ip s = rtr_ip hwpm ∧ (pma_reserved hwpm = true → pma_reserved s = true) := by
  unfold t234_hwpm_reserve_pma at h
  split at h
  · simp at h
  rename_i c hc
  split at h
  · simp at h
  rename_i pma hp
  have hr : rtr_ip hwpm = c.ip_rtr := by simp [rtr_ip, hc]
  have hpr : pma_reserved hwpm = pma.reserved := by simp [pma_reserved, pma_ip, hc, hp]
  split at h
  · simp at h; obtain ⟨_, rfl⟩ := h; simp
  · rename_i hres
    rw [hpr]
    dsimp only at h
    split at h
    · simp at h; obtain ⟨_, rfl⟩ := h; simp [hr, hres]
    · split at h
      · simp at h; obtain ⟨_, rfl⟩ := h; simp [hr, hres]
      · simp at h; obtain ⟨_, rfl⟩ := h; simp [hr, hres]

theorem release_pma_flags {W : Type} (ops : SubOps W) (hwpm s : tegra_soc_hwpm W) (r : Int)
    (h : t234_hwpm_release_pma ops hwpm = some (r, s)) :
    rtr_ip s = rtr_ip hwpm := by
  unfold t234_hwpm_release_pma at h
  split at h
  · simp at h
  rename_i c hc
  split at h
  · simp at h
  rename_i pma hp
  have hr : rtr_ip hwpm = c.ip_rtr := by simp [rtr_ip, hc]
  split at h
  · simp at h; obtain ⟨_, rfl⟩ := h; simp
  · dsimp only at h
    split at h
    · simp at h; obtain ⟨_, rfl⟩ := h; simp [hr]
    · split at h
      · simp at h; obtain ⟨_, rfl⟩ := h; simp [hr]
      · simp at h; obtain ⟨_, rfl⟩ := h; simp [hr]

theorem reserve_rtr_flags {W : Type} (ops : SubOps W) (hwpm s : tegra_soc_hwpm W) (r : Int)
    (h : t234_hwpm_reserve_rtr ops hwpm = some (r, s)) :
    pma_ip s = pma_ip hwpm ∧
      (rtr_reserved s = true → rtr_reserved hwpm = true ∨ pma_reserved hwpm = true) := by
  unfold t234_hwpm_reserve_rtr at h
  split at h
  · simp at h
  rename_i c hc
  split at h
  · simp at h
  rename_i pma hp
  have hpi : pma_ip hwpm = c.ip_pma := by simp [pma_ip, hc]
  have hpr : pma_reserved hwpm = pma.reserved := by simp [pma_reserved, pma_ip, hc, hp]
  split at h
  · simp at h; obtain ⟨_, rfl⟩ := h
    exact ⟨rfl, fun hx => Or.inl hx⟩
  · rename_i hres
    have hres2 : pma.reserved = true := by simpa using hres
    split at h
    · simp at h
    · refine ⟨?_, fun _ => Or.inr (by rw [hpr, hres2])⟩
      split at h
      · simp at h; obtain ⟨_, rfl⟩ := h; rfl
      · dsimp only at h
        split at h
        · split at h
          · simp at h
          · simp at h; obtain ⟨_, rfl⟩ := h; simp [hpi]
        · split at h
          · simp at h; obtain ⟨_, rfl⟩ := h; simp [hpi]
          · simp at h; obtain ⟨_, rfl⟩ := h; simp [hpi]

theorem release_rtr_flags {W : Type} (ops : SubOps W) (hwpm s : tegra_soc_hwpm W) (r : Int)
    (h : t234_hwpm_release_rtr ops hwpm = some (r, s)) :
    pma_ip s = pma_ip hwpm ∧ (rtr_reserved s = true → rtr_reserved hwpm = true) := by
  unfold t234_hwpm_release_rtr at h
  split at h
  · simp at h
  rename_i c hc
  split at h
  · simp at h
  rename_i pma hp
  have hpi : pma_ip hwpm = c.ip_pma := by simp [pma_ip, hc]
  split at h
  · simp at h; obtain ⟨_, rfl⟩ := h
    exact ⟨rfl, fun hx => hx⟩
  · split at h
    · simp at h
    · rename_i rtr hrt
      have hrr : rtr_reserved hwpm = rtr.reserved := by simp [rtr_reserved, rtr_ip, hc, hrt]
      split at h
      · simp at h; obtain ⟨_, rfl⟩ := h
        exact ⟨rfl, fun hx => hx⟩
      · rename_i hres
        have hres2 : rtr.reserved = true := by simpa using hres
        refine ⟨?_, fun _ => by rw [hrr, hres2]⟩
        dsimp only at h
        split at h
        · split at h
          · simp at h
          · simp at h; obtain ⟨_, rfl⟩ := h; simp [hpi]
        · split at h
          · simp at h; obtain ⟨_, rfl⟩ := h; simp [hpi]
          · simp at h; obtain ⟨_, rfl⟩ := h; simp [hpi]

theorem ordered_step_keeps_order {W : Type} (ops : SubOps W) (op : Op)
    (hwpm s : tegra_soc_hwpm W) (r : Int)
    (hinv : rtr_reserved hwpm = true → pma_reserved hwpm = true)
    (hord : ¬ (op = Op.release_pma ∧ rtr_reserved hwpm = true))
    (h : run_op ops op hwpm = some (r, s)) :
    rtr_reserved s = true → pma_reserved s = true := by
  cases op with
  | reserve_pma =>
    obtain ⟨h1, h2⟩ := reserve_pma_flags ops hwpm s r h
    intro hs
    apply h2
    apply hinv
    simpa [rtr_reserved, h1] using hs
  | release_pma =>
    have h1 := release_pma_flags ops hwpm s r h
    intro hs
    exfalso
    apply hord
    refine ⟨rfl, ?_⟩
    simpa [rtr_reserved, h1] using hs
  | reserve_rtr =>
    obtain ⟨h1, h2⟩ := reserve_rtr_flags ops hwpm s r h
    intro hs
    have : pma_reserved s = pma_reserved hwpm := by simp [pma_reserved, h1]
    rw [this]
    rcases h2 hs with h3 | h3
    · exact hinv h3
    · exact h3
  | release_rtr =>
    obtain ⟨h1, h2⟩ := release_rtr_flags ops hwpm s r h
    intro hs
    have : pma_reserved s = pma_reserved hwpm := by simp [pma_reserved, h1]
    rw [this]
    exact hinv (h2 hs)

/-! ## C1: the ordering invariant -/

/-- C1, counterexample. From the initial state, `reserve_pma`, `reserve_rtr`,
`release_pma` (every sub-operation succeeding) reaches a state in which RTR is
reserved and PMA is not: `release_pma` does not look at RTR. -/
theorem ordering_invariant_broken_by_release_pma :
    pma_reserved (ex_init []) = false ∧ rtr_reserved (ex_init []) = false ∧
    ∃ s, run_ops scripted_ops [Op.reserve_pma, Op.reserve_rtr, Op.release_pma] (ex_init [])
        = some s ∧ rtr_reserved s = true ∧ pma_reserved s = false :=
  ⟨rfl, rfl, _, rfl, rfl, rfl⟩

/-- C1, amended. In every state reached from a state with RTR unreserved by any
sequence of `reserve_pma`, `release_pma`, `reserve_rtr` and `release_rtr` calls
in which `release_pma` is only called while RTR is unreserved, whatever the
sub-operations return, `RTR.reserved` implies `PMA.reserved`. -/
theorem rtr_reserved_implies_pma_reserved {W : Type} (ops : SubOps W) (sequence : List Op)
    (hwpm0 hwpm : tegra_soc_hwpm W) (h0 : rtr_reserved hwpm0 = false)
    (hrun : run_ops_ordered ops sequence hwpm0 = some hwpm) :
    rtr_reserved hwpm = true → pma_reserved hwpm = true := by
  have key : ∀ (l : List Op) (a b : tegra_soc_hwpm W),
      (rtr_reserved a = true → pma_reserved a = true) →
      run_ops_ordered ops l a = some b →
      (rtr_reserved b = true → pma_reserved b = true) := by
    intro l
    induction l with
    | nil =>
      intro a b ha hab
      simp [run_ops_ordered] at hab
      subst hab
      exact ha
    | cons op rest ih =>
      intro a b ha hab
      simp only [run_ops_ordered] at hab
      split at hab
      · simp at hab
      · rename_i hord
        split at hab
        · simp at hab
        · rename_i x hx
          exact ih x.2 b (ordered_step_keeps_order ops op a x.2 x.1 ha hord hx) hab
  exact key sequence hwpm0 hwpm (by rw [h0]; intro hf; simp at hf) hrun

/-- C1, witness: an ordered run that ends with both blocks reserved. -/
theorem rtr_reserved_implies_pma_reserved_witness :
    rtr_reserved (ex_init []) = false ∧
    ∃ s, run_ops_ordered scripted_ops [Op.reserve_pma, Op.reserve_rtr] (ex_init []) = some s ∧
      rtr_reserved s = true ∧ pma_reserved s = true :=
  ⟨rfl, _, rfl, rfl,
    rtr_reserved_implies_pma_reserved scripted_ops [Op.reserve_pma, Op.reserve_rtr]
      (ex_init []) _ rfl rfl rfl⟩

/-! ## C3, C4, C6: the guards of the RTR entry points and of `release_pma` -/

/-- C3. In every state in which PMA is not reserved, `reserve_rtr` returns
`-EINVAL` and hands back the very state it was given: no sub-operation is
logged, and `RTR.reserved`, `RTR.fs_mask` and every RTR slot are as before. -/
theorem reserve_rtr_without_pma {W : Type} (ops : SubOps W) (hwpm : tegra_soc_hwpm W)
    (pma : hwpm_ip) (hpma : pma_ip hwpm = some pma) (hres : pma.reserved = false) :
    t234_hwpm_reserve_rtr ops hwpm = some (-EINVAL, hwpm) := by
  obtain ⟨c, hc, hp⟩ := pma_ip_eq_some hpma
  simp [t234_hwpm_reserve_rtr, hc, hp, hres]

/-- C3, witness: `reserve_rtr` on the initial state. -/
theorem reserve_rtr_without_pma_witness :
    pma_ip (ex_init []) = some ex_pma ∧ ex_pma.reserved = false ∧
    t234_hwpm_reserve_rtr scripted_ops (ex_init []) = some (-EINVAL, ex_init []) :=
  ⟨rfl, rfl, reserve_rtr_without_pma scripted_ops (ex_init []) ex_pma rfl rfl⟩

/-- C4. `release_rtr` returns success only if `PMA.reserved` is true; whenever
`PMA.reserved` is false, whatever RTR's state, it returns `-EINVAL` and hands
back the very state it was given (nothing logged, nothing changed). -/
theorem release_rtr_without_pma {W : Type} (ops : SubOps W) (hwpm : tegra_soc_hwpm W)
    (pma : hwpm_ip) (hpma : pma_ip hwpm = some pma) :
    (∀ s, t234_hwpm_release_rtr ops hwpm = some (0, s) → pma.reserved = true) ∧
    (pma.reserved = false → t234_hwpm_release_rtr ops hwpm = some (-EINVAL, hwpm)) := by
  obtain ⟨c, hc, hp⟩ := pma_ip_eq_some hpma
  constructor
  · intro s hs
    cases hres : pma.reserved with
    | true => rfl
    | false => simp [t234_hwpm_release_rtr, hc, hp, hres, EINVAL] at hs
  · intro hres
    simp [t234_hwpm_release_rtr, hc, hp, hres]

/-- C4, witness: `release_rtr` on the initial state, where PMA is unreserved. -/
theorem release_rtr_without_pma_witness :
    pma_ip (ex_init []) = some ex_pma ∧
    t234_hwpm_release_rtr scripted_ops (ex_init []) = some (-EINVAL, ex_init []) :=
  ⟨rfl, (release_rtr_without_pma scripted_ops (ex_init []) ex_pma rfl).2 rfl⟩

/-- C6, counterexample. In the initial state RTR is unreserved, and `release_rtr`
returns `-EINVAL`, not success: PMA is unreserved too and the ordering check
comes first. -/
theorem release_rtr_unreserved_not_success :
    rtr_reserved (ex_init []) = false ∧
    Option.map Prod.fst (t234_hwpm_release_rtr scripted_ops (ex_init [])) = some (-EINVAL) ∧
    -EINVAL ≠ 0 :=
  ⟨rfl, rfl, by decide⟩

/-- C6, amended. `release_pma` on an unreserved PMA returns 0 and hands back the
very state it was given. `release_rtr` on an unreserved RTR hands back the very
state it was given as well, and returns 0 when PMA is reserved and `-EINVAL`
when PMA is not. -/
theorem release_unreserved_is_noop {W : Type} (ops : SubOps W) (hwpm : tegra_soc_hwpm W)
    (pma : hwpm_ip) (hpma : pma_ip hwpm = some pma) :
    (pma.reserved = false → t234_hwpm_release_pma ops hwpm = some (0, hwpm)) ∧
    (∀ rtr, rtr_ip hwpm = some rtr → rtr.reserved = false →
      t234_hwpm_release_rtr ops hwpm
        = some (if pma.reserved = true then 0 else -EINVAL, hwpm)) := by
  obtain ⟨c, hc, hp⟩ := pma_ip_eq_some hpma
  constructor
  · intro hres
    simp [t234_hwpm_release_pma, hc, hp, hres]
  · intro rtr hrtr hres
    obtain ⟨c2, hc2, hr⟩ := rtr_ip_eq_some hrtr
    rw [hc] at hc2
    cases hc2
    cases hpres : pma.reserved <;>
      simp [t234_hwpm_release_rtr, hc, hp, hr, hres, hpres]

/-- C6, witness: `release_pma` and `release_rtr` on the initial state. -/
theorem release_unreserved_is_noop_witness :
    pma_ip (ex_init []) = some ex_pma ∧
    t234_hwpm_release_pma scripted_ops (ex_init []) = some (0, ex_init []) ∧
    t234_hwpm_release_rtr scripted_ops (ex_init []) = some (-EINVAL, ex_init []) :=
  ⟨rfl, (release_unreserved_is_noop scripted_ops (ex_init []) ex_pma rfl).1 rfl,
    (release_unreserved_is_noop scripted_ops (ex_init []) ex_pma rfl).2 ex_rtr rfl rfl⟩

/-! ## C9: the guard of the SLCG toggles -/

/-- C9. Each of `disable_slcg` and `enable_slcg` returns `-ENODEV` with no
register write logged and the register contents unchanged if and only if the
active chip is absent, or PMA is absent or unreserved, or RTR is absent or
unreserved; in that case the state is handed back as it was, and in every
other state the call returns 0. -/
theorem slcg_guard {W : Type} (hw : SlcgRegs) (hwpm : tegra_soc_hwpm W) :
    (((t234_hwpm_disable_slcg hw hwpm).1 = -ENODEV ∧
        (∀ ev ∈ new_events hwpm.trace (t234_hwpm_disable_slcg hw hwpm).2.trace,
          ev.is_write = false) ∧
        (t234_hwpm_disable_slcg hw hwpm).2.regs = hwpm.regs) ↔
      (hwpm.active_chip = none ∨ (pma_ip hwpm = none ∨ pma_reserved hwpm = false) ∨
        (rtr_ip hwpm = none ∨ rtr_reserved hwpm = false))) ∧
    (((t234_hwpm_enable_slcg hw hwpm).1 = -ENODEV ∧
        (∀ ev ∈ new_events hwpm.trace (t234_hwpm_enable_slcg hw hwpm).2.trace,
          ev.is_write = false) ∧
        (t234_hwpm_enable_slcg hw hwpm).2.regs = hwpm.regs) ↔
      (hwpm.active_chip = none ∨ (pma_ip hwpm = none ∨ pma_reserved hwpm = false) ∨
        (rtr_ip hwpm = none ∨ rtr_reserved hwpm = false))) ∧
    ((hwpm.active_chip = none ∨ (pma_ip hwpm = none ∨ pma_reserved hwpm = false) ∨
        (rtr_ip hwpm = none ∨ rtr_reserved hwpm = false)) →
      t234_hwpm_disable_slcg hw hwpm = (-ENODEV, hwpm) ∧
      t234_hwpm_enable_slcg hw hwpm = (-ENODEV, hwpm)) ∧
    (¬ (hwpm.active_chip = none ∨ (pma_ip hwpm = none ∨ pma_reserved hwpm = false) ∨
        (rtr_ip hwpm = none ∨ rtr_reserved hwpm = false)) →
      (t234_hwpm_disable_slcg hw hwpm).1 = 0 ∧ (t234_hwpm_enable_slcg hw hwpm).1 = 0) := by
  cases hc : hwpm.active_chip with
  | none => simp [t234_hwpm_disable_slcg, t234_hwpm_enable_slcg, hc, new_events]
  | some c =>
    cases hp : c.ip_pma with
    | none =>
      simp [t234_hwpm_disable_slcg, t234_hwpm_enable_slcg, hc, hp, new_events, pma_ip]
    | some pma =>
      cases hpr : pma.reserved with
      | false =>
        simp [t234_hwpm_disable_slcg, t234_hwpm_enable_slcg, hc, hp, hpr, new_events, pma_ip,
          pma_reserved]
      | true =>
        cases hr : c.ip_rtr with
        | none =>
          simp [t234_hwpm_disable_slcg, t234_hwpm_enable_slcg, hc, hp, hpr, hr, new_events,
            rtr_ip]
        | some rtr =>
          cases hrr : rtr.reserved with
          | false =>
            simp [t234_hwpm_disable_slcg, t234_hwpm_enable_slcg, hc, hp, hpr, hr, hrr,
              new_events, rtr_ip, rtr_reserved]
          | true =>
            simp [t234_hwpm_disable_slcg, t234_hwpm_enable_slcg, hc, hp, hpr, hr, hrr,
              pma_ip, rtr_ip, pma_reserved, rtr_reserved, ENODEV]

/-! ## Bit arithmetic on `u32` masks -/

theorem testBit_u32_not (m i : Nat) :
    (u32_not m).testBit i = (decide (i < 32) && !m.testBit i) := by
  unfold u32_not
  have h : m % 2 ^ 32 < 2 ^ 32 := Nat.mod_lt _ (by norm_num)
  have e : 2 ^ 32 - 1 - m % 2 ^ 32 = 2 ^ 32 - (m % 2 ^ 32 + 1) := by omega
  rw [e, Nat.testBit_two_pow_sub_succ h, Nat.testBit_mod_two_pow]
  by_cases hi : i < 32 <;> simp [hi]

theorem testBit_mod_u32 (x i : Nat) :
    (x % 4294967296).testBit i = (decide (i < 32) && x.testBit i) :=
  Nat.testBit_mod_two_pow x 32 i

theorem and_u32_not_and_self (x m : Nat) : (x &&& u32_not m) &&& m = 0 := by
  apply Nat.eq_of_testBit_eq
  intro i
  simp [Nat.testBit_and, testBit_u32_not]

theorem and_u32_not_keeps_zero (x m k : Nat) (h : x &&& k = 0) :
    (x &&& u32_not m) &&& k = 0 := by
  apply Nat.eq_of_testBit_eq
  intro i
  have hi := congrArg (fun n => n.testBit i) h
  simp [Nat.testBit_and] at hi
  simp [Nat.testBit_and, testBit_u32_not]
  intro hx
  simp [hi hx]

/-! ## More on the logs and the slot arrays -/

theorem calls_on_append (o : SubOp) (i : IpId) (k : SlotKind) (j : Nat) (a b : List Event) :
    calls_on o i k j (a ++ b) = calls_on o i k j a + calls_on o i k j b := by
  simp [calls_on, List.countP_append]

theorem calls_on_other {calls : hwpm_ip_perfmux → Bool} {op : SubOp} {ip : IpId}
    {kind : SlotKind} {abort : Bool} {idx : Nat} {slots : List (Option hwpm_ip_perfmux)}
    {evs : List Event} {flag : Bool} (h : LoopRuns calls op ip kind abort idx slots evs flag)
    (o : SubOp) (i : IpId) (k : SlotKind) (j : Nat) (hne : ¬ (o = op ∧ i = ip ∧ k = kind)) :
    calls_on o i k j evs = 0 := by
  unfold calls_on
  rw [List.countP_eq_zero]
  intro ev hev
  obtain ⟨n, p, ret, _, _, rfl⟩ := loopRuns_events h ev hev
  simp
  intro h1 h2 h3
  exact absurd ⟨h1.symm, h2.symm, h3.symm⟩ hne

theorem slot_key_present {a b : List (Option hwpm_ip_perfmux)}
    (h : a.map slot_key = b.map slot_key) (i : Nat) (p : hwpm_ip_perfmux)
    (hp : b[i]? = some (some p)) :
    ∃ q, a[i]? = some (some q) ∧ q.start_abs_pa = p.start_abs_pa ∧
      q.hw_inst_mask = p.hw_inst_mask := by
  have h1 := congrArg (fun l => l[i]?) h
  simp only [List.getElem?_map, hp, Option.map_some'] at h1
  cases ha : a[i]? with
  | none => simp [ha] at h1
  | some o =>
    cases o with
    | none => simp [ha, slot_key] at h1
    | some q =>
      simp [ha, slot_key] at h1
      exact ⟨q, rfl, h1.1, h1.2⟩

theorem loopRuns_flag_of_no_abort {calls : hwpm_ip_perfmux → Bool} {op : SubOp} {ip : IpId}
    {kind : SlotKind} {idx : Nat} {slots : List (Option hwpm_ip_perfmux)}
    {evs : List Event} {flag : Bool} (h : LoopRuns calls op ip kind false idx slots evs flag) :
    flag = false := by
  cases hf : flag with
  | false => rfl
  | true => exact absurd (loopRuns_left h hf) (by simp)

theorem reserve_pma_fail_loop_mask {W : Type} (ops : SubOps W) :
    ∀ (slots : List (Option hwpm_ip_perfmux)) (idx : Nat) (st : LoopSt W),
      (∀ k, st.fs_mask &&& k = 0 →
        (for_each_slot (reserve_pma_fail_body ops) idx slots st).2.2.fs_mask &&& k = 0) ∧
      (∀ (i : Nat) (p : hwpm_ip_perfmux), slots[i]? = some (some p) →
        (for_each_slot (reserve_pma_fail_body ops) idx slots st).2.2.fs_mask
          &&& p.hw_inst_mask = 0) := by
  intro slots
  induction slots with
  | nil =>
    intro idx st
    exact ⟨fun k hk => by simpa [for_each_slot] using hk, fun i p hp => by simp at hp⟩
  | cons a rest ih =>
    intro idx st
    cases a with
    | none =>
      obtain ⟨h1, h2⟩ := ih (idx + 1) st
      refine ⟨fun k hk => by simpa [for_each_slot] using h1 k hk, ?_⟩
      intro i p hp
      cases i with
      | zero => simp at hp
      | succ i => simpa [for_each_slot] using h2 i p (by simpa using hp)
    | some q =>
      obtain ⟨h1, h2⟩ := ih (idx + 1) (reserve_pma_fail_body ops idx q st).2.2
      have hflag : (reserve_pma_fail_body ops idx q st).1 = false := rfl
      have hfs : (reserve_pma_fail_body ops idx q st).2.2.fs_mask
          = st.fs_mask &&& u32_not q.hw_inst_mask := rfl
      refine ⟨?_, ?_⟩
      · intro k hk
        simp only [for_each_slot, hflag]
        apply h1
        rw [hfs]
        exact and_u32_not_keeps_zero _ _ _ hk
      · intro i p hp
        simp only [for_each_slot, hflag]
        cases i with
        | zero =>
          simp at hp
          subst hp
          apply h1
          rw [hfs]
          exact and_u32_not_and_self _ _
        | succ i => exact h2 i p (by simpa using hp)

/-! ## C2: rollback of `reserve_pma` on a perfmon failure -/

/-- C2. In every state with PMA unreserved, `reserve_pma` returns, and if in
that run every perfmux reserve returned 0 and the reserve of some perfmon slot
returned the error `e`, then the call returns exactly `e`, `PMA.reserved` is
still false, the release sub-operation was invoked (once) on every present
perfmux slot, whatever the releases returned, and `fs_mask` has no bit of any
present perfmux's `hw_inst_mask` set. -/
theorem reserve_pma_perfmon_failure_rolls_back {W : Type} (ops : SubOps W)
    (hwpm : tegra_soc_hwpm W) (pma : hwpm_ip) (hpma : pma_ip hwpm = some pma)
    (hres : pma.reserved = false) :
    ∃ r s, t234_hwpm_reserve_pma ops hwpm = some (r, s) ∧
      ∀ e : Int, e ≠ 0 →
        (∀ idx ret, Event.call SubOp.reserve IpId.pma SlotKind.perfmux idx ret
            ∈ new_events hwpm.trace s.trace → ret = 0) →
        (∃ idx, Event.call SubOp.reserve IpId.pma SlotKind.perfmon idx e
            ∈ new_events hwpm.trace s.trace) →
        r = e ∧ pma_reserved s = false ∧
        ∃ pma2, pma_ip s = some pma2 ∧
          ∀ (idx : Nat) (p : hwpm_ip_perfmux), pma.ip_perfmux[idx]? = some (some p) →
            calls_on SubOp.release IpId.pma SlotKind.perfmux idx
              (new_events hwpm.trace s.trace) = 1 ∧
            pma2.fs_mask &&& p.hw_inst_mask = 0 := by
  obtain ⟨c, hc, hp⟩ := pma_ip_eq_some hpma
  obtain ⟨evs1, ht1, hr1, hx1, -, -, hk1⟩ :=
    for_each_slot_runs (reserve_pma_perfmux_body_spec ops) pma.ip_perfmux 0
      ⟨0, pma.fs_mask, hwpm.world, hwpm.trace⟩
  generalize hl1 : for_each_slot (reserve_pma_perfmux_body ops) 0 pma.ip_perfmux
      ⟨0, pma.fs_mask, hwpm.world, hwpm.trace⟩ = l1 at ht1 hr1 hx1 hk1
  obtain ⟨evs2, ht2, hr2, hx2, -, -, -⟩ :=
    for_each_slot_runs (reserve_pma_perfmon_body_spec ops) pma.ip_perfmon 0 l1.2.2
  generalize hl2 : for_each_slot (reserve_pma_perfmon_body ops) 0 pma.ip_perfmon l1.2.2 = l2
    at ht2 hr2 hx2
  obtain ⟨evs3, ht3, hr3, -, hret3, -, -⟩ :=
    for_each_slot_runs (reserve_pma_fail_body_spec ops) l1.2.1 0 l2.2.2
  have hm3 := reserve_pma_fail_loop_mask ops l1.2.1 0 l2.2.2
  generalize hl3 : for_each_slot (reserve_pma_fail_body ops) 0 l1.2.1 l2.2.2 = l3
    at ht3 hr3 hret3 hm3
  simp only at ht1
  have hmux1 : ∀ idx e, Event.call SubOp.reserve IpId.pma SlotKind.perfmon idx e ∉ evs1 := by
    intro idx e hmem
    obtain ⟨_, _, _, _, _, h⟩ := loopRuns_events hr1 _ hmem
    simp at h
  cases h1 : l1.1 with
  | true =>
    refine ⟨l1.2.2.ret, _, by simp [t234_hwpm_reserve_pma, hc, hp, hres, hl1, h1]; rfl, ?_⟩
    intro e he hmux hmon
    exfalso
    obtain ⟨hne, j, hj⟩ := hx1 h1
    apply hne
    apply hmux j
    simp [store_pma, ht1, new_events_append]
    exact hj
  | false =>
    cases h2 : l2.1 with
    | false =>
      refine ⟨0, _, by simp [t234_hwpm_reserve_pma, hc, hp, hres, hl1, h1, hl2, h2]; rfl, ?_⟩
      intro e he hmux hmon
      exfalso
      obtain ⟨idx, hidx⟩ := hmon
      simp [store_pma, ht2, ht1, new_events_append, List.append_assoc] at hidx
      rcases hidx with h | h
      · exact hmux1 idx e h
      · have := (loopRuns_nonzero hr2 rfl _ _ _ _ e h he).1
        rw [h2] at this
        simp at this
    | true =>
      refine ⟨l3.2.2.ret, _,
        by simp [t234_hwpm_reserve_pma, hc, hp, hres, hl1, h1, hl2, h2, hl3]; rfl, ?_⟩
      intro e he hmux hmon
      have htr : new_events hwpm.trace l3.2.2.trace = evs1 ++ (evs2 ++ evs3) := by
        rw [ht3, ht2, ht1]
        simp [List.append_assoc, new_events_append]
      obtain ⟨idx, hidx⟩ := hmon
      simp only [store_pma, htr, List.mem_append] at hidx
      have h3no : Event.call SubOp.reserve IpId.pma SlotKind.perfmon idx e ∉ evs3 := by
        intro hmem
        obtain ⟨_, _, _, _, _, h⟩ := loopRuns_events hr3 _ hmem
        simp at h
      have hin2 : Event.call SubOp.reserve IpId.pma SlotKind.perfmon idx e ∈ evs2 := by
        rcases hidx with h | h | h
        · exact absurd h (hmux1 idx e)
        · exact h
        · exact absurd h h3no
      obtain ⟨hne2, j, hj⟩ := hx2 h2
      have hret : l2.2.2.ret = e :=
        (loopRuns_nonzero hr2 rfl _ _ _ _ e hin2 he).2 _ _ _ _ _ hj hne2
      refine ⟨by rw [hret3 rfl, hret], by simp [pma_reserved, hres], _, rfl, ?_⟩
      intro i p hpi
      obtain ⟨q, hq, -, hqm⟩ := slot_key_present hk1 i p hpi
      refine ⟨?_, ?_⟩
      · simp only [store_pma, htr, calls_on_append]
        rw [calls_on_other hr1 _ _ _ _ (by simp), calls_on_other hr2 _ _ _ _ (by simp)]
        have := calls_on_called hr3 (loopRuns_flag_of_no_abort hr3) i q hq rfl
        simpa using this
      · have := hm3.2 i q hq
        rw [hqm] at this
        exact this

/-- C2, witness: two perfmux reserves succeed, the perfmon reserve fails with 5,
the first rollback release fails with 7 and the second succeeds. The call
returns 5, PMA stays unreserved and both mask bits are cleared. -/
theorem reserve_pma_perfmon_failure_rolls_back_witness :
    pma_ip (ex_init_wide [0, 0, 5, 7, 0]) = some ex_pma_wide ∧ ex_pma_wide.reserved = false ∧
    ∃ r s, t234_hwpm_reserve_pma scripted_ops (ex_init_wide [0, 0, 5, 7, 0]) = some (r, s) ∧
      r = 5 ∧ pma_reserved s = false ∧
      calls_on SubOp.release IpId.pma SlotKind.perfmux 0 s.trace = 1 ∧
      calls_on SubOp.release IpId.pma SlotKind.perfmux 2 s.trace = 1 ∧
      ∃ pma2, pma_ip s = some pma2 ∧ pma2.fs_mask &&& 1 = 0 ∧ pma2.fs_mask &&& 4 = 0 := by
  refine ⟨rfl, rfl, ?_⟩
  obtain ⟨r, s, hrun, himp⟩ :=
    reserve_pma_perfmon_failure_rolls_back scripted_ops (ex_init_wide [0, 0, 5, 7, 0])
      ex_pma_wide rfl rfl
  have heval : ∃ s0, t234_hwpm_reserve_pma scripted_ops (ex_init_wide [0, 0, 5, 7, 0])
      = some (5, s0) ∧
      s0.trace = [Event.call SubOp.reserve IpId.pma SlotKind.perfmux 0 0,
        Event.call SubOp.reserve IpId.pma SlotKind.perfmux 2 0,
        Event.call SubOp.reserve IpId.pma SlotKind.perfmon 0 5,
        Event.call SubOp.release IpId.pma SlotKind.perfmux 0 7,
        Event.call SubOp.release IpId.pma SlotKind.perfmux 2 0] := ⟨_, rfl, rfl⟩
  obtain ⟨s0, hs0, htr⟩ := heval
  rw [hrun] at hs0
  simp only [Option.some.injEq, Prod.mk.injEq] at hs0
  obtain ⟨hr, hs⟩ := hs0
  subst hs
  have hnew : new_events (ex_init_wide [0, 0, 5, 7, 0]).trace s.trace = s.trace := by
    simp [new_events, ex_init_wide]
  rw [hnew, htr] at himp
  obtain ⟨h1, h2, pma2, h3, h4⟩ :=
    himp 5 (by decide) (by simp; omega) ⟨0, by simp⟩
  refine ⟨r, s, hrun, h1, h2, ?_, ?_, pma2, h3, ?_, ?_⟩
  · rw [htr]; exact (h4 0 ex_pma_perfmux rfl).1
  · rw [htr]; exact (h4 2 _ rfl).1
  · exact (h4 0 ex_pma_perfmux rfl).2
  · exact (h4 2 _ rfl).2

/-! ## C5: reserving a reserved block -/

theorem reserve_pma_success {W : Type} (ops : SubOps W) (hwpm s : tegra_soc_hwpm W)
    (h : t234_hwpm_reserve_pma ops hwpm = some (0, s)) :
    ∃ c pma, s.active_chip = some c ∧ c.ip_pma = some pma ∧ pma.reserved = true := by
  unfold t234_hwpm_reserve_pma at h
  split at h
  · simp at h
  rename_i c hc
  split at h
  · simp at h
  rename_i pma hp
  split at h
  · rename_i hres
    simp at h; subst h
    exact ⟨c, pma, hc, hp, hres⟩
  · dsimp only at h
    obtain ⟨evs1, -, -, hx1, -, -, -⟩ :=
      for_each_slot_runs (reserve_pma_perfmux_body_spec ops) pma.ip_perfmux 0
        ⟨0, pma.fs_mask, hwpm.world, hwpm.trace⟩
    split at h
    · rename_i hflag
      simp at h
      exact absurd h.1 (hx1 hflag).1
    · obtain ⟨evs2, -, -, hx2, -, -, -⟩ :=
        for_each_slot_runs (reserve_pma_perfmon_body_spec ops) pma.ip_perfmon 0
          (for_each_slot (reserve_pma_perfmux_body ops) 0 pma.ip_perfmux
            ⟨0, pma.fs_mask, hwpm.world, hwpm.trace⟩).2.2
      split at h
      · rename_i hflag
        obtain ⟨evs3, -, -, -, hret3, -, -⟩ :=
          for_each_slot_runs (reserve_pma_fail_body_spec ops)
            (for_each_slot (reserve_pma_perfmux_body ops) 0 pma.ip_perfmux
              ⟨0, pma.fs_mask, hwpm.world, hwpm.trace⟩).2.1 0
            (for_each_slot (reserve_pma_perfmon_body ops) 0 pma.ip_perfmon
              (for_each_slot (reserve_pma_perfmux_body ops) 0 pma.ip_perfmux
                ⟨0, pma.fs_mask, hwpm.world, hwpm.trace⟩).2.2).2.2
        simp at h
        have h0 := h.1
        rw [hret3 rfl] at h0
        exact absurd h0 (hx2 hflag).1
      · simp at h; subst h
        exact ⟨_, _, rfl, rfl, rfl⟩

theorem reserve_rtr_success {W : Type} (ops : SubOps W) (hwpm s : tegra_soc_hwpm W)
    (h : t234_hwpm_reserve_rtr ops hwpm = some (0, s)) :
    ∃ c pma rtr, s.active_chip = some c ∧ c.ip_pma = some pma ∧ pma.reserved = true ∧
      c.ip_rtr = some rtr ∧ rtr.reserved = true := by
  unfold t234_hwpm_reserve_rtr at h
  split at h
  · simp at h
  rename_i c hc
  split at h
  · simp at h
  rename_i pma hp
  split at h
  · simp [EINVAL] at h
  rename_i hres
  have hres2 : pma.reserved = true := by simpa using hres
  split at h
  · simp at h
  rename_i rtr hr
  split at h
  · rename_i hrr
    simp at h; subst h
    exact ⟨c, pma, rtr, hc, hp, hres2, hr, hrr⟩
  · dsimp only at h
    split at h
    · split at h
      · simp at h
      · simp at h; subst h
        exact ⟨_, pma, _, rfl, hp, hres2, rfl, rfl⟩
    · rename_i pma_perfmux _
      obtain ⟨evs1, -, -, hx1, -, -, -⟩ :=
        for_each_slot_runs (reserve_rtr_body_spec ops hwpm.fake_registers_enabled pma_perfmux)
          rtr.ip_perfmux 0 ⟨0, rtr.fs_mask, hwpm.world, hwpm.trace⟩
      split at h
      · rename_i hflag
        simp at h
        exact absurd h.1 (hx1 hflag).1
      · simp at h
        obtain ⟨_, rfl⟩ := h
        exact ⟨_, pma, _, rfl, hp, hres2, rfl, rfl⟩

/-- C5. For each block B in {PMA, RTR} and every state from which reserve(B)
returns success, a second reserve(B) right after it returns 0 and hands back
the very state the first call left: nothing is logged (no sub-operation is
invoked) and `B.reserved`, `B.fs_mask` and every slot field are as they were. -/
theorem reserve_is_idempotent {W : Type} (ops : SubOps W) (op : Op)
    (hwpm s : tegra_soc_hwpm W) (hop : op = Op.reserve_pma ∨ op = Op.reserve_rtr)
    (h : run_op ops op hwpm = some (0, s)) :
    run_op ops op s = some (0, s) := by
  rcases hop with rfl | rfl
  · obtain ⟨c, pma, hc, hp, hres⟩ := reserve_pma_success ops hwpm s h
    simp [run_op, t234_hwpm_reserve_pma, hc, hp, hres]
  · obtain ⟨c, pma, rtr, hc, hp, hres, hr, hrr⟩ := reserve_rtr_success ops hwpm s h
    simp [run_op, t234_hwpm_reserve_rtr, hc, hp, hres, hr, hrr]

/-- C5, witness: `reserve_pma` twice from the initial state, and `reserve_rtr`
twice from a state with PMA reserved. -/
theorem reserve_is_idempotent_witness :
    run_op scripted_ops Op.reserve_pma (ex_init [])
      = some (0, ex_state ex_pma_on ex_rtr false []
          [Event.call SubOp.reserve IpId.pma SlotKind.perfmux 0 0,
            Event.call SubOp.reserve IpId.pma SlotKind.perfmon 0 0]) ∧
    run_op scripted_ops Op.reserve_pma (ex_state ex_pma_on ex_rtr false []
          [Event.call SubOp.reserve IpId.pma SlotKind.perfmux 0 0,
            Event.call SubOp.reserve IpId.pma SlotKind.perfmon 0 0])
      = some (0, ex_state ex_pma_on ex_rtr false []
          [Event.call SubOp.reserve IpId.pma SlotKind.perfmux 0 0,
            Event.call SubOp.reserve IpId.pma SlotKind.perfmon 0 0]) ∧
    run_op scripted_ops Op.reserve_rtr (ex_state ex_pma_on ex_rtr false [] [])
      = some (0, ex_state ex_pma_on ex_rtr_on false []
          [Event.call SubOp.reserve IpId.rtr SlotKind.perfmux 0 0]) ∧
    run_op scripted_ops Op.reserve_rtr (ex_state ex_pma_on ex_rtr_on false []
          [Event.call SubOp.reserve IpId.rtr SlotKind.perfmux 0 0])
      = some (0, ex_state ex_pma_on ex_rtr_on false []
          [Event.call SubOp.reserve IpId.rtr SlotKind.perfmux 0 0]) :=
  ⟨rfl,
    reserve_is_idempotent scripted_ops Op.reserve_pma (ex_init []) _ (Or.inl rfl) rfl,
    rfl,
    reserve_is_idempotent scripted_ops Op.reserve_rtr (ex_state ex_pma_on ex_rtr false [] []) _
      (Or.inr rfl) rfl⟩

/-! ## C7: aliasing in `reserve_rtr` -/

theorem or_masks_keeps (k : Nat) :
    ∀ (slots : List (Option hwpm_ip_perfmux)) (fs : Nat), fs &&& k = k →
      or_masks fs slots &&& k = k := by
  intro slots
  induction slots with
  | nil => intro fs h; simpa [or_masks] using h
  | cons a rest ih =>
    intro fs h
    cases a with
    | none => simpa [or_masks] using ih fs h
    | some p =>
      simp only [or_masks]
      apply ih
      apply Nat.eq_of_testBit_eq
      intro i
      have hi := congrArg (fun n => n.testBit i) h
      simp only [Nat.testBit_and] at hi
      simp only [Nat.testBit_and, Nat.testBit_or]
      revert hi
      cases fs.testBit i <;> cases k.testBit i <;> simp

theorem or_masks_contains :
    ∀ (slots : List (Option hwpm_ip_perfmux)) (fs : Nat) (i : Nat) (q : hwpm_ip_perfmux),
      slots[i]? = some (some q) → or_masks fs slots &&& q.hw_inst_mask = q.hw_inst_mask := by
  intro slots
  induction slots with
  | nil => intro fs i q h; simp at h
  | cons a rest ih =>
    intro fs i q h
    cases i with
    | zero =>
      simp at h
      subst h
      simp only [or_masks]
      apply or_masks_keeps
      apply Nat.eq_of_testBit_eq
      intro i
      simp only [Nat.testBit_and, Nat.testBit_or]
      cases fs.testBit i <;> cases q.hw_inst_mask.testBit i <;> simp
    | succ i =>
      have h2 : rest[i]? = some (some q) := by simpa using h
      cases a with
      | none => simpa [or_masks] using ih fs i q h2
      | some p => simpa [or_masks] using ih _ i q h2

theorem reserve_rtr_loop_effect {W : Type} (ops : SubOps W) (fake : Bool)
    (p : hwpm_ip_perfmux) :
    ∀ (slots : List (Option hwpm_ip_perfmux)) (idx : Nat) (st : LoopSt W),
      (for_each_slot (reserve_rtr_body ops fake p) idx slots st).1 = false →
      (for_each_slot (reserve_rtr_body ops fake p) idx slots st).2.2.fs_mask
          = or_masks st.fs_mask slots ∧
      ∀ (i : Nat) (q : hwpm_ip_perfmux), slots[i]? = some (some q) →
        q.start_abs_pa = p.start_abs_pa →
        (for_each_slot (reserve_rtr_body ops fake p) idx slots st).2.1[i]?
          = some (some (shares fake p q)) := by
  intro slots
  induction slots with
  | nil =>
    intro idx st _
    exact ⟨by simp [for_each_slot, or_masks], fun i q h => by simp at h⟩
  | cons a rest ih =>
    intro idx st hf
    cases a with
    | none =>
      simp only [for_each_slot] at hf ⊢
      obtain ⟨h1, h2⟩ := ih (idx + 1) st hf
      refine ⟨by simpa [or_masks] using h1, ?_⟩
      intro i q hq ha
      cases i with
      | zero => simp at hq
      | succ i => simpa using h2 i q (by simpa using hq) ha
    | some r =>
      simp only [for_each_slot] at hf ⊢
      by_cases hb : (reserve_rtr_body ops fake p idx r st).1 = true
      · simp [hb] at hf
      · simp only [hb] at hf ⊢
        simp only [Bool.false_eq_true, if_false] at hf ⊢
        obtain ⟨h1, h2⟩ := ih (idx + 1) (reserve_rtr_body ops fake p idx r st).2.2 hf
        have hfs : (reserve_rtr_body ops fake p idx r st).2.2.fs_mask
            = st.fs_mask ||| r.hw_inst_mask := by
          simp only [reserve_rtr_body] at hb ⊢
          split
          · rfl
          · rename_i hne
            simp only [if_neg hne] at hb
            split
            · rename_i hret; simp [hret] at hb
            · rfl
        refine ⟨by rw [h1, hfs]; rfl, ?_⟩
        intro i q hq ha
        cases i with
        | zero =>
          simp at hq
          subst hq
          simp [reserve_rtr_body, ha, shares]
        | succ i => simpa using h2 i q (by simpa using hq) ha

theorem release_rtr_loop_effect {W : Type} (ops : SubOps W) (fake : Bool)
    (p : hwpm_ip_perfmux) :
    ∀ (slots : List (Option hwpm_ip_perfmux)) (idx : Nat) (st : LoopSt W),
      (for_each_slot (release_rtr_body ops fake p) idx slots st).1 = false →
      ∀ (i : Nat) (q : hwpm_ip_perfmux), slots[i]? = some (some q) →
        q.start_abs_pa = p.start_abs_pa →
        (for_each_slot (release_rtr_body ops fake p) idx slots st).2.1[i]?
          = some (some (unshared fake q)) := by
  intro slots
  induction slots with
  | nil => intro idx st _ i q h; simp at h
  | cons a rest ih =>
    intro idx st hf
    cases a with
    | none =>
      simp only [for_each_slot] at hf ⊢
      intro i q hq ha
      cases i with
      | zero => simp at hq
      | succ i => simpa using ih (idx + 1) st hf i q (by simpa using hq) ha
    | some r =>
      simp only [for_each_slot] at hf ⊢
      by_cases hb : (release_rtr_body ops fake p idx r st).1 = true
      · simp [hb] at hf
      · simp only [hb] at hf ⊢
        simp only [Bool.false_eq_true, if_false] at hf ⊢
        intro i q hq ha
        cases i with
        | zero =>
          simp at hq
          subst hq
          simp [release_rtr_body, ha, unshared]
        | succ i =>
          simpa using ih (idx + 1) (release_rtr_body ops fake p idx r st).2.2 hf i q
            (by simpa using hq) ha

theorem set_field_field (v m f : Nat) :
    (set_field v m f % 2 ^ 32) &&& m = (f &&& m) % 2 ^ 32 := by
  apply Nat.eq_of_testBit_eq
  intro i
  simp only [set_field, Nat.testBit_and, Nat.testBit_or, testBit_u32_not, Nat.reducePow,
    testBit_mod_u32]
  cases v.testBit i <;> cases m.testBit i <;> cases f.testBit i <;> simp

theorem disable_slcg_writes_chip {W : Type} (hw : SlcgRegs) (s : tegra_soc_hwpm W)
    (pma rtr : hwpm_ip) :
    (disable_slcg_writes hw s pma rtr).active_chip = s.active_chip := by
  unfold disable_slcg_writes tegra_hwpm_writel
  cases perfmux_slot0 pma <;> cases perfmux_static0 rtr <;> rfl

theorem enable_slcg_writes_fields {W : Type} (hw : SlcgRegs) (s : tegra_soc_hwpm W)
    (pma rtr : hwpm_ip) (p q : hwpm_ip_perfmux)
    (hp0 : perfmux_slot0 pma = some p) (hq0 : perfmux_static0 rtr = some q)
    (hd : p.start_abs_pa ≠ q.start_abs_pa ∨ hw.pmasys_cg2_r ≠ hw.pmmsys_sys0router_cg2_r) :
    tegra_hwpm_readl (enable_slcg_writes hw s pma rtr) (some p) hw.pmasys_cg2_r
        &&& hw.pmasys_cg2_slcg_m
      = (hw.pmasys_cg2_slcg_enabled_f &&& hw.pmasys_cg2_slcg_m) % 2 ^ 32 ∧
    tegra_hwpm_readl (enable_slcg_writes hw s pma rtr) (some q) hw.pmmsys_sys0router_cg2_r
        &&& hw.rtr_cg2_mask
      = (hw.rtr_cg2_prod &&& hw.rtr_cg2_mask) % 2 ^ 32 := by
  have hd2 : ¬ (p.start_abs_pa = q.start_abs_pa ∧
      hw.pmasys_cg2_r = hw.pmmsys_sys0router_cg2_r) := by
    rintro ⟨h1, h2⟩
    rcases hd with h | h
    · exact h h1
    · exact h h2
  constructor
  · simp only [enable_slcg_writes, hp0, hq0, tegra_hwpm_readl, tegra_hwpm_writel, hd2,
      if_false, and_self, if_true, Nat.mod_mod]
    exact set_field_field _ _ _
  · simp only [enable_slcg_writes, hp0, hq0, tegra_hwpm_readl, tegra_hwpm_writel,
      and_self, if_true, Nat.mod_mod]
    exact set_field_field _ _ _

/-- C10, counterexample. Both blocks are reserved and both clock-gating registers
hold the disabled encodings in their SLCG fields. After `disable_slcg` and then
`enable_slcg` (both returning 0) the fields hold the enabled (production)
encodings, not the values they held before `disable_slcg`. -/
theorem slcg_round_trip_does_not_restore :
    pma_reserved ex_slcg_gated_off = true ∧ rtr_reserved ex_slcg_gated_off = true ∧
    (t234_hwpm_disable_slcg ex_slcg_regs ex_slcg_gated_off).1 = 0 ∧
    (t234_hwpm_enable_slcg ex_slcg_regs
      (t234_hwpm_disable_slcg ex_slcg_regs ex_slcg_gated_off).2).1 = 0 ∧
    tegra_hwpm_readl ex_slcg_gated_off (perfmux_slot0 ex_pma_on) ex_slcg_regs.pmasys_cg2_r
        &&& ex_slcg_regs.pmasys_cg2_slcg_m = 1 ∧
    tegra_hwpm_readl
        (t234_hwpm_enable_slcg ex_slcg_regs
          (t234_hwpm_disable_slcg ex_slcg_regs ex_slcg_gated_off).2).2
        (perfmux_slot0 ex_pma_on) ex_slcg_regs.pmasys_cg2_r
        &&& ex_slcg_regs.pmasys_cg2_slcg_m = 0 ∧
    tegra_hwpm_readl ex_slcg_gated_off (perfmux_static0 ex_rtr_on)
        ex_slcg_regs.pmmsys_sys0router_cg2_r &&& ex_slcg_regs.rtr_cg2_mask = 0xe0000000 ∧
    tegra_hwpm_readl
        (t234_hwpm_enable_slcg ex_slcg_regs
          (t234_hwpm_disable_slcg ex_slcg_regs ex_slcg_gated_off).2).2
        (perfmux_static0 ex_rtr_on) ex_slcg_regs.pmmsys_sys0router_cg2_r
        &&& ex_slcg_regs.rtr_cg2_mask = 0 := by
  refine ⟨rfl, rfl, rfl, rfl, ?_, ?_, ?_, ?_⟩ <;> decide

/-- C10, amended. With PMA and RTR both reserved (their clock-gating registers
being two distinct registers, the enabled and production encodings lying
inside their field masks), `disable_slcg` followed by `enable_slcg` both return
0 and leave the PMA SLCG field at its enabled encoding and the three RTR fields
at their production encodings, whatever the fields held before `disable_slcg`:
a field has its earlier value afterwards exactly when that value was the
enabled (production) encoding. -/
theorem slcg_disable_enable_sets_production {W : Type} (hw : SlcgRegs)
    (hwpm : tegra_soc_hwpm W) (pma rtr : hwpm_ip) (p q : hwpm_ip_perfmux)
    (hpma : pma_ip hwpm = some pma) (hrtr : rtr_ip hwpm = some rtr)
    (hpr : pma.reserved = true) (hrr : rtr.reserved = true)
    (hp0 : perfmux_slot0 pma = some p) (hq0 : perfmux_static0 rtr = some q)
    (hd : p.start_abs_pa ≠ q.start_abs_pa ∨ hw.pmasys_cg2_r ≠ hw.pmmsys_sys0router_cg2_r)
    (hpf : hw.pmasys_cg2_slcg_enabled_f &&& hw.pmasys_cg2_slcg_m = hw.pmasys_cg2_slcg_enabled_f)
    (hpf32 : hw.pmasys_cg2_slcg_enabled_f < 2 ^ 32)
    (hrf : hw.rtr_cg2_prod &&& hw.rtr_cg2_mask = hw.rtr_cg2_prod)
    (hrf32 : hw.rtr_cg2_prod < 2 ^ 32) :
    (t234_hwpm_disable_slcg hw hwpm).1 = 0 ∧
    (t234_hwpm_enable_slcg hw (t234_hwpm_disable_slcg hw hwpm).2).1 = 0 ∧
    tegra_hwpm_readl (t234_hwpm_enable_slcg hw (t234_hwpm_disable_slcg hw hwpm).2).2
        (some p) hw.pmasys_cg2_r &&& hw.pmasys_cg2_slcg_m
      = hw.pmasys_cg2_slcg_enabled_f ∧
    tegra_hwpm_readl (t234_hwpm_enable_slcg hw (t234_hwpm_disable_slcg hw hwpm).2).2
        (some q) hw.pmmsys_sys0router_cg2_r &&& hw.rtr_cg2_mask
      = hw.rtr_cg2_prod ∧
    (tegra_hwpm_readl (t234_hwpm_enable_slcg hw (t234_hwpm_disable_slcg hw hwpm).2).2
        (some p) hw.pmasys_cg2_r &&& hw.pmasys_cg2_slcg_m
      = tegra_hwpm_readl hwpm (some p) hw.pmasys_cg2_r &&& hw.pmasys_cg2_slcg_m ↔
      tegra_hwpm_readl hwpm (some p) hw.pmasys_cg2_r &&& hw.pmasys_cg2_slcg_m
        = hw.pmasys_cg2_slcg_enabled_f) ∧
    (tegra_hwpm_readl (t234_hwpm_enable_slcg hw (t234_hwpm_disable_slcg hw hwpm).2).2
        (some q) hw.pmmsys_sys0router_cg2_r &&& hw.rtr_cg2_mask
      = tegra_hwpm_readl hwpm (some q) hw.pmmsys_sys0router_cg2_r &&& hw.rtr_cg2_mask ↔
      tegra_hwpm_readl hwpm (some q) hw.pmmsys_sys0router_cg2_r &&& hw.rtr_cg2_mask
        = hw.rtr_cg2_prod) := by
  obtain ⟨c, hc, hp⟩ := pma_ip_eq_some hpma
  obtain ⟨c2, hc2, hr⟩ := rtr_ip_eq_some hrtr
  rw [hc] at hc2
  cases hc2
  have hdis : t234_hwpm_disable_slcg hw hwpm = (0, disable_slcg_writes hw hwpm pma rtr) := by
    simp [t234_hwpm_disable_slcg, hc, hp, hpr, hr, hrr]
  have hchip : (disable_slcg_writes hw hwpm pma rtr).active_chip = some c := by
    rw [disable_slcg_writes_chip, hc]
  have hen : t234_hwpm_enable_slcg hw (disable_slcg_writes hw hwpm pma rtr)
      = (0, enable_slcg_writes hw (disable_slcg_writes hw hwpm pma rtr) pma rtr) := by
    simp [t234_hwpm_enable_slcg, hchip, hp, hpr, hr, hrr]
  obtain ⟨h1, h2⟩ :=
    enable_slcg_writes_fields hw (disable_slcg_writes hw hwpm pma rtr) pma rtr p q hp0 hq0 hd
  rw [hpf, Nat.mod_eq_of_lt hpf32] at h1
  rw [hrf, Nat.mod_eq_of_lt hrf32] at h2
  rw [hdis]
  simp only [hen]
  refine ⟨trivial, trivial, h1, h2, ?_, ?_⟩
  · rw [h1]; exact eq_comm
  · rw [h2]; exact eq_comm

/-- C10, witness: the round trip on the state whose SLCG fields were disabled. -/
theorem slcg_disable_enable_sets_production_witness :
    pma_ip ex_slcg_gated_off = some ex_pma_on ∧ rtr_ip ex_slcg_gated_off = some ex_rtr_on ∧
    ex_pma_on.reserved = true ∧ ex_rtr_on.reserved = true ∧
    perfmux_slot0 ex_pma_on = some ex_pma_perfmux_on ∧
    perfmux_static0 ex_rtr_on = some ex_rtr_perfmux ∧
    tegra_hwpm_readl
        (t234_hwpm_enable_slcg ex_slcg_regs
          (t234_hwpm_disable_slcg ex_slcg_regs ex_slcg_gated_off).2).2
        (some ex_pma_perfmux_on) ex_slcg_regs.pmasys_cg2_r
        &&& ex_slcg_regs.pmasys_cg2_slcg_m = ex_slcg_regs.pmasys_cg2_slcg_enabled_f ∧
    tegra_hwpm_readl
        (t234_hwpm_enable_slcg ex_slcg_regs
          (t234_hwpm_disable_slcg ex_slcg_regs ex_slcg_gated_off).2).2
        (some ex_rtr_perfmux) ex_slcg_regs.pmmsys_sys0router_cg2_r
        &&& ex_slcg_regs.rtr_cg2_mask = ex_slcg_regs.rtr_cg2_prod :=
  have h := slcg_disable_enable_sets_production ex_slcg_regs ex_slcg_gated_off ex_pma_on
    ex_rtr_on ex_pma_perfmux_on ex_rtr_perfmux rfl rfl rfl rfl rfl rfl
    (Or.inl (by decide)) (by decide) (by decide) (by decide) (by decide)
  ⟨rfl, rfl, rfl, rfl, rfl, rfl, h.2.2.1, h.2.2.2.1⟩

/-! ## C11, C12: `disable_triggers` -/

theorem HWPM_TIMEOUT_eq {W : Type} (polls : PollOps W) (s : tegra_soc_hwpm W) (cond : Nat)
    (check : Bool) :
    ∃ b w, HWPM_TIMEOUT polls s cond check
      = (b, { s with world := w, trace := s.trace ++ [Event.poll cond b] }) :=
  ⟨_, _, rfl⟩

theorem disable_triggers_waits_eq {W : Type} (polls : PollOps W) (hw : TriggerRegs)
    (s : tegra_soc_hwpm W) (pp rp : Option hwpm_ip_perfmux) :
    ∃ b0 b1 b2 w,
      disable_triggers_waits polls hw s pp rp
        = (if b0 = true ∨ b1 = true ∨ b2 = true then - EIO else 0,
            { s with world := w,
                     trace := s.trace ++
                       [Event.poll 0 b0, Event.poll 1 b1, Event.poll 2 b2] }) := by
  unfold disable_triggers_waits
  obtain ⟨b0, w0, e0⟩ := HWPM_TIMEOUT_eq polls s 0
    (decide (hw.pmmsys_sys0router_perfmonstatus_merged_v
      (tegra_hwpm_readl s rp hw.pmmsys_sys0router_perfmonstatus_r) = 0))
  simp only [e0]
  obtain ⟨b1, w1, e1⟩ := HWPM_TIMEOUT_eq polls
    { s with world := w0, trace := s.trace ++ [Event.poll 0 b0] } 1
    (decide (hw.pmmsys_sys0router_enginestatus_status_v
      (tegra_hwpm_readl { s with world := w0, trace := s.trace ++ [Event.poll 0 b0] } rp
        hw.pmmsys_sys0router_enginestatus_r)
        = hw.pmmsys_sys0router_enginestatus_status_empty_v))
  simp only [e1]
  obtain ⟨b2, w2, e2⟩ := HWPM_TIMEOUT_eq polls
    { s with world := w1, trace := s.trace ++ [Event.poll 0 b0] ++ [Event.poll 1 b1] } 2
    (decide (tegra_hwpm_readl
        { s with world := w1, trace := s.trace ++ [Event.poll 0 b0] ++ [Event.poll 1 b1] } pp
        hw.pmasys_enginestatus_r &&&
          (hw.pmasys_enginestatus_status_m ||| hw.pmasys_enginestatus_rbufempty_m)
      = hw.pmasys_enginestatus_status_empty_f ||| hw.pmasys_enginestatus_rbufempty_empty_f))
  simp only [e2]
  refine ⟨b0, b1, b2, w2, ?_⟩
  cases b0 <;> cases b1 <;> cases b2 <;> simp [ EIO]

theorem disable_triggers_writes_trace {W : Type} (hw : TriggerRegs) (s : tegra_soc_hwpm W)
    (p : hwpm_ip_perfmux) :
    (disable_triggers_writes hw s (some p)).trace = s.trace ++
      [Event.writel p.start_abs_pa (hw.pmasys_trigger_config_user_r 0)
          (set_field (tegra_hwpm_readl s (some p) (hw.pmasys_trigger_config_user_r 0))
            hw.pmasys_trigger_config_user_pma_pulse_m
            hw.pmasys_trigger_config_user_pma_pulse_disable_f % 2 ^ 32),
        Event.writel p.start_abs_pa hw.pmasys_sys_trigger_start_mask_r 0,
        Event.writel p.start_abs_pa hw.pmasys_sys_trigger_start_maskb_r 0,
        Event.writel p.start_abs_pa hw.pmasys_sys_trigger_stop_mask_r 0,
        Event.writel p.start_abs_pa hw.pmasys_sys_trigger_stop_maskb_r 0] := by
  simp [disable_triggers_writes, tegra_hwpm_writel]

theorem disable_triggers_writes_regs {W : Type} (hw : TriggerRegs) (s : tegra_soc_hwpm W)
    (p : hwpm_ip_perfmux) (pa r : Nat) :
    (disable_triggers_writes hw s (some p)).regs pa r =
      if pa = p.start_abs_pa ∧ (r = hw.pmasys_sys_trigger_start_mask_r ∨
          r = hw.pmasys_sys_trigger_start_maskb_r ∨ r = hw.pmasys_sys_trigger_stop_mask_r ∨
          r = hw.pmasys_sys_trigger_stop_maskb_r) then 0
      else if pa = p.start_abs_pa ∧ r = hw.pmasys_trigger_config_user_r 0 then
        set_field (tegra_hwpm_readl s (some p) (hw.pmasys_trigger_config_user_r 0))
          hw.pmasys_trigger_config_user_pma_pulse_m
          hw.pmasys_trigger_config_user_pma_pulse_disable_f % 2 ^ 32
      else s.regs pa r := by
  simp only [disable_triggers_writes, tegra_hwpm_writel]
  by_cases h1 : pa = p.start_abs_pa <;> by_cases h2 : r = hw.pmasys_sys_trigger_start_mask_r <;>
    by_cases h3 : r = hw.pmasys_sys_trigger_start_maskb_r <;>
    by_cases h4 : r = hw.pmasys_sys_trigger_stop_mask_r <;>
    by_cases h5 : r = hw.pmasys_sys_trigger_stop_maskb_r <;>
    simp [h1, h2, h3, h4, h5]

theorem set_field_outside (v m f : Nat) (hf : f &&& m = f) :
    (set_field v m f % 2 ^ 32) &&& u32_not m = v &&& u32_not m := by
  apply Nat.eq_of_testBit_eq
  intro i
  have h2 := congrArg (fun n => n.testBit i) hf
  simp only [Nat.testBit_and] at h2
  simp only [set_field, Nat.testBit_and, Nat.testBit_or, testBit_u32_not, Nat.reducePow,
    testBit_mod_u32]
  revert h2
  cases v.testBit i <;> cases m.testBit i <;> cases f.testBit i <;> simp

/-- C11. `disable_triggers` performs the three polls in the fixed order 0 (RTR
merged perfmon status), 1 (RTR engine status), 2 (PMA engine status) in every
execution, whatever the earlier polls reported, and returns 0 if and only if
none of the three timed out and `-EIO` if and only if at least one did. -/
theorem disable_triggers_polls_all_three {W : Type} (polls : PollOps W) (hw : TriggerRegs)
    (hwpm : tegra_soc_hwpm W) (pma rtr : hwpm_ip)
    (hpma : pma_ip hwpm = some pma) (hrtr : rtr_ip hwpm = some rtr) :
    ∃ r s b0 b1 b2, t234_hwpm_disable_triggers polls hw hwpm = some (r, s) ∧
      (new_events hwpm.trace s.trace).filter Event.is_poll
        = [Event.poll 0 b0, Event.poll 1 b1, Event.poll 2 b2] ∧
      (r = 0 ↔ (b0 = false ∧ b1 = false ∧ b2 = false)) ∧
      (r = - EIO ↔ (b0 = true ∨ b1 = true ∨ b2 = true)) := by
  obtain ⟨c, hc, hp⟩ := pma_ip_eq_some hpma
  obtain ⟨c2, hc2, hr⟩ := rtr_ip_eq_some hrtr
  rw [hc] at hc2
  cases hc2
  obtain ⟨b0, b1, b2, w, e⟩ := disable_triggers_waits_eq polls hw
    (disable_triggers_writes hw hwpm (perfmux_slot0 pma)) (perfmux_slot0 pma)
    (perfmux_static0 rtr)
  have hrun : t234_hwpm_disable_triggers polls hw hwpm
      = some (disable_triggers_waits polls hw
          (disable_triggers_writes hw hwpm (perfmux_slot0 pma)) (perfmux_slot0 pma)
          (perfmux_static0 rtr)) := by
    simp only [t234_hwpm_disable_triggers, hc, hp, hr]
  rw [e] at hrun
  refine ⟨_, _, b0, b1, b2, hrun, ?_, ?_, ?_⟩
  · cases hp0 : perfmux_slot0 pma with
    | none => simp [disable_triggers_writes, tegra_hwpm_writel, new_events, Event.is_poll]
    | some p =>
      simp only [disable_triggers_writes_trace, List.append_assoc, new_events_append]
      simp [Event.is_poll]
  · cases b0 <;> cases b1 <;> cases b2 <;> simp [ EIO]
  · cases b0 <;> cases b1 <;> cases b2 <;> simp [ EIO]

/-- C11, witness: the second poll times out, the first and third do not; all
three are performed and the call returns `-EIO`. -/
theorem disable_triggers_polls_all_three_witness :
    pma_ip (ex_triggers_armed [0, 1, 0]) = some ex_pma_on ∧
    rtr_ip (ex_triggers_armed [0, 1, 0]) = some ex_rtr_on ∧
    ∃ r s, t234_hwpm_disable_triggers scripted_polls ex_trigger_regs
        (ex_triggers_armed [0, 1, 0]) = some (r, s) ∧ r = - EIO ∧
      s.trace.filter Event.is_poll
        = [Event.poll 0 false, Event.poll 1 true, Event.poll 2 false] := by
  refine ⟨rfl, rfl, ?_⟩
  obtain ⟨r, s, b0, b1, b2, hrun, hf, -, h1⟩ :=
    disable_triggers_polls_all_three scripted_polls ex_trigger_regs
      (ex_triggers_armed [0, 1, 0]) ex_pma_on ex_rtr_on rfl rfl
  have heval : ∃ s0, t234_hwpm_disable_triggers scripted_polls ex_trigger_regs
      (ex_triggers_armed [0, 1, 0]) = some (- EIO, s0) ∧
      s0.trace.filter Event.is_poll
        = [Event.poll 0 false, Event.poll 1 true, Event.poll 2 false] := ⟨_, rfl, rfl⟩
  obtain ⟨s0, hs0, htr⟩ := heval
  rw [hrun] at hs0
  simp only [Option.some.injEq, Prod.mk.injEq] at hs0
  obtain ⟨hr, hs⟩ := hs0
  subst hs
  exact ⟨r, s, hrun, hr, htr⟩

/-- C12. With PMA's perfmux slot 0 present (the trigger-config register being
none of the four mask registers, the disabled encoding lying inside the pulse
field mask), after `disable_triggers`, whatever the polls report, the PMA
trigger-config register holds its old value with only the pulse field
replaced by the disabled encoding, the four PMA trigger mask registers hold 0,
these five writes are logged before the first poll, and no other register,
of PMA or of RTR, is written. -/
theorem disable_triggers_writes_before_polls {W : Type} (polls : PollOps W)
    (hw : TriggerRegs) (hwpm : tegra_soc_hwpm W) (pma rtr : hwpm_ip) (p : hwpm_ip_perfmux)
    (hpma : pma_ip hwpm = some pma) (hrtr : rtr_ip hwpm = some rtr)
    (hp0 : perfmux_slot0 pma = some p)
    (hd : hw.pmasys_trigger_config_user_r 0 ≠ hw.pmasys_sys_trigger_start_mask_r ∧
      hw.pmasys_trigger_config_user_r 0 ≠ hw.pmasys_sys_trigger_start_maskb_r ∧
      hw.pmasys_trigger_config_user_r 0 ≠ hw.pmasys_sys_trigger_stop_mask_r ∧
      hw.pmasys_trigger_config_user_r 0 ≠ hw.pmasys_sys_trigger_stop_maskb_r)
    (hf : hw.pmasys_trigger_config_user_pma_pulse_disable_f
        &&& hw.pmasys_trigger_config_user_pma_pulse_m
      = hw.pmasys_trigger_config_user_pma_pulse_disable_f)
    (hf32 : hw.pmasys_trigger_config_user_pma_pulse_disable_f < 2 ^ 32) :
    ∃ r s b0 b1 b2, t234_hwpm_disable_triggers polls hw hwpm = some (r, s) ∧
      new_events hwpm.trace s.trace =
        [Event.writel p.start_abs_pa (hw.pmasys_trigger_config_user_r 0)
            (set_field (tegra_hwpm_readl hwpm (some p) (hw.pmasys_trigger_config_user_r 0))
              hw.pmasys_trigger_config_user_pma_pulse_m
              hw.pmasys_trigger_config_user_pma_pulse_disable_f % 2 ^ 32),
          Event.writel p.start_abs_pa hw.pmasys_sys_trigger_start_mask_r 0,
          Event.writel p.start_abs_pa hw.pmasys_sys_trigger_start_maskb_r 0,
          Event.writel p.start_abs_pa hw.pmasys_sys_trigger_stop_mask_r 0,
          Event.writel p.start_abs_pa hw.pmasys_sys_trigger_stop_maskb_r 0,
          Event.poll 0 b0, Event.poll 1 b1, Event.poll 2 b2] ∧
      tegra_hwpm_readl s (some p) (hw.pmasys_trigger_config_user_r 0)
        = set_field (tegra_hwpm_readl hwpm (some p) (hw.pmasys_trigger_config_user_r 0))
            hw.pmasys_trigger_config_user_pma_pulse_m
            hw.pmasys_trigger_config_user_pma_pulse_disable_f % 2 ^ 32 ∧
      tegra_hwpm_readl s (some p) (hw.pmasys_trigger_config_user_r 0)
          &&& hw.pmasys_trigger_config_user_pma_pulse_m
        = hw.pmasys_trigger_config_user_pma_pulse_disable_f ∧
      tegra_hwpm_readl s (some p) (hw.pmasys_trigger_config_user_r 0)
          &&& u32_not hw.pmasys_trigger_config_user_pma_pulse_m
        = tegra_hwpm_readl hwpm (some p) (hw.pmasys_trigger_config_user_r 0)
          &&& u32_not hw.pmasys_trigger_config_user_pma_pulse_m ∧
      tegra_hwpm_readl s (some p) hw.pmasys_sys_trigger_start_mask_r = 0 ∧
      tegra_hwpm_readl s (some p) hw.pmasys_sys_trigger_start_maskb_r = 0 ∧
      tegra_hwpm_readl s (some p) hw.pmasys_sys_trigger_stop_mask_r = 0 ∧
      tegra_hwpm_readl s (some p) hw.pmasys_sys_trigger_stop_maskb_r = 0 ∧
      (∀ pa a, ¬ (pa = p.start_abs_pa ∧ (a = hw.pmasys_trigger_config_user_r 0 ∨
          a = hw.pmasys_sys_trigger_start_mask_r ∨ a = hw.pmasys_sys_trigger_start_maskb_r ∨
          a = hw.pmasys_sys_trigger_stop_mask_r ∨ a = hw.pmasys_sys_trigger_stop_maskb_r)) →
        s.regs pa a = hwpm.regs pa a) ∧
      (∀ q, perfmux_static0 rtr = some q → q.start_abs_pa ≠ p.start_abs_pa →
        ∀ a, s.regs q.start_abs_pa a = hwpm.regs q.start_abs_pa a) := by
  obtain ⟨c, hc, hp⟩ := pma_ip_eq_some hpma
  obtain ⟨c2, hc2, hr⟩ := rtr_ip_eq_some hrtr
  rw [hc] at hc2
  cases hc2
  obtain ⟨b0, b1, b2, w, e⟩ := disable_triggers_waits_eq polls hw
    (disable_triggers_writes hw hwpm (some p)) (some p) (perfmux_static0 rtr)
  obtain ⟨hd1, hd2, hd3, hd4⟩ := hd
  have hcfg : (disable_triggers_writes hw hwpm (some p)).regs p.start_abs_pa
      (hw.pmasys_trigger_config_user_r 0)
      = set_field (tegra_hwpm_readl hwpm (some p) (hw.pmasys_trigger_config_user_r 0))
          hw.pmasys_trigger_config_user_pma_pulse_m
          hw.pmasys_trigger_config_user_pma_pulse_disable_f % 2 ^ 32 := by
    rw [disable_triggers_writes_regs]
    simp [hd1, hd2, hd3, hd4]
  have hrun : t234_hwpm_disable_triggers polls hw hwpm
      = some (disable_triggers_waits polls hw
          (disable_triggers_writes hw hwpm (some p)) (some p) (perfmux_static0 rtr)) := by
    simp only [t234_hwpm_disable_triggers, hc, hp, hr, hp0]
  rw [e] at hrun
  refine ⟨_, _, b0, b1, b2, hrun, ?_, ?_, ?_, ?_, ?_, ?_, ?_, ?_, ?_, ?_⟩
  · simp only [disable_triggers_writes_trace, List.append_assoc, new_events_append]
    rfl
  · simp only [tegra_hwpm_readl, hcfg, Nat.mod_mod]
  · simp only [tegra_hwpm_readl, hcfg, Nat.mod_mod]
    rw [set_field_field, hf, Nat.mod_eq_of_lt hf32]
  · simp only [tegra_hwpm_readl, hcfg, Nat.mod_mod]
    exact set_field_outside _ _ _ hf
  · simp [tegra_hwpm_readl, disable_triggers_writes_regs]
  · simp [tegra_hwpm_readl, disable_triggers_writes_regs]
  · simp [tegra_hwpm_readl, disable_triggers_writes_regs]
  · simp [tegra_hwpm_readl, disable_triggers_writes_regs]
  · intro pa a hna
    simp only [disable_triggers_writes_regs]
    by_cases h1 : pa = p.start_abs_pa
    · subst h1
      simp only [true_and, not_or] at hna
      obtain ⟨n1, n2, n3, n4, n5⟩ := hna
      simp [n1, n2, n3, n4, n5]
    · simp [h1]
  · intro q _ hq a
    simp only [disable_triggers_writes_regs]
    simp [hq]

/-- C12, witness: triggers armed, every poll timing out. The pulse bit is
cleared with the other configuration bits kept, and the four masks read 0. -/
theorem disable_triggers_writes_before_polls_witness :
    pma_ip (ex_triggers_armed [1, 1, 1]) = some ex_pma_on ∧
    rtr_ip (ex_triggers_armed [1, 1, 1]) = some ex_rtr_on ∧
    perfmux_slot0 ex_pma_on = some ex_pma_perfmux_on ∧
    tegra_hwpm_readl (ex_triggers_armed [1, 1, 1]) (some ex_pma_perfmux_on)
      (ex_trigger_regs.pmasys_trigger_config_user_r 0) = 0x31 ∧
    ∃ r s, t234_hwpm_disable_triggers scripted_polls ex_trigger_regs
        (ex_triggers_armed [1, 1, 1]) = some (r, s) ∧
      tegra_hwpm_readl s (some ex_pma_perfmux_on)
        (ex_trigger_regs.pmasys_trigger_config_user_r 0) = 0x30 ∧
      tegra_hwpm_readl s (some ex_pma_perfmux_on)
        ex_trigger_regs.pmasys_sys_trigger_start_mask_r = 0 ∧
      tegra_hwpm_readl s (some ex_pma_perfmux_on)
        ex_trigger_regs.pmasys_sys_trigger_stop_maskb_r = 0 := by
  refine ⟨rfl, rfl, rfl, by decide, ?_⟩
  obtain ⟨r, s, b0, b1, b2, hrun, -, h1, -, -, h2, -, -, h3, -, -⟩ :=
    disable_triggers_writes_before_polls scripted_polls ex_trigger_regs
      (ex_triggers_armed [1, 1, 1]) ex_pma_on ex_rtr_on ex_pma_perfmux_on rfl rfl rfl
      (by decide) (by decide) (by decide)
  refine ⟨r, s, hrun, ?_, h2, h3⟩
  rw [h1]
  decide

/-! ## C14: `init_prod_values` -/

theorem init_prod_values_eq {W : Type} (hw : ProdRegs) (hwpm : tegra_soc_hwpm W)
    (pma : hwpm_ip) (p : hwpm_ip_perfmux)
    (hpma : pma_ip hwpm = some pma) (hp0 : perfmux_slot0 pma = some p)
    (hd : hw.pmasys_controlb_r ≠ hw.pmasys_channel_config_user_r 0) :
    ∃ s, t234_hwpm_init_prod_values hw hwpm = some (0, s) ∧
      s.active_chip = hwpm.active_chip ∧ s.world = hwpm.world ∧
      s.fake_registers_enabled = hwpm.fake_registers_enabled ∧
      ∀ pa a, s.regs pa a =
        if pa = p.start_abs_pa ∧ a = hw.pmasys_channel_config_user_r 0 then
          set_field (tegra_hwpm_readl hwpm (some p) (hw.pmasys_channel_config_user_r 0))
            hw.pmasys_channel_config_user_coalesce_timeout_cycles_m
            hw.pmasys_channel_config_user_coalesce_timeout_cycles__prod_f % 2 ^ 32
        else if pa = p.start_abs_pa ∧ a = hw.pmasys_controlb_r then
          set_field (tegra_hwpm_readl hwpm (some p) hw.pmasys_controlb_r)
            hw.pmasys_controlb_coalesce_timeout_cycles_m
            hw.pmasys_controlb_coalesce_timeout_cycles__prod_f % 2 ^ 32
        else hwpm.regs pa a := by
  obtain ⟨c, hc, hp⟩ := pma_ip_eq_some hpma
  have hrun : t234_hwpm_init_prod_values hw hwpm
      = some (0, init_prod_values_writes hw hwpm (some p)) := by
    simp only [t234_hwpm_init_prod_values, hc, hp, hp0]
  refine ⟨_, hrun, rfl, rfl, rfl, ?_⟩
  intro pa a
  have hd2 : ¬ hw.pmasys_channel_config_user_r 0 = hw.pmasys_controlb_r := fun h => hd h.symm
  simp [init_prod_values_writes, tegra_hwpm_writel, tegra_hwpm_readl, hd2]

/-- C14. In every state in which PMA's perfmux slot 0 exists, whether or not
`PMA.reserved` is set (the two registers being distinct, the production
encodings lying inside their field masks), `init_prod_values` returns 0 and
afterwards the control-B register and the channel-0 config register each hold
their previous value with only the coalesce-timeout-cycles field replaced by
its production encoding; every other register, the blocks and the
collaborators' state are unchanged. -/
theorem init_prod_values_sets_fields {W : Type} (hw : ProdRegs) (hwpm : tegra_soc_hwpm W)
    (pma : hwpm_ip) (p : hwpm_ip_perfmux)
    (hpma : pma_ip hwpm = some pma) (hp0 : perfmux_slot0 pma = some p)
    (hd : hw.pmasys_controlb_r ≠ hw.pmasys_channel_config_user_r 0)
    (hf1 : hw.pmasys_controlb_coalesce_timeout_cycles__prod_f
        &&& hw.pmasys_controlb_coalesce_timeout_cycles_m
      = hw.pmasys_controlb_coalesce_timeout_cycles__prod_f)
    (hf1b : hw.pmasys_controlb_coalesce_timeout_cycles__prod_f < 2 ^ 32)
    (hf2 : hw.pmasys_channel_config_user_coalesce_timeout_cycles__prod_f
        &&& hw.pmasys_channel_config_user_coalesce_timeout_cycles_m
      = hw.pmasys_channel_config_user_coalesce_timeout_cycles__prod_f)
    (hf2b : hw.pmasys_channel_config_user_coalesce_timeout_cycles__prod_f < 2 ^ 32) :
    ∃ s, t234_hwpm_init_prod_values hw hwpm = some (0, s) ∧
      tegra_hwpm_readl s (some p) hw.pmasys_controlb_r
        = set_field (tegra_hwpm_readl hwpm (some p) hw.pmasys_controlb_r)
            hw.pmasys_controlb_coalesce_timeout_cycles_m
            hw.pmasys_controlb_coalesce_timeout_cycles__prod_f % 2 ^ 32 ∧
      tegra_hwpm_readl s (some p) hw.pmasys_controlb_r
          &&& hw.pmasys_controlb_coalesce_timeout_cycles_m
        = hw.pmasys_controlb_coalesce_timeout_cycles__prod_f ∧
      tegra_hwpm_readl s (some p) hw.pmasys_controlb_r
          &&& u32_not hw.pmasys_controlb_coalesce_timeout_cycles_m
        = tegra_hwpm_readl hwpm (some p) hw.pmasys_controlb_r
          &&& u32_not hw.pmasys_controlb_coalesce_timeout_cycles_m ∧
      tegra_hwpm_readl s (some p) (hw.pmasys_channel_config_user_r 0)
        = set_field (tegra_hwpm_readl hwpm (some p) (hw.pmasys_channel_config_user_r 0))
            hw.pmasys_channel_config_user_coalesce_timeout_cycles_m
            hw.pmasys_channel_config_user_coalesce_timeout_cycles__prod_f % 2 ^ 32 ∧
      tegra_hwpm_readl s (some p) (hw.pmasys_channel_config_user_r 0)
          &&& hw.pmasys_channel_config_user_coalesce_timeout_cycles_m
        = hw.pmasys_channel_config_user_coalesce_timeout_cycles__prod_f ∧
      tegra_hwpm_readl s (some p) (hw.pmasys_channel_config_user_r 0)
          &&& u32_not hw.pmasys_channel_config_user_coalesce_timeout_cycles_m
        = tegra_hwpm_readl hwpm (some p) (hw.pmasys_channel_config_user_r 0)
          &&& u32_not hw.pmasys_channel_config_user_coalesce_timeout_cycles_m ∧
      (∀ pa a, ¬ (pa = p.start_abs_pa ∧
          (a = hw.pmasys_controlb_r ∨ a = hw.pmasys_channel_config_user_r 0)) →
        s.regs pa a = hwpm.regs pa a) ∧
      s.active_chip = hwpm.active_chip ∧ s.world = hwpm.world ∧
      s.fake_registers_enabled = hwpm.fake_registers_enabled := by
  obtain ⟨s, hrun, hchip, hworld, hfake, hregs⟩ := init_prod_values_eq hw hwpm pma p hpma hp0 hd
  have hb : s.regs p.start_abs_pa hw.pmasys_controlb_r
      = set_field (tegra_hwpm_readl hwpm (some p) hw.pmasys_controlb_r)
          hw.pmasys_controlb_coalesce_timeout_cycles_m
          hw.pmasys_controlb_coalesce_timeout_cycles__prod_f % 2 ^ 32 := by
    rw [hregs]; simp [hd]
  have hch : s.regs p.start_abs_pa (hw.pmasys_channel_config_user_r 0)
      = set_field (tegra_hwpm_readl hwpm (some p) (hw.pmasys_channel_config_user_r 0))
          hw.pmasys_channel_config_user_coalesce_timeout_cycles_m
          hw.pmasys_channel_config_user_coalesce_timeout_cycles__prod_f % 2 ^ 32 := by
    rw [hregs]; simp
  refine ⟨s, hrun, ?_, ?_, ?_, ?_, ?_, ?_, ?_, hchip, hworld, hfake⟩
  · simp only [tegra_hwpm_readl, hb, Nat.mod_mod]
  · simp only [tegra_hwpm_readl, hb, Nat.mod_mod]
    rw [set_field_field, hf1, Nat.mod_eq_of_lt hf1b]
  · simp only [tegra_hwpm_readl, hb, Nat.mod_mod]
    exact set_field_outside _ _ _ hf1
  · simp only [tegra_hwpm_readl, hch, Nat.mod_mod]
  · simp only [tegra_hwpm_readl, hch, Nat.mod_mod]
    rw [set_field_field, hf2, Nat.mod_eq_of_lt hf2b]
  · simp only [tegra_hwpm_readl, hch, Nat.mod_mod]
    exact set_field_outside _ _ _ hf2
  · intro pa a hna
    rw [hregs]
    by_cases h1 : pa = p.start_abs_pa
    · subst h1
      simp only [true_and, not_or] at hna
      simp [hna.1, hna.2]
    · simp [h1]

/-- C14, witness: `init_prod_values` on a state with PMA's slot 0 present. The
control-B register goes from 0x13 to 0x43 and the channel-0 config register
from 0x1a to 0x1c. -/
theorem init_prod_values_sets_fields_witness :
    pma_ip (ex_triggers_armed []) = some ex_pma_on ∧
    perfmux_slot0 ex_pma_on = some ex_pma_perfmux_on ∧
    tegra_hwpm_readl (ex_triggers_armed []) (some ex_pma_perfmux_on)
      ex_prod_regs.pmasys_controlb_r = 0x13 ∧
    tegra_hwpm_readl (ex_triggers_armed []) (some ex_pma_perfmux_on)
      (ex_prod_regs.pmasys_channel_config_user_r 0) = 0x1a ∧
    ∃ s, t234_hwpm_init_prod_values ex_prod_regs (ex_triggers_armed []) = some (0, s) ∧
      tegra_hwpm_readl s (some ex_pma_perfmux_on) ex_prod_regs.pmasys_controlb_r = 0x43 ∧
      tegra_hwpm_readl s (some ex_pma_perfmux_on)
        (ex_prod_regs.pmasys_channel_config_user_r 0) = 0x1c := by
  refine ⟨rfl, rfl, by decide, by decide, ?_⟩
  obtain ⟨s, hrun, h1, -, -, h2, -, -, -, -, -, -⟩ :=
    init_prod_values_sets_fields ex_prod_regs (ex_triggers_armed []) ex_pma_on
      ex_pma_perfmux_on rfl rfl (by decide) (by decide) (by decide) (by decide) (by decide)
  refine ⟨s, hrun, ?_, ?_⟩
  · rw [h1]; decide
  · rw [h2]; decide

/-! ## Exact logs and masks of the aborting loops -/

theorem for_each_slot_stop {W : Type}
    {body : Nat → hwpm_ip_perfmux → LoopSt W → Bool × hwpm_ip_perfmux × LoopSt W}
    {calls : hwpm_ip_perfmux → Bool} {op : SubOp} {ip : IpId} {kind : SlotKind}
    {f : Nat → Nat → Nat}
    (hb : BodySpec body calls op ip kind true) (hm : MaskSpec body f) :
    ∀ (slots : List (Option hwpm_ip_perfmux)) (idx : Nat) (st : LoopSt W)
      (out : Bool × List (Option hwpm_ip_perfmux) × LoopSt W),
      for_each_slot body idx slots st = out →
      (out.1 = false →
        out.2.2.trace = st.trace ++ expected_calls calls op ip kind idx slots ∧
        out.2.2.fs_mask = fold_masks f st.fs_mask slots ∧
        ∀ (i : Nat) (q : hwpm_ip_perfmux), slots[i]? = some (some q) →
          ∃ sti, out.2.1[i]? = some (some (body (idx + i) q sti).2.1) ∧
            (body (idx + i) q sti).1 = false) ∧
      (out.1 = true →
        ∃ (k : Nat) (p : hwpm_ip_perfmux), slots[k]? = some (some p) ∧ calls p = true ∧
          out.2.2.ret ≠ 0 ∧
          out.2.2.trace = st.trace ++ (expected_calls calls op ip kind idx (slots.take k) ++
            [Event.call op ip kind (idx + k) out.2.2.ret]) ∧
          out.2.2.fs_mask = fold_masks f st.fs_mask (slots.take k) ∧
          out.2.1.drop (k + 1) = slots.drop (k + 1) ∧
          ∀ (i : Nat) (q : hwpm_ip_perfmux), i < k → slots[i]? = some (some q) →
            ∃ sti, out.2.1[i]? = some (some (body (idx + i) q sti).2.1) ∧
              (body (idx + i) q sti).1 = false) := by
  intro slots
  induction slots with
  | nil =>
    intro idx st out ho
    subst ho
    refine ⟨fun _ => ⟨by simp [for_each_slot, expected_calls], by simp [for_each_slot, fold_masks],
      fun i q h => by simp at h⟩, fun h => by simp [for_each_slot] at h⟩
  | cons a rest ih =>
    intro idx st out ho
    cases a with
    | none =>
      obtain ⟨h1, h2⟩ := ih (idx + 1) st _ rfl
      subst ho
      simp only [for_each_slot]
      constructor
      · intro hf
        obtain ⟨g1, g2, g3⟩ := h1 hf
        refine ⟨by simpa [expected_calls] using g1, by simpa [fold_masks] using g2, ?_⟩
        intro i q hq
        cases i with
        | zero => simp at hq
        | succ i =>
          obtain ⟨sti, e1, e2⟩ := g3 i q (by simpa using hq)
          have e : idx + 1 + i = idx + (i + 1) := by omega
          rw [e] at e1 e2
          exact ⟨sti, by simpa using e1, e2⟩
      · intro hf
        obtain ⟨k, p, g1, g2, g3, g4, g5, g6, g7⟩ := h2 hf
        refine ⟨k + 1, p, by simpa using g1, g2, g3, ?_, ?_, ?_, ?_⟩
        · have e : idx + 1 + k = idx + (k + 1) := by omega
          rw [e] at g4
          simpa [expected_calls] using g4
        · simpa [fold_masks] using g5
        · simpa using g6
        · intro i q hi hq
          cases i with
          | zero => simp at hq
          | succ i =>
            obtain ⟨sti, e1, e2⟩ := g7 i q (by omega) (by simpa using hq)
            have e : idx + 1 + i = idx + (i + 1) := by omega
            rw [e] at e1 e2
            exact ⟨sti, by simpa using e1, e2⟩
    | some p =>
      obtain ⟨-, -, hno, hyes⟩ := hb idx p st
      obtain ⟨hm1, hm2⟩ := hm idx p st
      obtain ⟨h1, h2⟩ := ih (idx + 1) (body idx p st).2.2 _ rfl
      subst ho
      cases hflag : (body idx p st).1 with
      | true =>
        have hc : calls p = true := by
          cases hcp : calls p with
          | true => rfl
          | false => rw [(hno hcp).1] at hflag; simp at hflag
        obtain ⟨ret, htr, hfl, hret⟩ := hyes hc
        rw [hflag] at hfl
        have hr : ret ≠ 0 := by simpa using hfl.symm
        simp only [if_true] at hret
        simp only [for_each_slot, hflag, if_true]
        refine ⟨fun h => by simp at h, fun _ => ⟨0, p, by simp, hc, by rw [hret]; exact hr, ?_,
          ?_, by simp, fun i q hi => by omega⟩⟩
        · simp [expected_calls, htr, hret]
        · simp [fold_masks, hm2 hflag]
      | false =>
        have hfs := hm1 hflag
        have htr : (body idx p st).2.2.trace
            = st.trace ++ (if calls p then [Event.call op ip kind idx 0] else []) := by
          cases hcp : calls p with
          | false => simp [(hno hcp).2.1]
          | true =>
            obtain ⟨ret, htr, hfl, -⟩ := hyes hcp
            rw [hflag] at hfl
            have hr : ret = 0 := by simpa using hfl.symm
            simp [htr, hr]
        simp only [for_each_slot, hflag, Bool.false_eq_true, if_false]
        constructor
        · intro hf
          obtain ⟨g1, g2, g3⟩ := h1 hf
          refine ⟨by simp [expected_calls, g1, htr], by simp [fold_masks, g2, hfs], ?_⟩
          intro i q hq
          cases i with
          | zero =>
            simp at hq
            subst hq
            exact ⟨st, by simp, hflag⟩
          | succ i =>
            obtain ⟨sti, e1, e2⟩ := g3 i q (by simpa using hq)
            have e : idx + 1 + i = idx + (i + 1) := by omega
            rw [e] at e1 e2
            exact ⟨sti, by simpa using e1, e2⟩
        · intro hf
          obtain ⟨k, q, g1, g2, g3, g4, g5, g6, g7⟩ := h2 hf
          refine ⟨k + 1, q, by simpa using g1, g2, g3, ?_, ?_, ?_, ?_⟩
          · have e : idx + 1 + k = idx + (k + 1) := by omega
            rw [e] at g4
            simp [expected_calls, g4, htr]
          · simp [fold_masks, g5, hfs]
          · simpa using g6
          · intro i r hi hr
            cases i with
            | zero =>
              simp at hr
              subst hr
              exact ⟨st, by simp, hflag⟩
            | succ i =>
              obtain ⟨sti, e1, e2⟩ := g7 i r (by omega) (by simpa using hr)
              have e : idx + 1 + i = idx + (i + 1) := by omega
              rw [e] at e1 e2
              exact ⟨sti, by simpa using e1, e2⟩

theorem or_masks_eq_fold (l : List (Option hwpm_ip_perfmux)) :
    ∀ fs, fold_masks (fun a b => a ||| b) fs l = or_masks fs l := by
  induction l with
  | nil => intro fs; rfl
  | cons a rest ih =>
    intro fs
    cases a with
    | none => simpa [fold_masks, or_masks] using ih fs
    | some p => simpa [fold_masks, or_masks] using ih _

theorem and_not_masks_eq_fold (l : List (Option hwpm_ip_perfmux)) :
    ∀ fs, fold_masks (fun a b => a &&& u32_not b) fs l = and_not_masks fs l := by
  induction l with
  | nil => intro fs; rfl
  | cons a rest ih =>
    intro fs
    cases a with
    | none => simpa [fold_masks, and_not_masks] using ih fs
    | some p => simpa [fold_masks, and_not_masks] using ih _

theorem fold_masks_const (l : List (Option hwpm_ip_perfmux)) :
    ∀ fs, fold_masks (fun a _ => a) fs l = fs := by
  induction l with
  | nil => intro fs; rfl
  | cons a rest ih =>
    intro fs
    cases a with
    | none => simpa [fold_masks] using ih fs
    | some p => simpa [fold_masks] using ih fs

theorem expected_calls_mem {calls : hwpm_ip_perfmux → Bool} {op : SubOp} {ip : IpId}
    {kind : SlotKind} :
    ∀ (slots : List (Option hwpm_ip_perfmux)) (idx : Nat) (ev : Event),
      ev ∈ expected_calls calls op ip kind idx slots →
      ∃ (i : Nat) (p : hwpm_ip_perfmux), slots[i]? = some (some p) ∧ calls p = true ∧
        ev = Event.call op ip kind (idx + i) 0 := by
  intro slots
  induction slots with
  | nil => intro idx ev h; simp [expected_calls] at h
  | cons a rest ih =>
    intro idx ev h
    cases a with
    | none =>
      simp only [expected_calls] at h
      obtain ⟨i, p, h1, h2, h3⟩ := ih (idx + 1) ev h
      exact ⟨i + 1, p, by simpa using h1, h2, by rw [h3]; congr 1; omega⟩
    | some q =>
      simp only [expected_calls, List.mem_append] at h
      rcases h with h | h
      · cases hc : calls q with
        | false => simp [hc] at h
        | true =>
          simp [hc] at h
          exact ⟨0, q, by simp, hc, by simpa using h⟩
      · obtain ⟨i, p, h1, h2, h3⟩ := ih (idx + 1) ev h
        exact ⟨i + 1, p, by simpa using h1, h2, by rw [h3]; congr 1; omega⟩

theorem mem_expected_calls {calls : hwpm_ip_perfmux → Bool} {op : SubOp} {ip : IpId}
    {kind : SlotKind} :
    ∀ (slots : List (Option hwpm_ip_perfmux)) (idx : Nat) (i : Nat) (p : hwpm_ip_perfmux),
      slots[i]? = some (some p) → calls p = true →
      Event.call op ip kind (idx + i) 0 ∈ expected_calls calls op ip kind idx slots := by
  intro slots
  induction slots with
  | nil => intro idx i p h; simp at h
  | cons a rest ih =>
    intro idx i p h hc
    cases i with
    | zero =>
      simp at h
      subst h
      simp [expected_calls, hc]
    | succ i =>
      have h2 : rest[i]? = some (some p) := by simpa using h
      have := ih (idx + 1) i p h2 hc
      have e : idx + 1 + i = idx + (i + 1) := by omega
      rw [e] at this
      cases a with
      | none => simpa [expected_calls] using this
      | some q =>
        simp only [expected_calls, List.mem_append]
        exact Or.inr this

/-! ## What the aborting bodies do to `fs_mask` -/

theorem reserve_pma_perfmux_body_mask {W : Type} (ops : SubOps W) :
    MaskSpec (reserve_pma_perfmux_body ops) (fun a b => a ||| b) := by
  intro idx p st
  constructor <;> intro h <;> simp only [reserve_pma_perfmux_body] at h ⊢ <;>
    split <;> simp_all [apply_result]

theorem reserve_pma_perfmon_body_mask {W : Type} (ops : SubOps W) :
    MaskSpec (reserve_pma_perfmon_body ops) (fun a _ => a) := by
  intro idx p st
  constructor <;> intro h <;> simp only [reserve_pma_perfmon_body] at h ⊢ <;>
    split <;> simp_all

theorem release_pma_perfmux_body_mask {W : Type} (ops : SubOps W) :
    MaskSpec (release_pma_perfmux_body ops) (fun a b => a &&& u32_not b) := by
  intro idx p st
  constructor <;> intro h <;> simp only [release_pma_perfmux_body] at h ⊢ <;>
    split <;> simp_all [apply_result]

theorem release_pma_perfmon_body_mask {W : Type} (ops : SubOps W) :
    MaskSpec (release_pma_perfmon_body ops) (fun a _ => a) := by
  intro idx p st
  constructor <;> intro h <;> simp only [release_pma_perfmon_body] at h ⊢ <;>
    split <;> simp_all

theorem reserve_rtr_body_mask {W : Type} (ops : SubOps W) (fake : Bool)
    (pma_perfmux : hwpm_ip_perfmux) :
    MaskSpec (reserve_rtr_body ops fake pma_perfmux) (fun a b => a ||| b) := by
  intro idx p st
  by_cases ha : p.start_abs_pa = pma_perfmux.start_abs_pa
  · constructor <;> intro h <;> simp [reserve_rtr_body, ha] at h ⊢
  · constructor <;> intro h <;> simp only [reserve_rtr_body, if_neg ha] at h ⊢ <;>
      split <;> simp_all [apply_result]

theorem release_rtr_body_mask {W : Type} (ops : SubOps W) (fake : Bool)
    (pma_perfmux : hwpm_ip_perfmux) :
    MaskSpec (release_rtr_body ops fake pma_perfmux) (fun a b => a &&& u32_not b) := by
  intro idx p st
  by_cases ha : p.start_abs_pa = pma_perfmux.start_abs_pa
  · constructor <;> intro h <;> simp [release_rtr_body, ha] at h ⊢
  · constructor <;> intro h <;> simp only [release_rtr_body, if_neg ha] at h ⊢ <;>
      split <;> simp_all [apply_result]

/-! ## The outcomes of the reservation entry points, with their exact logs -/

theorem trace_ext {t1 t2 x : List Event} (h : t2 = t1 ++ x) :
    t2 = t1 ++ new_events t1 t2 := by
  subst h
  rw [new_events_append]

theorem reserve_pma_cases {W : Type} (ops : SubOps W) (hwpm : tegra_soc_hwpm W)
    (pma : hwpm_ip) (hpma : pma_ip hwpm = some pma) (hres : pma.reserved = false) :
    ∃ r s pma2, t234_hwpm_reserve_pma ops hwpm = some (r, s) ∧
      s.trace = hwpm.trace ++ new_events hwpm.trace s.trace ∧
      pma_ip s = some pma2 ∧ rtr_ip s = rtr_ip hwpm ∧
      pma2.ip_perfmux.map slot_key = pma.ip_perfmux.map slot_key ∧
      pma2.ip_perfmon.map slot_key = pma.ip_perfmon.map slot_key ∧
      ((∃ (k : Nat) (p : hwpm_ip_perfmux), pma.ip_perfmux[k]? = some (some p) ∧ r ≠ 0 ∧
          new_events hwpm.trace s.trace =
            expected_calls (fun _ => true) SubOp.reserve IpId.pma SlotKind.perfmux 0
              (pma.ip_perfmux.take k) ++
            [Event.call SubOp.reserve IpId.pma SlotKind.perfmux k r] ∧
          pma2.reserved = false ∧
          pma2.fs_mask = or_masks pma.fs_mask (pma.ip_perfmux.take k)) ∨
       (∃ (k : Nat) (p : hwpm_ip_perfmux) (evs3 : List Event),
          pma.ip_perfmon[k]? = some (some p) ∧ r ≠ 0 ∧
          new_events hwpm.trace s.trace =
            expected_calls (fun _ => true) SubOp.reserve IpId.pma SlotKind.perfmux 0
              pma.ip_perfmux ++
            (expected_calls (fun _ => true) SubOp.reserve IpId.pma SlotKind.perfmon 0
              (pma.ip_perfmon.take k) ++
            [Event.call SubOp.reserve IpId.pma SlotKind.perfmon k r]) ++ evs3 ∧
          (∀ ev ∈ evs3, ∃ (j : Nat) (q : hwpm_ip_perfmux) (ret : Int),
            pma.ip_perfmux[j]? = some (some q) ∧
            ev = Event.call SubOp.release IpId.pma SlotKind.perfmux j ret) ∧
          (∀ (j : Nat) (q : hwpm_ip_perfmux), pma.ip_perfmux[j]? = some (some q) →
            calls_on SubOp.release IpId.pma SlotKind.perfmux j evs3 = 1) ∧
          pma2.reserved = false) ∨
       (r = 0 ∧
          new_events hwpm.trace s.trace =
            expected_calls (fun _ => true) SubOp.reserve IpId.pma SlotKind.perfmux 0
              pma.ip_perfmux ++
            expected_calls (fun _ => true) SubOp.reserve IpId.pma SlotKind.perfmon 0
              pma.ip_perfmon ∧
          pma2.reserved = true ∧
          pma2.fs_mask = or_masks pma.fs_mask pma.ip_perfmux)) := by
  obtain ⟨c, hc, hp⟩ := pma_ip_eq_some hpma
  have hrt : rtr_ip hwpm = c.ip_rtr := by simp [rtr_ip, hc]
  obtain ⟨-, -, -, -, -, -, hk1⟩ :=
    for_each_slot_runs (reserve_pma_perfmux_body_spec ops) pma.ip_perfmux 0
      ⟨0, pma.fs_mask, hwpm.world, hwpm.trace⟩
  obtain ⟨hs1f, hs1t⟩ := for_each_slot_stop (reserve_pma_perfmux_body_spec ops)
    (reserve_pma_perfmux_body_mask ops) pma.ip_perfmux 0
    ⟨0, pma.fs_mask, hwpm.world, hwpm.trace⟩ _ rfl
  generalize hl1 : for_each_slot (reserve_pma_perfmux_body ops) 0 pma.ip_perfmux
      ⟨0, pma.fs_mask, hwpm.world, hwpm.trace⟩ = l1 at hk1 hs1f hs1t
  obtain ⟨-, -, -, -, -, -, hk2⟩ :=
    for_each_slot_runs (reserve_pma_perfmon_body_spec ops) pma.ip_perfmon 0 l1.2.2
  obtain ⟨hs2f, hs2t⟩ := for_each_slot_stop (reserve_pma_perfmon_body_spec ops)
    (reserve_pma_perfmon_body_mask ops) pma.ip_perfmon 0 l1.2.2 _ rfl
  generalize hl2 : for_each_slot (reserve_pma_perfmon_body ops) 0 pma.ip_perfmon l1.2.2 = l2
    at hk2 hs2f hs2t
  obtain ⟨evs3, ht3, hr3, -, hret3, -, hk3⟩ :=
    for_each_slot_runs (reserve_pma_fail_body_spec ops) l1.2.1 0 l2.2.2
  generalize hl3 : for_each_slot (reserve_pma_fail_body ops) 0 l1.2.1 l2.2.2 = l3
    at ht3 hr3 hret3 hk3
  simp only at hs1f hs1t
  cases h1 : l1.1 with
  | true =>
    obtain ⟨k, p, g1, -, g3, g4, g5, -, -⟩ := hs1t h1
    refine ⟨l1.2.2.ret,
      store_pma hwpm c { pma with ip_perfmux := l1.2.1, fs_mask := l1.2.2.fs_mask } l1.2.2,
      { pma with ip_perfmux := l1.2.1, fs_mask := l1.2.2.fs_mask },
      by simp [t234_hwpm_reserve_pma, hc, hp, hres, hl1, h1], trace_ext g4, rfl, by simp [hrt],
      hk1, rfl,
      Or.inl ⟨k, p, g1, g3, ?_, hres, ?_⟩⟩
    · simp [store_pma, g4, new_events_append]
    · simp only [g5]
      exact or_masks_eq_fold _ _
  | false =>
    obtain ⟨f1, f2, -⟩ := hs1f h1
    cases h2 : l2.1 with
    | true =>
      obtain ⟨k, p, g1, -, g3, g4, -, -, -⟩ := hs2t h2
      have hflag3 : l3.1 = false := loopRuns_flag_of_no_abort hr3
      refine ⟨l3.2.2.ret,
        store_pma hwpm c { pma with ip_perfmux := l3.2.1, ip_perfmon := l2.2.1,
                                    fs_mask := l3.2.2.fs_mask } l3.2.2,
        { pma with ip_perfmux := l3.2.1, ip_perfmon := l2.2.1, fs_mask := l3.2.2.fs_mask },
        by simp [t234_hwpm_reserve_pma, hc, hp, hres, hl1, h1, hl2, h2, hl3],
        trace_ext (show l3.2.2.trace = hwpm.trace ++ _ by
          rw [ht3, g4, f1, List.append_assoc, List.append_assoc]), rfl,
        by simp [hrt], by simp only [hk3, hk1], hk2,
        Or.inr (Or.inl ⟨k, p, evs3, g1, by rw [hret3 rfl]; exact g3, ?_, ?_, ?_, hres⟩)⟩
      · simp only [store_pma, ht3, g4, f1, hret3 rfl]
        simp [List.append_assoc, new_events_append]
      · intro ev hev
        obtain ⟨j, q, ret, hq, -, rfl⟩ := loopRuns_events hr3 ev hev
        obtain ⟨q2, hq2, -, -⟩ := slot_key_present hk1.symm j q hq
        exact ⟨j, q2, ret, hq2, by simp⟩
      · intro j q hq
        obtain ⟨q2, hq2, -, -⟩ := slot_key_present hk1 j q hq
        have := calls_on_called hr3 hflag3 j q2 hq2 rfl
        simpa using this
    | false =>
      obtain ⟨e1, e2, -⟩ := hs2f h2
      refine ⟨0,
        store_pma hwpm c { pma with ip_perfmux := l1.2.1, ip_perfmon := l2.2.1,
                                    fs_mask := l2.2.2.fs_mask, reserved := true } l2.2.2,
        { pma with ip_perfmux := l1.2.1, ip_perfmon := l2.2.1,
                   fs_mask := l2.2.2.fs_mask, reserved := true },
        by simp [t234_hwpm_reserve_pma, hc, hp, hres, hl1, h1, hl2, h2],
        trace_ext (show l2.2.2.trace = hwpm.trace ++ _ by rw [e1, f1, List.append_assoc]), rfl,
        by simp [hrt], hk1, hk2, Or.inr (Or.inr ⟨rfl, ?_, rfl, ?_⟩)⟩
      · simp only [store_pma, e1, f1]
        simp [List.append_assoc, new_events_append]
      · simp only [e2, fold_masks_const, f2]
        exact or_masks_eq_fold _ _

theorem release_pma_cases {W : Type} (ops : SubOps W) (hwpm : tegra_soc_hwpm W)
    (pma : hwpm_ip) (hpma : pma_ip hwpm = some pma) (hres : pma.reserved = true) :
    ∃ r s pma2, t234_hwpm_release_pma ops hwpm = some (r, s) ∧
      s.trace = hwpm.trace ++ new_events hwpm.trace s.trace ∧
      pma_ip s = some pma2 ∧ rtr_ip s = rtr_ip hwpm ∧
      pma2.ip_perfmux.map slot_key = pma.ip_perfmux.map slot_key ∧
      pma2.ip_perfmon.map slot_key = pma.ip_perfmon.map slot_key ∧
      ((∃ (k : Nat) (p : hwpm_ip_perfmux), pma.ip_perfmux[k]? = some (some p) ∧ r ≠ 0 ∧
          new_events hwpm.trace s.trace =
            expected_calls (fun _ => true) SubOp.release IpId.pma SlotKind.perfmux 0
              (pma.ip_perfmux.take k) ++
            [Event.call SubOp.release IpId.pma SlotKind.perfmux k r] ∧
          pma2.reserved = true ∧
          pma2.fs_mask = and_not_masks pma.fs_mask (pma.ip_perfmux.take k)) ∨
       (∃ (k : Nat) (p : hwpm_ip_perfmux), pma.ip_perfmon[k]? = some (some p) ∧ r ≠ 0 ∧
          new_events hwpm.trace s.trace =
            expected_calls (fun _ => true) SubOp.release IpId.pma SlotKind.perfmux 0
              pma.ip_perfmux ++
            (expected_calls (fun _ => true) SubOp.release IpId.pma SlotKind.perfmon 0
              (pma.ip_perfmon.take k) ++
            [Event.call SubOp.release IpId.pma SlotKind.perfmon k r]) ∧
          pma2.reserved = true ∧
          pma2.fs_mask = and_not_masks pma.fs_mask pma.ip_perfmux) ∨
       (r = 0 ∧
          new_events hwpm.trace s.trace =
            expected_calls (fun _ => true) SubOp.release IpId.pma SlotKind.perfmux 0
              pma.ip_perfmux ++
            expected_calls (fun _ => true) SubOp.release IpId.pma SlotKind.perfmon 0
              pma.ip_perfmon ∧
          pma2.reserved = false ∧
          pma2.fs_mask = and_not_masks pma.fs_mask pma.ip_perfmux)) := by
  obtain ⟨c, hc, hp⟩ := pma_ip_eq_some hpma
  have hrt : rtr_ip hwpm = c.ip_rtr := by simp [rtr_ip, hc]
  obtain ⟨-, -, -, -, -, -, hk1⟩ :=
    for_each_slot_runs (release_pma_perfmux_body_spec ops) pma.ip_perfmux 0
      ⟨0, pma.fs_mask, hwpm.world, hwpm.trace⟩
  obtain ⟨hs1f, hs1t⟩ := for_each_slot_stop (release_pma_perfmux_body_spec ops)
    (release_pma_perfmux_body_mask ops) pma.ip_perfmux 0
    ⟨0, pma.fs_mask, hwpm.world, hwpm.trace⟩ _ rfl
  generalize hl1 : for_each_slot (release_pma_perfmux_body ops) 0 pma.ip_perfmux
      ⟨0, pma.fs_mask, hwpm.world, hwpm.trace⟩ = l1 at hk1 hs1f hs1t
  obtain ⟨-, -, -, -, -, -, hk2⟩ :=
    for_each_slot_runs (release_pma_perfmon_body_spec ops) pma.ip_perfmon 0 l1.2.2
  obtain ⟨hs2f, hs2t⟩ := for_each_slot_stop (release_pma_perfmon_body_spec ops)
    (release_pma_perfmon_body_mask ops) pma.ip_perfmon 0 l1.2.2 _ rfl
  generalize hl2 : for_each_slot (release_pma_perfmon_body ops) 0 pma.ip_perfmon l1.2.2 = l2
    at hk2 hs2f hs2t
  simp only at hs1f hs1t
  cases h1 : l1.1 with
  | true =>
    obtain ⟨k, p, g1, -, g3, g4, g5, -, -⟩ := hs1t h1
    refine ⟨l1.2.2.ret,
      store_pma hwpm c { pma with ip_perfmux := l1.2.1, fs_mask := l1.2.2.fs_mask } l1.2.2,
      { pma with ip_perfmux := l1.2.1, fs_mask := l1.2.2.fs_mask },
      by simp [t234_hwpm_release_pma, hc, hp, hres, hl1, h1], trace_ext g4, rfl, by simp [hrt],
      hk1, rfl,
      Or.inl ⟨k, p, g1, g3, ?_, hres, ?_⟩⟩
    · simp [store_pma, g4, new_events_append]
    · simp only [g5]
      exact and_not_masks_eq_fold _ _
  | false =>
    obtain ⟨f1, f2, -⟩ := hs1f h1
    cases h2 : l2.1 with
    | true =>
      obtain ⟨k, p, g1, -, g3, g4, g5, -, -⟩ := hs2t h2
      refine ⟨l2.2.2.ret,
        store_pma hwpm c { pma with ip_perfmux := l1.2.1, ip_perfmon := l2.2.1,
                                    fs_mask := l2.2.2.fs_mask } l2.2.2,
        { pma with ip_perfmux := l1.2.1, ip_perfmon := l2.2.1, fs_mask := l2.2.2.fs_mask },
        by simp [t234_hwpm_release_pma, hc, hp, hres, hl1, h1, hl2, h2],
        trace_ext (show l2.2.2.trace = hwpm.trace ++ _ by rw [g4, f1, List.append_assoc]), rfl,
        by simp [hrt], hk1, hk2, Or.inr (Or.inl ⟨k, p, g1, g3, ?_, hres, ?_⟩)⟩
      · simp only [store_pma, g4, f1]
        simp [List.append_assoc, new_events_append]
      · simp only [g5, fold_masks_const, f2]
        exact and_not_masks_eq_fold _ _
    | false =>
      obtain ⟨e1, e2, -⟩ := hs2f h2
      refine ⟨0,
        store_pma hwpm c { pma with ip_perfmux := l1.2.1, ip_perfmon := l2.2.1,
                                    fs_mask := l2.2.2.fs_mask, reserved := false } l2.2.2,
        { pma with ip_perfmux := l1.2.1, ip_perfmon := l2.2.1,
                   fs_mask := l2.2.2.fs_mask, reserved := false },
        by simp [t234_hwpm_release_pma, hc, hp, hres, hl1, h1, hl2, h2],
        trace_ext (show l2.2.2.trace = hwpm.trace ++ _ by rw [e1, f1, List.append_assoc]), rfl,
        by simp [hrt], hk1, hk2, Or.inr (Or.inr ⟨rfl, ?_, rfl, ?_⟩)⟩
      · simp only [store_pma, e1, f1]
        simp [List.append_assoc, new_events_append]
      · simp only [e2, fold_masks_const, f2]
        exact and_not_masks_eq_fold _ _

theorem reserve_rtr_slot_given {W : Type} (ops : SubOps W) (fake : Bool)
    (p q : hwpm_ip_perfmux) (idx : Nat) (st : LoopSt W)
    (h : (reserve_rtr_body ops fake p idx q st).1 = false) :
    (q.start_abs_pa = p.start_abs_pa →
      (reserve_rtr_body ops fake p idx q st).2.1 = shares fake p q) ∧
    (q.start_abs_pa ≠ p.start_abs_pa →
      (reserve_rtr_body ops fake p idx q st).2.1
        = apply_result q (ops.perfmon_reserve st.world q).1 ∧
      (ops.perfmon_reserve st.world q).1.ret = 0) := by
  constructor
  · intro ha
    simp [reserve_rtr_body, ha, shares]
  · intro hna
    simp only [reserve_rtr_body, if_neg hna] at h ⊢
    by_cases hr : (ops.perfmon_reserve st.world q).1.ret = 0
    · simp [hr]
    · simp [hr] at h

theorem reserve_rtr_cases {W : Type} (ops : SubOps W) (hwpm : tegra_soc_hwpm W)
    (pma rtr : hwpm_ip) (p : hwpm_ip_perfmux)
    (hpma : pma_ip hwpm = some pma) (hrtr : rtr_ip hwpm = some rtr)
    (hpr : pma.reserved = true) (hrr : rtr.reserved = false)
    (hp0 : perfmux_slot0 pma = some p) :
    ∃ r s rtr2, t234_hwpm_reserve_rtr ops hwpm = some (r, s) ∧
      s.trace = hwpm.trace ++ new_events hwpm.trace s.trace ∧
      rtr_ip s = some rtr2 ∧ pma_ip s = some pma ∧
      rtr2.ip_perfmux.map slot_key = rtr.ip_perfmux.map slot_key ∧
      rtr2.ip_perfmon = rtr.ip_perfmon ∧
      ((∃ (k : Nat) (q : hwpm_ip_perfmux), rtr.ip_perfmux[k]? = some (some q) ∧
          aliases p q = false ∧ r ≠ 0 ∧
          new_events hwpm.trace s.trace =
            expected_calls (fun x => !aliases p x) SubOp.reserve IpId.rtr SlotKind.perfmux 0
              (rtr.ip_perfmux.take k) ++
            [Event.call SubOp.reserve IpId.rtr SlotKind.perfmux k r] ∧
          rtr2.reserved = false ∧
          rtr2.fs_mask = or_masks rtr.fs_mask (rtr.ip_perfmux.take k) ∧
          rtr2.ip_perfmux.drop (k + 1) = rtr.ip_perfmux.drop (k + 1) ∧
          ∀ (i : Nat) (qi : hwpm_ip_perfmux), i < k → rtr.ip_perfmux[i]? = some (some qi) →
            (qi.start_abs_pa = p.start_abs_pa →
              rtr2.ip_perfmux[i]? = some (some (shares hwpm.fake_registers_enabled p qi))) ∧
            (qi.start_abs_pa ≠ p.start_abs_pa →
              ∃ w, rtr2.ip_perfmux[i]?
                  = some (some (apply_result qi (ops.perfmon_reserve w qi).1)) ∧
                (ops.perfmon_reserve w qi).1.ret = 0)) ∨
       (r = 0 ∧
          new_events hwpm.trace s.trace =
            expected_calls (fun x => !aliases p x) SubOp.reserve IpId.rtr SlotKind.perfmux 0
              rtr.ip_perfmux ∧
          rtr2.reserved = true ∧
          rtr2.fs_mask = or_masks rtr.fs_mask rtr.ip_perfmux)) := by
  obtain ⟨c, hc, hp⟩ := pma_ip_eq_some hpma
  obtain ⟨c2, hc2, hr⟩ := rtr_ip_eq_some hrtr
  rw [hc] at hc2
  cases hc2
  obtain ⟨-, -, -, -, -, hz, hk1⟩ :=
    for_each_slot_runs (reserve_rtr_body_spec ops hwpm.fake_registers_enabled p)
      rtr.ip_perfmux 0 ⟨0, rtr.fs_mask, hwpm.world, hwpm.trace⟩
  obtain ⟨hs1f, hs1t⟩ := for_each_slot_stop
    (reserve_rtr_body_spec ops hwpm.fake_registers_enabled p)
    (reserve_rtr_body_mask ops hwpm.fake_registers_enabled p) rtr.ip_perfmux 0
    ⟨0, rtr.fs_mask, hwpm.world, hwpm.trace⟩ _ rfl
  generalize hl1 : for_each_slot (reserve_rtr_body ops hwpm.fake_registers_enabled p) 0
      rtr.ip_perfmux ⟨0, rtr.fs_mask, hwpm.world, hwpm.trace⟩ = l1 at hz hk1 hs1f hs1t
  simp only at hs1f hs1t hz
  cases h1 : l1.1 with
  | true =>
    obtain ⟨k, q, g1, g2, g3, g4, g5, g6, g7⟩ := hs1t h1
    refine ⟨l1.2.2.ret,
      store_rtr hwpm c { rtr with ip_perfmux := l1.2.1, fs_mask := l1.2.2.fs_mask } l1.2.2,
      { rtr with ip_perfmux := l1.2.1, fs_mask := l1.2.2.fs_mask },
      by simp [t234_hwpm_reserve_rtr, hc, hp, hpr, hr, hrr, hp0, hl1, h1], trace_ext g4, rfl,
      by simp [hp], hk1, rfl, Or.inl ⟨k, q, g1, by simpa using g2, g3, ?_, hrr, ?_, g6, ?_⟩⟩
    · simp [store_rtr, g4, new_events_append]
    · simp only [g5]
      exact or_masks_eq_fold _ _
    · intro i qi hi hqi
      obtain ⟨sti, e1, e2⟩ := g7 i qi hi hqi
      obtain ⟨a1, a2⟩ := reserve_rtr_slot_given ops hwpm.fake_registers_enabled p qi _ sti e2
      refine ⟨fun ha => ?_, fun hna => ?_⟩
      · simp only [e1, a1 ha]
      · exact ⟨sti.world, by simp only [e1, (a2 hna).1], (a2 hna).2⟩
  | false =>
    obtain ⟨f1, f2, -⟩ := hs1f h1
    have hret : l1.2.2.ret = 0 := hz h1 trivial
    refine ⟨0,
      store_rtr hwpm c { rtr with ip_perfmux := l1.2.1, fs_mask := l1.2.2.fs_mask,
                                  reserved := true } l1.2.2,
      { rtr with ip_perfmux := l1.2.1, fs_mask := l1.2.2.fs_mask, reserved := true },
      by simp [t234_hwpm_reserve_rtr, hc, hp, hpr, hr, hrr, hp0, hl1, h1, hret], trace_ext f1,
      rfl, by simp [hp], hk1, rfl, Or.inr ⟨rfl, ?_, rfl, ?_⟩⟩
    · simp [store_rtr, f1, new_events_append]
    · simp only [f2]
      exact or_masks_eq_fold _ _

/-! ## Slot sub-states along a log -/

theorem expected_calls_event {calls : hwpm_ip_perfmux → Bool} {op : SubOp} {ip : IpId}
    {kind : SlotKind} {slots : List (Option hwpm_ip_perfmux)} {idx : Nat}
    {o : SubOp} {i : IpId} {kd : SlotKind} {j : Nat} {e : Int}
    (h : Event.call o i kd j e ∈ expected_calls calls op ip kind idx slots) :
    o = op ∧ i = ip ∧ kd = kind ∧ e = 0 ∧
      ∃ (n : Nat) (p : hwpm_ip_perfmux), slots[n]? = some (some p) ∧ calls p = true ∧
        j = idx + n := by
  obtain ⟨n, p, h1, h2, h3⟩ := expected_calls_mem slots idx _ h
  simp at h3
  obtain ⟨rfl, rfl, rfl, rfl, rfl⟩ := h3
  exact ⟨rfl, rfl, rfl, rfl, n, p, h1, h2, rfl⟩

theorem sub_state_append (ip : IpId) (kind : SlotKind) (idx : Nat) :
    ∀ (a b : List Event) (acc : Bool),
      sub_state ip kind idx acc (a ++ b)
        = sub_state ip kind idx (sub_state ip kind idx acc a) b := by
  intro a
  induction a with
  | nil => intro b acc; rfl
  | cons ev rest ih =>
    intro b acc
    cases ev with
    | call op i k j ret =>
      simp only [List.cons_append, sub_state]
      split <;> exact ih _ _
    | writel x y z => simpa [sub_state] using ih b acc
    | poll x y => simpa [sub_state] using ih b acc

theorem sub_state_untouched (ip : IpId) (kind : SlotKind) (idx : Nat) :
    ∀ (evs : List Event) (acc : Bool),
      (∀ op, Event.call op ip kind idx 0 ∉ evs) → sub_state ip kind idx acc evs = acc := by
  intro evs
  induction evs with
  | nil => intro acc _; rfl
  | cons ev rest ih =>
    intro acc h
    have hrest : ∀ op, Event.call op ip kind idx 0 ∉ rest :=
      fun op hm => h op (List.mem_cons_of_mem _ hm)
    cases ev with
    | call op i k j ret =>
      simp only [sub_state]
      split
      · rename_i hc
        obtain ⟨rfl, rfl, rfl, rfl⟩ := hc
        exact absurd (List.mem_cons_self _ _) (h op)
      · exact ih acc hrest
    | writel x y z => simpa [sub_state] using ih acc hrest
    | poll x y => simpa [sub_state] using ih acc hrest

theorem sub_state_only (ip : IpId) (kind : SlotKind) (idx : Nat) (o : SubOp) :
    ∀ (evs : List Event),
      (∀ op, Event.call op ip kind idx 0 ∈ evs → op = o) →
      sub_state ip kind idx (decide (o = SubOp.reserve)) evs = decide (o = SubOp.reserve) := by
  intro evs
  induction evs with
  | nil => intro _; rfl
  | cons ev rest ih =>
    intro h
    have hrest : ∀ op, Event.call op ip kind idx 0 ∈ rest → op = o :=
      fun op hm => h op (List.mem_cons_of_mem _ hm)
    cases ev with
    | call op i k j ret =>
      simp only [sub_state]
      split
      · rename_i hc
        obtain ⟨rfl, rfl, rfl, rfl⟩ := hc
        have := h op (List.mem_cons_self _ _)
        subst this
        exact ih hrest
      · exact ih hrest
    | writel x y z => simpa [sub_state] using ih hrest
    | poll x y => simpa [sub_state] using ih hrest

theorem sub_state_last (ip : IpId) (kind : SlotKind) (idx : Nat) (o : SubOp) :
    ∀ (evs : List Event) (acc : Bool),
      (∀ op, Event.call op ip kind idx 0 ∈ evs → op = o) →
      Event.call o ip kind idx 0 ∈ evs →
      sub_state ip kind idx acc evs = decide (o = SubOp.reserve) := by
  intro evs
  induction evs with
  | nil => intro acc _ hm; simp at hm
  | cons ev rest ih =>
    intro acc h hm
    have hrest : ∀ op, Event.call op ip kind idx 0 ∈ rest → op = o :=
      fun op hm => h op (List.mem_cons_of_mem _ hm)
    cases ev with
    | call op i k j ret =>
      simp only [sub_state]
      split
      · rename_i hc
        obtain ⟨rfl, rfl, rfl, rfl⟩ := hc
        have := h op (List.mem_cons_self _ _)
        subst this
        exact sub_state_only _ _ _ op rest hrest
      · rename_i hc
        rcases List.mem_cons.mp hm with h1 | h1
        · simp only [Event.call.injEq] at h1
          exact absurd ⟨h1.2.1.symm, h1.2.2.1.symm, h1.2.2.2.1.symm, h1.2.2.2.2.symm⟩ hc
        · exact ih acc hrest h1
    | writel x y z =>
      have h1 : Event.call o ip kind idx 0 ∈ rest := by simpa using hm
      simpa [sub_state] using ih acc hrest h1
    | poll x y =>
      have h1 : Event.call o ip kind idx 0 ∈ rest := by simpa using hm
      simpa [sub_state] using ih acc hrest h1

/-! ## C16, C18: `reserve_pma`, perfmux-phase failure and full success -/

/-- C16. With PMA unreserved, `reserve_pma` returns, and if in that run the
reserve of perfmux slot `k` returned the error `e` (it is then the first
failure, at a present slot), the call returns `e`, the log of the call is the
successful reserves of the present perfmux slots below `k` followed by the
failing one and nothing else (no later perfmux reserve, no perfmon reserve, no
release), `PMA.reserved` is false and `fs_mask` is its old value ORed with the
`hw_inst_mask` of the present perfmux slots below `k`. -/
theorem reserve_pma_stops_at_failing_perfmux {W : Type} (ops : SubOps W)
    (hwpm : tegra_soc_hwpm W) (pma : hwpm_ip) (hpma : pma_ip hwpm = some pma)
    (hres : pma.reserved = false) :
    ∃ r s pma2, t234_hwpm_reserve_pma ops hwpm = some (r, s) ∧ pma_ip s = some pma2 ∧
      ∀ (k : Nat) (e : Int), e ≠ 0 →
        Event.call SubOp.reserve IpId.pma SlotKind.perfmux k e
          ∈ new_events hwpm.trace s.trace →
        r = e ∧ (∃ p, pma.ip_perfmux[k]? = some (some p)) ∧
        new_events hwpm.trace s.trace =
          expected_calls (fun _ => true) SubOp.reserve IpId.pma SlotKind.perfmux 0
            (pma.ip_perfmux.take k) ++
          [Event.call SubOp.reserve IpId.pma SlotKind.perfmux k e] ∧
        pma2.reserved = false ∧
        pma2.fs_mask = or_masks pma.fs_mask (pma.ip_perfmux.take k) := by
  obtain ⟨r, s, pma2, hrun, -, hp2, -, -, -, hcases⟩ := reserve_pma_cases ops hwpm pma hpma hres
  refine ⟨r, s, pma2, hrun, hp2, ?_⟩
  intro k e he hmem
  rcases hcases with ⟨k', p, hk, hr, hnew, hres2, hfs⟩ |
    ⟨k', p, evs3, hk, hr, hnew, hev3, -, hres2⟩ | ⟨hr, hnew, -, -⟩
  · rw [hnew] at hmem
    simp only [List.mem_append, List.mem_singleton] at hmem
    rcases hmem with h | h
    · exact absurd (expected_calls_event h).2.2.2.1 he
    · simp only [Event.call.injEq, true_and] at h
      obtain ⟨rfl, rfl⟩ := h
      exact ⟨rfl, ⟨p, hk⟩, hnew, hres2, hfs⟩
  · exfalso
    rw [hnew] at hmem
    simp only [List.mem_append, List.mem_singleton] at hmem
    rcases hmem with (h | h | h) | h
    · exact absurd (expected_calls_event h).2.2.2.1 he
    · have := (expected_calls_event h).2.2.1
      simp at this
    · simp at h
    · obtain ⟨j, q, ret, -, h3⟩ := hev3 _ h
      simp at h3
  · exfalso
    rw [hnew] at hmem
    simp only [List.mem_append] at hmem
    rcases hmem with h | h
    · exact absurd (expected_calls_event h).2.2.2.1 he
    · have := (expected_calls_event h).2.2.1
      simp at this

/-- C16, witness: perfmux slot 0 is reserved, slot 1 is absent, the reserve of
slot 2 fails with 9. -/
theorem reserve_pma_stops_at_failing_perfmux_witness :
    pma_ip (ex_init_wide [0, 9]) = some ex_pma_wide ∧ ex_pma_wide.reserved = false ∧
    ∃ r s pma2, t234_hwpm_reserve_pma scripted_ops (ex_init_wide [0, 9]) = some (r, s) ∧
      pma_ip s = some pma2 ∧ r = 9 ∧
      s.trace = [Event.call SubOp.reserve IpId.pma SlotKind.perfmux 0 0,
        Event.call SubOp.reserve IpId.pma SlotKind.perfmux 2 9] ∧
      pma2.reserved = false ∧ pma2.fs_mask = 1 := by
  refine ⟨rfl, rfl, ?_⟩
  obtain ⟨r, s, pma2, hrun, hp2, h⟩ :=
    reserve_pma_stops_at_failing_perfmux scripted_ops (ex_init_wide [0, 9]) ex_pma_wide rfl rfl
  have heval : ∃ s0, t234_hwpm_reserve_pma scripted_ops (ex_init_wide [0, 9]) = some (9, s0) ∧
      s0.trace = [Event.call SubOp.reserve IpId.pma SlotKind.perfmux 0 0,
        Event.call SubOp.reserve IpId.pma SlotKind.perfmux 2 9] := ⟨_, rfl, rfl⟩
  obtain ⟨s0, hs0, htr⟩ := heval
  rw [hrun] at hs0
  simp only [Option.some.injEq, Prod.mk.injEq] at hs0
  obtain ⟨hr, hs⟩ := hs0
  subst hs
  have hnew : new_events (ex_init_wide [0, 9]).trace s.trace = s.trace := by
    simp [new_events, ex_init_wide]
  rw [hnew] at h
  obtain ⟨-, -, -, h4, h5⟩ := h 2 9 (by decide) (by rw [htr]; simp)
  exact ⟨r, s, pma2, hrun, hp2, hr, htr, h4, by rw [h5]; rfl⟩

/-- C18. With PMA unreserved, `reserve_pma` returns, and if in that run every
reserve returned 0, the call returns 0, `PMA.reserved` is true, the log of the
call is one reserve on each present perfmux slot in ascending index order
followed by one reserve on each present perfmon slot in ascending index order
(absent slots skipped, no release), and `fs_mask` is its old value ORed with
the `hw_inst_mask` of every present perfmux slot. -/
theorem reserve_pma_all_succeed {W : Type} (ops : SubOps W)
    (hwpm : tegra_soc_hwpm W) (pma : hwpm_ip) (hpma : pma_ip hwpm = some pma)
    (hres : pma.reserved = false) :
    ∃ r s pma2, t234_hwpm_reserve_pma ops hwpm = some (r, s) ∧ pma_ip s = some pma2 ∧
      ((∀ (kind : SlotKind) (idx : Nat) (ret : Int),
          Event.call SubOp.reserve IpId.pma kind idx ret ∈ new_events hwpm.trace s.trace →
          ret = 0) →
        r = 0 ∧ pma2.reserved = true ∧
        new_events hwpm.trace s.trace =
          expected_calls (fun _ => true) SubOp.reserve IpId.pma SlotKind.perfmux 0
            pma.ip_perfmux ++
          expected_calls (fun _ => true) SubOp.reserve IpId.pma SlotKind.perfmon 0
            pma.ip_perfmon ∧
        (∀ (ip : IpId) (kind : SlotKind) (idx : Nat) (ret : Int),
          Event.call SubOp.release ip kind idx ret ∉ new_events hwpm.trace s.trace) ∧
        pma2.fs_mask = or_masks pma.fs_mask pma.ip_perfmux) := by
  obtain ⟨r, s, pma2, hrun, -, hp2, -, -, -, hcases⟩ := reserve_pma_cases ops hwpm pma hpma hres
  refine ⟨r, s, pma2, hrun, hp2, ?_⟩
  intro hall
  rcases hcases with ⟨k', p, hk, hr, hnew, hres2, hfs⟩ |
    ⟨k', p, evs3, hk, hr, hnew, hev3, -, hres2⟩ | ⟨hr, hnew, hres2, hfs⟩
  · exfalso
    apply hr
    apply hall SlotKind.perfmux k'
    rw [hnew]
    simp
  · exfalso
    apply hr
    apply hall SlotKind.perfmon k'
    rw [hnew]
    simp
  · refine ⟨hr, hres2, hnew, ?_, hfs⟩
    intro ip kind idx ret hmem
    rw [hnew] at hmem
    simp only [List.mem_append] at hmem
    rcases hmem with h | h <;>
    · have := (expected_calls_event h).1
      simp at this

/-- C18, witness: every reserve succeeds on the wide PMA block. -/
theorem reserve_pma_all_succeed_witness :
    pma_ip (ex_init_wide []) = some ex_pma_wide ∧ ex_pma_wide.reserved = false ∧
    ∃ r s pma2, t234_hwpm_reserve_pma scripted_ops (ex_init_wide []) = some (r, s) ∧
      pma_ip s = some pma2 ∧ r = 0 ∧ pma2.reserved = true ∧
      s.trace = [Event.call SubOp.reserve IpId.pma SlotKind.perfmux 0 0,
        Event.call SubOp.reserve IpId.pma SlotKind.perfmux 2 0,
        Event.call SubOp.reserve IpId.pma SlotKind.perfmon 0 0] ∧
      pma2.fs_mask = 5 := by
  refine ⟨rfl, rfl, ?_⟩
  obtain ⟨r, s, pma2, hrun, hp2, h⟩ :=
    reserve_pma_all_succeed scripted_ops (ex_init_wide []) ex_pma_wide rfl rfl
  have heval : ∃ s0, t234_hwpm_reserve_pma scripted_ops (ex_init_wide []) = some (0, s0) ∧
      s0.trace = [Event.call SubOp.reserve IpId.pma SlotKind.perfmux 0 0,
        Event.call SubOp.reserve IpId.pma SlotKind.perfmux 2 0,
        Event.call SubOp.reserve IpId.pma SlotKind.perfmon 0 0] := ⟨_, rfl, rfl⟩
  obtain ⟨s0, hs0, htr⟩ := heval
  rw [hrun] at hs0
  simp only [Option.some.injEq, Prod.mk.injEq] at hs0
  obtain ⟨hr, hs⟩ := hs0
  subst hs
  have hnew : new_events (ex_init_wide []).trace s.trace = s.trace := by
    simp [new_events, ex_init_wide]
  rw [hnew] at h
  obtain ⟨h1, h2, -, -, h5⟩ := h (by
    intro kind idx ret hm
    rw [htr] at hm
    simp at hm
    omega)
  exact ⟨r, s, pma2, hrun, hp2, h1, h2, htr, by rw [h5]; rfl⟩

theorem calls_on_expected_other {calls : hwpm_ip_perfmux → Bool} {op : SubOp} {ip : IpId}
    {kind : SlotKind} (slots : List (Option hwpm_ip_perfmux)) (idx : Nat)
    (o : SubOp) (i : IpId) (k : SlotKind) (j : Nat) (hne : ¬ (o = op ∧ i = ip ∧ k = kind)) :
    calls_on o i k j (expected_calls calls op ip kind idx slots) = 0 := by
  unfold calls_on
  rw [List.countP_eq_zero]
  intro ev hev
  obtain ⟨n, p, _, _, rfl⟩ := expected_calls_mem slots idx ev hev
  simp
  intro h1 h2 h3
  exact absurd ⟨h1.symm, h2.symm, h3.symm⟩ hne

/-! ## C15: `release_pma`, order of the releases and abort on the first failure -/

/-- C15: `release_pma` on a reserved PMA block returns, and its sub-operation calls
are releases of the present perfmux slots in ascending index order followed by
releases of the present perfmon slots in ascending index order. If every release
returns 0, the call returns 0, `reserved` becomes false, the log is the full
list of releases and `fs_mask` is its old value with the `hw_inst_mask` of every
present perfmux cleared. If the release of perfmux `k` fails with `e`, the call
returns `e`, the log ends with that call (only the present perfmux slots below
`k` were released before it, no perfmon), `fs_mask` has only the masks of the
slots below `k` cleared, and `reserved` stays true. If the release of perfmon
`k` fails with `e`, the call returns `e`, the log is all perfmux releases and the
perfmon releases up to `k`, and `reserved` stays true. -/
theorem release_pma_order {W : Type} (ops : SubOps W)
    (hwpm : tegra_soc_hwpm W) (pma : hwpm_ip) (hpma : pma_ip hwpm = some pma)
    (hres : pma.reserved = true) :
    ∃ r s pma2, t234_hwpm_release_pma ops hwpm = some (r, s) ∧ pma_ip s = some pma2 ∧
      ((∀ (kind : SlotKind) (idx : Nat) (ret : Int),
          Event.call SubOp.release IpId.pma kind idx ret ∈ new_events hwpm.trace s.trace →
          ret = 0) →
        r = 0 ∧ pma2.reserved = false ∧
        new_events hwpm.trace s.trace =
          expected_calls (fun _ => true) SubOp.release IpId.pma SlotKind.perfmux 0
            pma.ip_perfmux ++
          expected_calls (fun _ => true) SubOp.release IpId.pma SlotKind.perfmon 0
            pma.ip_perfmon ∧
        pma2.fs_mask = and_not_masks pma.fs_mask pma.ip_perfmux) ∧
      (∀ (k : Nat) (e : Int), e ≠ 0 →
        Event.call SubOp.release IpId.pma SlotKind.perfmux k e
          ∈ new_events hwpm.trace s.trace →
        r = e ∧ pma2.reserved = true ∧
        new_events hwpm.trace s.trace =
          expected_calls (fun _ => true) SubOp.release IpId.pma SlotKind.perfmux 0
            (pma.ip_perfmux.take k) ++
          [Event.call SubOp.release IpId.pma SlotKind.perfmux k e] ∧
        pma2.fs_mask = and_not_masks pma.fs_mask (pma.ip_perfmux.take k)) ∧
      (∀ (k : Nat) (e : Int), e ≠ 0 →
        Event.call SubOp.release IpId.pma SlotKind.perfmon k e
          ∈ new_events hwpm.trace s.trace →
        r = e ∧ pma2.reserved = true ∧
        new_events hwpm.trace s.trace =
          expected_calls (fun _ => true) SubOp.release IpId.pma SlotKind.perfmux 0
            pma.ip_perfmux ++
          (expected_calls (fun _ => true) SubOp.release IpId.pma SlotKind.perfmon 0
            (pma.ip_perfmon.take k) ++
          [Event.call SubOp.release IpId.pma SlotKind.perfmon k e]) ∧
        pma2.fs_mask = and_not_masks pma.fs_mask pma.ip_perfmux) := by
  obtain ⟨r, s, pma2, hrun, -, hp2, -, -, -, hcases⟩ := release_pma_cases ops hwpm pma hpma hres
  refine ⟨r, s, pma2, hrun, hp2, ?_, ?_, ?_⟩
  · intro hall
    rcases hcases with ⟨k', p, hk, hr, hnew, hres2, hfs⟩ |
      ⟨k', p, hk, hr, hnew, hres2, hfs⟩ | ⟨hr, hnew, hres2, hfs⟩
    · exfalso
      apply hr
      apply hall SlotKind.perfmux k'
      rw [hnew]
      simp
    · exfalso
      apply hr
      apply hall SlotKind.perfmon k'
      rw [hnew]
      simp
    · exact ⟨hr, hres2, hnew, hfs⟩
  · intro k e he hmem
    rcases hcases with ⟨k', p, hk, hr, hnew, hres2, hfs⟩ |
      ⟨k', p, hk, hr, hnew, hres2, hfs⟩ | ⟨hr, hnew, hres2, hfs⟩
    · rw [hnew] at hmem
      simp only [List.mem_append, List.mem_singleton] at hmem
      rcases hmem with h | h
      · exact absurd (expected_calls_event h).2.2.2.1 he
      · simp only [Event.call.injEq, true_and] at h
        obtain ⟨rfl, rfl⟩ := h
        exact ⟨rfl, hres2, hnew, hfs⟩
    · exfalso
      rw [hnew] at hmem
      simp only [List.mem_append, List.mem_singleton] at hmem
      rcases hmem with h | h | h
      · exact absurd (expected_calls_event h).2.2.2.1 he
      · exact absurd (expected_calls_event h).2.2.2.1 he
      · simp at h
    · exfalso
      rw [hnew] at hmem
      simp only [List.mem_append] at hmem
      rcases hmem with h | h <;> exact absurd (expected_calls_event h).2.2.2.1 he
  · intro k e he hmem
    rcases hcases with ⟨k', p, hk, hr, hnew, hres2, hfs⟩ |
      ⟨k', p, hk, hr, hnew, hres2, hfs⟩ | ⟨hr, hnew, hres2, hfs⟩
    · exfalso
      rw [hnew] at hmem
      simp only [List.mem_append, List.mem_singleton] at hmem
      rcases hmem with h | h
      · exact absurd (expected_calls_event h).2.2.2.1 he
      · simp at h
    · rw [hnew] at hmem
      simp only [List.mem_append, List.mem_singleton] at hmem
      rcases hmem with h | h | h
      · exact absurd (expected_calls_event h).2.2.2.1 he
      · exact absurd (expected_calls_event h).2.2.2.1 he
      · simp only [Event.call.injEq, true_and] at h
        obtain ⟨rfl, rfl⟩ := h
        exact ⟨rfl, hres2, hnew, hfs⟩
    · exfalso
      rw [hnew] at hmem
      simp only [List.mem_append] at hmem
      rcases hmem with h | h <;> exact absurd (expected_calls_event h).2.2.2.1 he

/-- C15, witness: on the reserved wide PMA block the release of perfmux 2 fails
with 7 after perfmux 0 was released; the call returns 7, nothing further is
released, `reserved` stays true and only the mask bit of perfmux 0 is cleared. -/
theorem release_pma_order_witness :
    pma_ip (ex_state ex_pma_wide_on ex_rtr false [0, 7] []) = some ex_pma_wide_on ∧
    ex_pma_wide_on.reserved = true ∧
    ∃ r s pma2, t234_hwpm_release_pma scripted_ops
        (ex_state ex_pma_wide_on ex_rtr false [0, 7] []) = some (r, s) ∧
      pma_ip s = some pma2 ∧ r = 7 ∧ pma2.reserved = true ∧
      s.trace = [Event.call SubOp.release IpId.pma SlotKind.perfmux 0 0,
        Event.call SubOp.release IpId.pma SlotKind.perfmux 2 7] ∧
      pma2.fs_mask = 4 := by
  refine ⟨rfl, rfl, ?_⟩
  obtain ⟨r, s, pma2, hrun, hp2, -, h, -⟩ :=
    release_pma_order scripted_ops (ex_state ex_pma_wide_on ex_rtr false [0, 7] [])
      ex_pma_wide_on rfl rfl
  have heval : ∃ s0, t234_hwpm_release_pma scripted_ops
      (ex_state ex_pma_wide_on ex_rtr false [0, 7] []) = some (7, s0) ∧
      s0.trace = [Event.call SubOp.release IpId.pma SlotKind.perfmux 0 0,
        Event.call SubOp.release IpId.pma SlotKind.perfmux 2 7] := ⟨_, rfl, rfl⟩
  obtain ⟨s0, hs0, htr⟩ := heval
  rw [hrun] at hs0
  simp only [Option.some.injEq, Prod.mk.injEq] at hs0
  obtain ⟨hr, hs⟩ := hs0
  subst hs
  have hnew : new_events (ex_state ex_pma_wide_on ex_rtr false [0, 7] []).trace s.trace
      = s.trace := by
    simp [new_events, ex_state]
  rw [hnew] at h
  obtain ⟨h1, h2, -, h4⟩ := h 2 7 (by decide) (by rw [htr]; simp)
  exact ⟨r, s, pma2, hrun, hp2, h1, h2, htr, by rw [h4]; rfl⟩

/-! ## C17: `reserve_rtr` does not roll back -/

/-- C17: `reserve_rtr` with PMA reserved and RTR unreserved returns; if the reserve
of perfmux slot `k` is called and fails with `e` (so the slot is present and does
not alias PMA's aperture), the call returns `e`, `RTR.reserved` stays false, the
log is the successful reserves of the non-aliased present slots below `k`
followed by the failing call, no release is invoked, `fs_mask` is its old value
ORed with the masks of the present slots below `k`, and every present slot below
`k` keeps the state it was given: PMA's range and handle copied in if it aliases
PMA's aperture, the outcome of its successful reserve otherwise. -/
theorem reserve_rtr_no_rollback {W : Type} (ops : SubOps W) (hwpm : tegra_soc_hwpm W)
    (pma rtr : hwpm_ip) (p : hwpm_ip_perfmux)
    (hpma : pma_ip hwpm = some pma) (hrtr : rtr_ip hwpm = some rtr)
    (hpr : pma.reserved = true) (hrr : rtr.reserved = false)
    (hp0 : perfmux_slot0 pma = some p) :
    ∃ r s rtr2, t234_hwpm_reserve_rtr ops hwpm = some (r, s) ∧ rtr_ip s = some rtr2 ∧
      ∀ (k : Nat) (e : Int), e ≠ 0 →
        Event.call SubOp.reserve IpId.rtr SlotKind.perfmux k e
          ∈ new_events hwpm.trace s.trace →
        r = e ∧
        (∃ q, rtr.ip_perfmux[k]? = some (some q) ∧ q.start_abs_pa ≠ p.start_abs_pa) ∧
        rtr2.reserved = false ∧
        new_events hwpm.trace s.trace =
          expected_calls (fun x => !aliases p x) SubOp.reserve IpId.rtr SlotKind.perfmux 0
            (rtr.ip_perfmux.take k) ++
          [Event.call SubOp.reserve IpId.rtr SlotKind.perfmux k e] ∧
        (∀ (ip : IpId) (kind : SlotKind) (idx : Nat) (ret : Int),
          Event.call SubOp.release ip kind idx ret ∉ new_events hwpm.trace s.trace) ∧
        rtr2.fs_mask = or_masks rtr.fs_mask (rtr.ip_perfmux.take k) ∧
        ∀ (i : Nat) (qi : hwpm_ip_perfmux), i < k → rtr.ip_perfmux[i]? = some (some qi) →
          (qi.start_abs_pa = p.start_abs_pa →
            rtr2.ip_perfmux[i]? = some (some (shares hwpm.fake_registers_enabled p qi))) ∧
          (qi.start_abs_pa ≠ p.start_abs_pa →
            ∃ w, rtr2.ip_perfmux[i]?
                = some (some (apply_result qi (ops.perfmon_reserve w qi).1)) ∧
              (ops.perfmon_reserve w qi).1.ret = 0) := by
  obtain ⟨r, s, rtr2, hrun, -, hr2, -, -, -, hcases⟩ :=
    reserve_rtr_cases ops hwpm pma rtr p hpma hrtr hpr hrr hp0
  refine ⟨r, s, rtr2, hrun, hr2, ?_⟩
  intro k e he hmem
  rcases hcases with ⟨k', q, hk, hal, hr, hnew, hres2, hfs, -, hslots⟩ | ⟨hr, hnew, -, -⟩
  · rw [hnew] at hmem
    simp only [List.mem_append, List.mem_singleton] at hmem
    rcases hmem with h | h
    · exact absurd (expected_calls_event h).2.2.2.1 he
    · simp only [Event.call.injEq, true_and] at h
      obtain ⟨rfl, rfl⟩ := h
      refine ⟨rfl, ⟨q, hk, by simpa [aliases] using hal⟩, hres2, hnew, ?_, hfs, hslots⟩
      intro ip kind idx ret hm
      rw [hnew] at hm
      simp only [List.mem_append, List.mem_singleton] at hm
      rcases hm with h | h
      · have := (expected_calls_event h).1
        simp at this
      · simp at h
  · exfalso
    rw [hnew] at hmem
    exact absurd (expected_calls_event hmem).2.2.2.1 he

/-- C17, witness: RTR's view of PMA's aperture comes first and is aliased, then the
reserve of RTR's own aperture (slot 1) fails with 7; the call returns 7,
`reserved` stays false, the aliased slot keeps PMA's range and handle and its
mask bit stays in `fs_mask`. -/
theorem reserve_rtr_no_rollback_witness :
    pma_ip (ex_state ex_pma_on ex_rtr_view_first false [7] []) = some ex_pma_on ∧
    rtr_ip (ex_state ex_pma_on ex_rtr_view_first false [7] []) = some ex_rtr_view_first ∧
    ex_pma_on.reserved = true ∧ ex_rtr_view_first.reserved = false ∧
    perfmux_slot0 ex_pma_on = some ex_pma_perfmux_on ∧
    ∃ r s rtr2, t234_hwpm_reserve_rtr scripted_ops
        (ex_state ex_pma_on ex_rtr_view_first false [7] []) = some (r, s) ∧
      rtr_ip s = some rtr2 ∧ r = 7 ∧ rtr2.reserved = false ∧
      s.trace = [Event.call SubOp.reserve IpId.rtr SlotKind.perfmux 1 7] ∧
      rtr2.fs_mask = 2 ∧ rtr2.ip_perfmux[0]? = some (some ex_rtr_pma_view_on) := by
  refine ⟨rfl, rfl, rfl, rfl, rfl, ?_⟩
  obtain ⟨r, s, rtr2, hrun, hr2, h⟩ :=
    reserve_rtr_no_rollback scripted_ops (ex_state ex_pma_on ex_rtr_view_first false [7] [])
      ex_pma_on ex_rtr_view_first ex_pma_perfmux_on rfl rfl rfl rfl rfl
  have heval : ∃ s0, t234_hwpm_reserve_rtr scripted_ops
      (ex_state ex_pma_on ex_rtr_view_first false [7] []) = some (7, s0) ∧
      s0.trace = [Event.call SubOp.reserve IpId.rtr SlotKind.perfmux 1 7] := ⟨_, rfl, rfl⟩
  obtain ⟨s0, hs0, htr⟩ := heval
  rw [hrun] at hs0
  simp only [Option.some.injEq, Prod.mk.injEq] at hs0
  obtain ⟨hr, hs⟩ := hs0
  subst hs
  have hnew : new_events (ex_state ex_pma_on ex_rtr_view_first false [7] []).trace s.trace
      = s.trace := by
    simp [new_events, ex_state]
  rw [hnew] at h
  obtain ⟨h1, -, h3, -, -, h6, h7⟩ := h 1 7 (by decide) (by rw [htr]; simp)
  refine ⟨r, s, rtr2, hrun, hr2, h1, h3, htr, by rw [h6]; rfl, ?_⟩
  exact (h7 0 ex_rtr_pma_view (by decide) rfl).1 rfl

/-! ## C20: the rollback of `reserve_pma` covers perfmux slots only -/

/-- C20: `reserve_pma` with PMA unreserved returns; if the reserve of perfmon slot
`k` is called and fails with `e` (which happens only after every perfmux reserve
succeeded), the call returns `e` with `PMA.reserved` false, the release
sub-operation has been invoked exactly once on each present perfmux slot and
never on a perfmon slot, and every present perfmon slot below `k` is still in
its reserved sub-state in the log the call leaves behind. -/
theorem reserve_pma_rollback_skips_perfmons {W : Type} (ops : SubOps W)
    (hwpm : tegra_soc_hwpm W) (pma : hwpm_ip) (hpma : pma_ip hwpm = some pma)
    (hres : pma.reserved = false) :
    ∃ r s pma2, t234_hwpm_reserve_pma ops hwpm = some (r, s) ∧ pma_ip s = some pma2 ∧
      ∀ (k : Nat) (e : Int), e ≠ 0 →
        Event.call SubOp.reserve IpId.pma SlotKind.perfmon k e
          ∈ new_events hwpm.trace s.trace →
        r = e ∧ pma2.reserved = false ∧
        (∃ p, pma.ip_perfmon[k]? = some (some p)) ∧
        (∀ (idx : Nat) (ret : Int),
          Event.call SubOp.reserve IpId.pma SlotKind.perfmux idx ret
            ∈ new_events hwpm.trace s.trace → ret = 0) ∧
        (∀ (j : Nat) (q : hwpm_ip_perfmux), pma.ip_perfmux[j]? = some (some q) →
          calls_on SubOp.release IpId.pma SlotKind.perfmux j
            (new_events hwpm.trace s.trace) = 1) ∧
        (∀ (j : Nat), calls_on SubOp.release IpId.pma SlotKind.perfmon j
            (new_events hwpm.trace s.trace) = 0) ∧
        (∀ (i : Nat) (qi : hwpm_ip_perfmux), i < k → pma.ip_perfmon[i]? = some (some qi) →
          slot_reserved IpId.pma SlotKind.perfmon i s.trace = true) := by
  obtain ⟨r, s, pma2, hrun, htr, hp2, -, -, -, hcases⟩ :=
    reserve_pma_cases ops hwpm pma hpma hres
  refine ⟨r, s, pma2, hrun, hp2, ?_⟩
  intro k e he hmem
  rcases hcases with ⟨k', p, hk, hr, hnew, hres2, hfs⟩ |
    ⟨k', p, evs3, hk, hr, hnew, hev3, hcnt, hres2⟩ | ⟨hr, hnew, hres2, hfs⟩
  · exfalso
    rw [hnew] at hmem
    simp only [List.mem_append, List.mem_singleton] at hmem
    rcases hmem with h | h
    · exact absurd (expected_calls_event h).2.2.2.1 he
    · simp at h
  · have hmem2 := hmem
    rw [hnew] at hmem2
    simp only [List.mem_append, List.mem_singleton] at hmem2
    have hke : k = k' ∧ e = r := by
      rcases hmem2 with (h | h | h) | h
      · exact absurd (expected_calls_event h).2.2.2.1 he
      · exact absurd (expected_calls_event h).2.2.2.1 he
      · simpa using h
      · obtain ⟨j, q, ret, -, hq⟩ := hev3 _ h
        simp at hq
    obtain ⟨rfl, rfl⟩ := hke
    refine ⟨rfl, hres2, ⟨p, hk⟩, ?_, ?_, ?_, ?_⟩
    · intro idx ret hm
      rw [hnew] at hm
      simp only [List.mem_append, List.mem_singleton] at hm
      rcases hm with (h | h | h) | h
      · exact (expected_calls_event h).2.2.2.1
      · exact (expected_calls_event h).2.2.2.1
      · simp at h
      · obtain ⟨j, q, ret2, -, hq⟩ := hev3 _ h
        simp at hq
    · intro j q hj
      rw [hnew, calls_on_append, calls_on_append, calls_on_append,
        calls_on_expected_other _ _ _ _ _ _ (by simp),
        calls_on_expected_other _ _ _ _ _ _ (by simp), hcnt j q hj]
      simp [calls_on]
    · intro j
      rw [hnew, calls_on_append, calls_on_append, calls_on_append,
        calls_on_expected_other _ _ _ _ _ _ (by simp),
        calls_on_expected_other _ _ _ _ _ _ (by simp)]
      have h3 : calls_on SubOp.release IpId.pma SlotKind.perfmon j evs3 = 0 := by
        unfold calls_on
        rw [List.countP_eq_zero]
        intro ev hev
        obtain ⟨j2, q, ret, -, rfl⟩ := hev3 ev hev
        simp
      rw [h3]
      simp [calls_on]
    · intro i qi hik hi
      unfold slot_reserved
      rw [htr, sub_state_append]
      have hlast := sub_state_last IpId.pma SlotKind.perfmon i SubOp.reserve
        (new_events hwpm.trace s.trace) (sub_state IpId.pma SlotKind.perfmon i false hwpm.trace)
      simp only [decide_True] at hlast
      apply hlast
      · intro op hm
        rw [hnew] at hm
        simp only [List.mem_append, List.mem_singleton] at hm
        rcases hm with (h | h | h) | h
        · exact (expected_calls_event h).1
        · exact (expected_calls_event h).1
        · simp only [Event.call.injEq] at h
          exact h.1
        · obtain ⟨j, q, ret2, -, hq⟩ := hev3 _ h
          simp at hq
      · rw [hnew]
        simp only [List.mem_append, List.mem_singleton]
        refine Or.inl (Or.inr (Or.inl ?_))
        have hm := @mem_expected_calls (fun _ => true) SubOp.reserve IpId.pma
          SlotKind.perfmon (pma.ip_perfmon.take k) 0 i qi
          (by rw [List.getElem?_take_of_lt hik]; exact hi) rfl
        simpa using hm
  · exfalso
    rw [hnew] at hmem
    simp only [List.mem_append] at hmem
    rcases hmem with h | h <;> exact absurd (expected_calls_event h).2.2.2.1 he

/-- C20, witness: the perfmux and perfmon 0 are reserved, the reserve of perfmon 1
fails with 5; the rollback releases the perfmux only, the call returns 5 with
`reserved` false and perfmon 0 is still in its reserved sub-state. -/
theorem reserve_pma_rollback_skips_perfmons_witness :
    pma_ip (ex_state ex_pma_two_perfmons ex_rtr false [0, 0, 5] []) = some ex_pma_two_perfmons ∧
    ex_pma_two_perfmons.reserved = false ∧
    ∃ r s pma2, t234_hwpm_reserve_pma scripted_ops
        (ex_state ex_pma_two_perfmons ex_rtr false [0, 0, 5] []) = some (r, s) ∧
      pma_ip s = some pma2 ∧ r = 5 ∧ pma2.reserved = false ∧
      s.trace = [Event.call SubOp.reserve IpId.pma SlotKind.perfmux 0 0,
        Event.call SubOp.reserve IpId.pma SlotKind.perfmon 0 0,
        Event.call SubOp.reserve IpId.pma SlotKind.perfmon 1 5,
        Event.call SubOp.release IpId.pma SlotKind.perfmux 0 0] ∧
      slot_reserved IpId.pma SlotKind.perfmon 0 s.trace = true ∧
      slot_reserved IpId.pma SlotKind.perfmux 0 s.trace = false := by
  refine ⟨rfl, rfl, ?_⟩
  obtain ⟨r, s, pma2, hrun, hp2, h⟩ :=
    reserve_pma_rollback_skips_perfmons scripted_ops
      (ex_state ex_pma_two_perfmons ex_rtr false [0, 0, 5] []) ex_pma_two_perfmons rfl rfl
  have heval : ∃ s0, t234_hwpm_reserve_pma scripted_ops
      (ex_state ex_pma_two_perfmons ex_rtr false [0, 0, 5] []) = some (5, s0) ∧
      s0.trace = [Event.call SubOp.reserve IpId.pma SlotKind.perfmux 0 0,
        Event.call SubOp.reserve IpId.pma SlotKind.perfmon 0 0,
        Event.call SubOp.reserve IpId.pma SlotKind.perfmon 1 5,
        Event.call SubOp.release IpId.pma SlotKind.perfmux 0 0] := ⟨_, rfl, rfl⟩
  obtain ⟨s0, hs0, htr⟩ := heval
  rw [hrun] at hs0
  simp only [Option.some.injEq, Prod.mk.injEq] at hs0
  obtain ⟨hr, hs⟩ := hs0
  subst hs
  have hnew : new_events (ex_state ex_pma_two_perfmons ex_rtr false [0, 0, 5] []).trace s.trace
      = s.trace := by
    simp [new_events, ex_state]
  rw [hnew] at h
  obtain ⟨h1, h2, -, -, -, -, h7⟩ := h 1 5 (by decide) (by rw [htr]; simp)
  exact ⟨r, s, pma2, hrun, hp2, h1, h2, htr, h7 0 ex_pma_perfmon (by decide) rfl,
    by rw [htr]; rfl⟩

/-! ## C19: the SLCG toggles overwrite -/

theorem disable_slcg_writes_regs {W : Type} (hw : SlcgRegs) (s : tegra_soc_hwpm W)
    (pma rtr : hwpm_ip) :
    (disable_slcg_writes hw s pma rtr).regs
      = rmw (rmw s.regs (perfmux_slot0 pma) hw.pmasys_cg2_r hw.pmasys_cg2_slcg_m
          hw.pmasys_cg2_slcg_disabled_f)
        (perfmux_static0 rtr) hw.pmmsys_sys0router_cg2_r hw.rtr_cg2_mask
        hw.rtr_cg2_disabled := by
  unfold disable_slcg_writes tegra_hwpm_writel tegra_hwpm_readl rmw
  cases perfmux_slot0 pma <;> cases perfmux_static0 rtr <;> rfl

theorem enable_slcg_writes_regs {W : Type} (hw : SlcgRegs) (s : tegra_soc_hwpm W)
    (pma rtr : hwpm_ip) :
    (enable_slcg_writes hw s pma rtr).regs
      = rmw (rmw s.regs (perfmux_slot0 pma) hw.pmasys_cg2_r hw.pmasys_cg2_slcg_m
          hw.pmasys_cg2_slcg_enabled_f)
        (perfmux_static0 rtr) hw.pmmsys_sys0router_cg2_r hw.rtr_cg2_mask
        hw.rtr_cg2_prod := by
  unfold enable_slcg_writes tegra_hwpm_writel tegra_hwpm_readl rmw
  cases perfmux_slot0 pma <;> cases perfmux_static0 rtr <;> rfl

theorem enable_slcg_writes_chip {W : Type} (hw : SlcgRegs) (s : tegra_soc_hwpm W)
    (pma rtr : hwpm_ip) :
    (enable_slcg_writes hw s pma rtr).active_chip = s.active_chip := by
  unfold enable_slcg_writes tegra_hwpm_writel
  cases perfmux_slot0 pma <;> cases perfmux_static0 rtr <;> rfl

theorem testBit_set_field (v m f i : Nat) :
    (set_field v m f).testBit i
      = ((v.testBit i && (decide (i < 32) && !m.testBit i)) || f.testBit i) := by
  simp only [set_field, Nat.testBit_and, Nat.testBit_or, testBit_u32_not]

theorem in_mask_bit {f m : Nat} (h : f &&& m = f) (i : Nat) :
    f.testBit i = true → m.testBit i = true := by
  have h2 := congrArg (fun n => n.testBit i) h
  simp only [Nat.testBit_and] at h2
  intro hf
  rw [hf] at h2
  simpa using h2

theorem or3_in_masks {a b c A B C : Nat} (ha : a &&& A = a) (hb : b &&& B = b)
    (hc : c &&& C = c) : (a ||| b ||| c) &&& (A ||| B ||| C) = a ||| b ||| c := by
  apply Nat.eq_of_testBit_eq
  intro i
  have h1 := in_mask_bit ha i
  have h2 := in_mask_bit hb i
  have h3 := in_mask_bit hc i
  simp only [Nat.testBit_and, Nat.testBit_or]
  revert h1 h2 h3
  cases a.testBit i <;> cases b.testBit i <;> cases c.testBit i <;>
    cases A.testBit i <;> cases B.testBit i <;> cases C.testBit i <;> simp

/-- One field written twice: the second write wins. -/
theorem set_field_twice (v m d e : Nat) (hd : d &&& m = d) :
    set_field (set_field (v % 2 ^ 32) m d % 2 ^ 32 % 2 ^ 32) m e % 2 ^ 32
      = set_field (v % 2 ^ 32) m e % 2 ^ 32 := by
  apply Nat.eq_of_testBit_eq
  intro i
  have h1 := in_mask_bit hd i
  simp only [Nat.reducePow, testBit_set_field, testBit_mod_u32]
  revert h1
  cases decide (i < 32) <;> cases v.testBit i <;> cases m.testBit i <;>
    cases d.testBit i <;> cases e.testBit i <;> simp

/-- Two fields of one register written twice in turn: the second pair wins. -/
theorem set_field_twice_shared (v m d e M D E : Nat) (hd : d &&& m = d) (hD : D &&& M = D) :
    set_field (set_field (set_field (set_field (v % 2 ^ 32) m d % 2 ^ 32 % 2 ^ 32) M D
        % 2 ^ 32 % 2 ^ 32) m e % 2 ^ 32 % 2 ^ 32) M E % 2 ^ 32
      = set_field (set_field (v % 2 ^ 32) m e % 2 ^ 32 % 2 ^ 32) M E % 2 ^ 32 := by
  apply Nat.eq_of_testBit_eq
  intro i
  have h1 := in_mask_bit hd i
  have h2 := in_mask_bit hD i
  simp only [Nat.reducePow, testBit_set_field, testBit_mod_u32]
  revert h1 h2
  cases decide (i < 32) <;> cases v.testBit i <;> cases m.testBit i <;>
    cases d.testBit i <;> cases e.testBit i <;> cases M.testBit i <;>
    cases D.testBit i <;> cases E.testBit i <;> simp

/-- The second of two read-modify-write pairs on the same two fields wins. -/
theorem rmw_overwrite (R : Nat → Nat → Nat) (pp qp : Option hwpm_ip_perfmux)
    (a m d e b M D E : Nat) (hd : d &&& m = d) (hD : D &&& M = D) :
    rmw (rmw (rmw (rmw R pp a m d) qp b M D) pp a m e) qp b M E
      = rmw (rmw R pp a m e) qp b M E := by
  cases pp with
  | none =>
    cases qp with
    | none => rfl
    | some q =>
      funext pa r
      simp only [rmw]
      by_cases hQ : pa = q.start_abs_pa ∧ r = b
      · simp only [hQ, and_self, if_true]
        exact set_field_twice _ _ _ _ hD
      · simp only [hQ, if_false]
  | some p =>
    cases qp with
    | none =>
      funext pa r
      simp only [rmw]
      by_cases hP : pa = p.start_abs_pa ∧ r = a
      · simp only [hP, and_self, if_true]
        exact set_field_twice _ _ _ _ hd
      · simp only [hP, if_false]
    | some q =>
      funext pa r
      simp only [rmw]
      by_cases hPQ : p.start_abs_pa = q.start_abs_pa ∧ a = b
      · obtain ⟨h1, h2⟩ := hPQ
        subst h2
        simp only [h1, and_self, if_true]
        by_cases hQ : pa = q.start_abs_pa ∧ r = a
        · simp only [hQ, and_self, if_true]
          exact set_field_twice_shared _ _ _ _ _ _ _ hd hD
        · simp only [hQ, if_false]
      · have hQP : ¬ (q.start_abs_pa = p.start_abs_pa ∧ b = a) :=
          fun h => hPQ ⟨h.1.symm, h.2.symm⟩
        by_cases hQ : pa = q.start_abs_pa ∧ r = b
        · simp only [hQ, hPQ, hQP, and_self, if_true, if_false]
          exact set_field_twice _ _ _ _ hD
        · by_cases hP : pa = p.start_abs_pa ∧ r = a
          · simp only [hQ, hP, hPQ, hQP, and_self, if_true, if_false]
            exact set_field_twice _ _ _ _ hd
          · simp only [hQ, hP, if_false]

/-- A read-modify-write pair changes bits inside the two fields only. -/
theorem rmw_outside (R : Nat → Nat → Nat) (hR : ∀ pa r, R pa r < 2 ^ 32)
    (pp qp : Option hwpm_ip_perfmux) (a m f b M F : Nat)
    (hf : f &&& m = f) (hF : F &&& M = F) (pa r i : Nat)
    (hne : (rmw (rmw R pp a m f) qp b M F pa r).testBit i ≠ (R pa r).testBit i) :
    in_field pp a m pa r i ∨ in_field qp b M pa r i := by
  have hbit : ∀ x y, (R x y).testBit i = (decide (i < 32) && (R x y).testBit i) := by
    intro x y
    by_cases hi : i < 32
    · simp [hi]
    · simp only [hi, decide_False, Bool.false_and]
      exact Nat.testBit_lt_two_pow
        (lt_of_lt_of_le (hR x y) (Nat.pow_le_pow_right (by norm_num) (by omega)))
  have step : ∀ (R2 : Nat → Nat → Nat) (ap : Option hwpm_ip_perfmux) (c k g : Nat),
      g &&& k = g → (∀ x y, (R2 x y).testBit i = (decide (i < 32) && (R2 x y).testBit i)) →
      ((rmw R2 ap c k g pa r).testBit i = (R2 pa r).testBit i ∨ in_field ap c k pa r i) ∧
      (∀ x y, (rmw R2 ap c k g x y).testBit i
        = (decide (i < 32) && (rmw R2 ap c k g x y).testBit i)) := by
    intro R2 ap c k g hg h32
    cases ap with
    | none => exact ⟨Or.inl rfl, h32⟩
    | some p =>
      constructor
      · simp only [rmw]
        by_cases hP : pa = p.start_abs_pa ∧ r = c
        · by_cases hk : k.testBit i = true
          · exact Or.inr ⟨p, rfl, hP.1, hP.2, hk⟩
          · left
            have hg2 := in_mask_bit hg i
            simp only [hP, and_self, if_true]
            simp only [Nat.reducePow, testBit_set_field, testBit_mod_u32]
            rw [h32 p.start_abs_pa c]
            revert hg2
            simp only [Bool.not_eq_true] at hk
            rw [hk]
            cases decide (i < 32) <;> cases (R2 p.start_abs_pa c).testBit i <;>
              cases g.testBit i <;> simp
        · simp only [hP, if_false]
          exact Or.inl trivial
      · intro x y
        simp only [rmw]
        split
        · simp only [Nat.reducePow, testBit_mod_u32]
          cases decide (i < 32) <;> simp
        · exact h32 x y
  obtain ⟨s1, h1⟩ := step R pp a m f hf hbit
  obtain ⟨s2, -⟩ := step (rmw R pp a m f) qp b M F hF h1
  rcases s2 with s2 | s2
  · rcases s1 with s1 | s1
    · exact absurd (s2.trans s1) hne
    · exact Or.inl s1
  · exact Or.inr s2

/-- C19: the SLCG toggles overwrite. With both blocks reserved and every field
encoding inside its mask, both toggles return 0, the register contents after
`disable_slcg` followed by `enable_slcg` are those after `enable_slcg` alone,
those after `enable_slcg` followed by `disable_slcg` are those after
`disable_slcg` alone, each toggle applied twice leaves what it leaves applied
once, and (the registers holding 32-bit values) a toggle changes a bit only
inside the PMA SLCG field of the PMA clock-gating register or inside the
three-field mask of the RTR clock-gating register. -/
theorem slcg_toggles_overwrite {W : Type} (hw : SlcgRegs) (hwpm : tegra_soc_hwpm W)
    (pma rtr : hwpm_ip) (hpma : pma_ip hwpm = some pma) (hrtr : rtr_ip hwpm = some rtr)
    (hpr : pma.reserved = true) (hrr : rtr.reserved = true)
    (hin : hw.fields_in_masks) :
    (t234_hwpm_disable_slcg hw hwpm).1 = 0 ∧ (t234_hwpm_enable_slcg hw hwpm).1 = 0 ∧
    (t234_hwpm_enable_slcg hw (t234_hwpm_disable_slcg hw hwpm).2).1 = 0 ∧
    (t234_hwpm_disable_slcg hw (t234_hwpm_enable_slcg hw hwpm).2).1 = 0 ∧
    (t234_hwpm_enable_slcg hw (t234_hwpm_disable_slcg hw hwpm).2).2.regs
      = (t234_hwpm_enable_slcg hw hwpm).2.regs ∧
    (t234_hwpm_disable_slcg hw (t234_hwpm_enable_slcg hw hwpm).2).2.regs
      = (t234_hwpm_disable_slcg hw hwpm).2.regs ∧
    (t234_hwpm_disable_slcg hw (t234_hwpm_disable_slcg hw hwpm).2).2.regs
      = (t234_hwpm_disable_slcg hw hwpm).2.regs ∧
    (t234_hwpm_enable_slcg hw (t234_hwpm_enable_slcg hw hwpm).2).2.regs
      = (t234_hwpm_enable_slcg hw hwpm).2.regs ∧
    ((∀ pa r, hwpm.regs pa r < 2 ^ 32) →
      ∀ (pa r i : Nat),
        ((((t234_hwpm_disable_slcg hw hwpm).2.regs pa r).testBit i ≠ (hwpm.regs pa r).testBit i ∨
          ((t234_hwpm_enable_slcg hw hwpm).2.regs pa r).testBit i ≠ (hwpm.regs pa r).testBit i) →
        in_field (perfmux_slot0 pma) hw.pmasys_cg2_r hw.pmasys_cg2_slcg_m pa r i ∨
        in_field (perfmux_static0 rtr) hw.pmmsys_sys0router_cg2_r hw.rtr_cg2_mask pa r i)) := by
  obtain ⟨c, hc, hp⟩ := pma_ip_eq_some hpma
  obtain ⟨c2, hc2, hr⟩ := rtr_ip_eq_some hrtr
  rw [hc] at hc2
  cases hc2
  obtain ⟨i1, i2, i3, i4, i5, i6, i7, i8⟩ := hin
  have hD : hw.rtr_cg2_disabled &&& hw.rtr_cg2_mask = hw.rtr_cg2_disabled :=
    or3_in_masks i3 i4 i5
  have hE : hw.rtr_cg2_prod &&& hw.rtr_cg2_mask = hw.rtr_cg2_prod := or3_in_masks i6 i7 i8
  have hdis : ∀ s : tegra_soc_hwpm W, s.active_chip = some c →
      t234_hwpm_disable_slcg hw s = (0, disable_slcg_writes hw s pma rtr) := by
    intro s hs
    simp [t234_hwpm_disable_slcg, hs, hp, hpr, hr, hrr]
  have hen : ∀ s : tegra_soc_hwpm W, s.active_chip = some c →
      t234_hwpm_enable_slcg hw s = (0, enable_slcg_writes hw s pma rtr) := by
    intro s hs
    simp [t234_hwpm_enable_slcg, hs, hp, hpr, hr, hrr]
  have hcd : (disable_slcg_writes hw hwpm pma rtr).active_chip = some c := by
    rw [disable_slcg_writes_chip, hc]
  have hce : (enable_slcg_writes hw hwpm pma rtr).active_chip = some c := by
    rw [enable_slcg_writes_chip, hc]
  rw [hdis hwpm hc, hen hwpm hc]
  simp only [hdis _ hce, hen _ hcd, hdis _ hcd, hen _ hce, disable_slcg_writes_regs,
    enable_slcg_writes_regs]
  refine ⟨trivial, trivial, trivial, trivial, rmw_overwrite _ _ _ _ _ _ _ _ _ _ _ i1 hD,
    rmw_overwrite _ _ _ _ _ _ _ _ _ _ _ i2 hE, rmw_overwrite _ _ _ _ _ _ _ _ _ _ _ i1 hD,
    rmw_overwrite _ _ _ _ _ _ _ _ _ _ _ i2 hE, ?_⟩
  intro hR pa r i hne
  rcases hne with h | h
  · exact rmw_outside _ hR _ _ _ _ _ _ _ _ i1 hD pa r i h
  · exact rmw_outside _ hR _ _ _ _ _ _ _ _ i2 hE pa r i h

/-- C19, witness: on the state whose SLCG fields hold the disabled encodings,
`disable_slcg` then `enable_slcg` leaves the registers `enable_slcg` alone
leaves (0x10 in the PMA register, the fields cleared), and `enable_slcg` then
`disable_slcg` leaves those `disable_slcg` alone leaves (0x11). -/
theorem slcg_toggles_overwrite_witness :
    pma_ip ex_slcg_gated_off = some ex_pma_on ∧ rtr_ip ex_slcg_gated_off = some ex_rtr_on ∧
    ex_pma_on.reserved = true ∧ ex_rtr_on.reserved = true ∧ ex_slcg_regs.fields_in_masks ∧
    (t234_hwpm_enable_slcg ex_slcg_regs
        (t234_hwpm_disable_slcg ex_slcg_regs ex_slcg_gated_off).2).2.regs
      = (t234_hwpm_enable_slcg ex_slcg_regs ex_slcg_gated_off).2.regs ∧
    (t234_hwpm_enable_slcg ex_slcg_regs ex_slcg_gated_off).2.regs 0x0f14a000 0x0f14a044
      = 0x10 ∧
    (t234_hwpm_disable_slcg ex_slcg_regs
        (t234_hwpm_enable_slcg ex_slcg_regs ex_slcg_gated_off).2).2.regs
      = (t234_hwpm_disable_slcg ex_slcg_regs ex_slcg_gated_off).2.regs ∧
    (t234_hwpm_disable_slcg ex_slcg_regs ex_slcg_gated_off).2.regs 0x0f14a000 0x0f14a044
      = 0x11 :=
  have hin : ex_slcg_regs.fields_in_masks := by
    unfold SlcgRegs.fields_in_masks
    decide
  have h := slcg_toggles_overwrite ex_slcg_regs ex_slcg_gated_off ex_pma_on ex_rtr_on
    rfl rfl rfl rfl hin
  ⟨rfl, rfl, rfl, rfl, hin, h.2.2.2.2.1, by decide, h.2.2.2.2.2.1, by decide⟩

/-! ## C13: the block invariant -/

theorem block_inv_step {T : SlotKind → Nat → Prop} {ip : IpId} {res res2 : Bool}
    {tr new : List Event} (hinv : block_inv T ip res tr)
    (hout : step_outcome T ip res res2 new) : block_inv T ip res2 (tr ++ new) := by
  obtain ⟨i1, i2⟩ := hinv
  rcases hout with ⟨hres, hno⟩ | ⟨hres, hall⟩ | ⟨hres, hres2, hbef⟩ | ⟨hres, hall⟩ |
    ⟨hres, kind, i, ret, hret, hmem⟩
  · subst hres
    constructor
    · intro hr hnf kind i hT
      unfold slot_reserved
      rw [sub_state_append, sub_state_untouched _ _ _ _ _ (fun op => hno op kind i)]
      exact i1 hr (fun k j e hm => hnf k j e (List.mem_append_left _ hm)) kind i hT
    · intro hr kind i hT hmax
      unfold slot_reserved
      rw [sub_state_append, sub_state_untouched _ _ _ _ _ (fun op => hno op kind i)]
      exact i2 hr kind i hT hmax
  · constructor
    · intro _ _ kind i hT
      unfold slot_reserved
      rw [sub_state_append]
      have h := sub_state_last ip kind i SubOp.reserve new (sub_state ip kind i false tr)
        (hall kind i hT).2 (hall kind i hT).1
      simpa using h
    · intro hr; rw [hres] at hr; exact absurd hr (by decide)
  · constructor
    · intro hr; rw [hres2] at hr; exact absurd hr (by decide)
    · intro _ kind i hT hmax
      unfold slot_reserved
      rw [sub_state_append]
      have h0 : sub_state ip kind i false tr = false := i2 hres kind i hT hmax
      rw [h0]
      have h := sub_state_only ip kind i SubOp.release new (by
        intro op hm
        cases op with
        | release => rfl
        | reserve =>
          obtain ⟨k2, j, hT2, hb⟩ := hbef kind i hm
          exact absurd hb (hmax k2 j hT2))
      simpa using h
  · constructor
    · intro hr; rw [hres] at hr; exact absurd hr (by decide)
    · intro _ kind i hT _
      unfold slot_reserved
      rw [sub_state_append]
      have h := sub_state_last ip kind i SubOp.release new (sub_state ip kind i false tr)
        (hall kind i hT).2 (hall kind i hT).1
      simpa using h
  · constructor
    · intro _ hnf
      exact absurd (hnf kind i ret (List.mem_append_right _ hmem)) hret
    · intro hr; rw [hres] at hr; exact absurd hr (by decide)

theorem slot_key_present_iff {a b : List (Option hwpm_ip_perfmux)}
    (h : a.map slot_key = b.map slot_key) (i : Nat) :
    (∃ p, a[i]? = some (some p)) ↔ (∃ p, b[i]? = some (some p)) := by
  constructor
  · rintro ⟨p, hp⟩
    obtain ⟨q, hq, -, -⟩ := slot_key_present h.symm i p hp
    exact ⟨q, hq⟩
  · rintro ⟨p, hp⟩
    obtain ⟨q, hq, -, -⟩ := slot_key_present h i p hp
    exact ⟨q, hq⟩

theorem perfmux_slot0_eq (ip : hwpm_ip) (p : hwpm_ip_perfmux) :
    perfmux_slot0 ip = some p ↔ ip.ip_perfmux[0]? = some (some p) := by
  unfold perfmux_slot0
  cases ip.ip_perfmux with
  | nil => simp
  | cons a rest => simp

theorem perfmux_slot0_key {a b : hwpm_ip}
    (h : a.ip_perfmux.map slot_key = b.ip_perfmux.map slot_key) (p : hwpm_ip_perfmux)
    (hp : perfmux_slot0 b = some p) :
    ∃ q, perfmux_slot0 a = some q ∧ q.start_abs_pa = p.start_abs_pa := by
  obtain ⟨q, hq, hk, -⟩ := slot_key_present h 0 p ((perfmux_slot0_eq b p).1 hp)
  exact ⟨q, (perfmux_slot0_eq a q).2 hq, hk⟩

theorem tracked_congr_one {pma pma2 rtr rtr2 : hwpm_ip}
    (h1 : pma2.ip_perfmux.map slot_key = pma.ip_perfmux.map slot_key)
    (h2 : pma2.ip_perfmon.map slot_key = pma.ip_perfmon.map slot_key)
    (h3 : rtr2.ip_perfmux.map slot_key = rtr.ip_perfmux.map slot_key)
    (ip : IpId) (kind : SlotKind) (i : Nat) :
    tracked pma rtr ip kind i → tracked pma2 rtr2 ip kind i := by
  cases ip <;> cases kind
  · exact (slot_key_present_iff h1 i).2
  · exact (slot_key_present_iff h2 i).2
  · rintro ⟨p, q, hp, hq, ha⟩
    obtain ⟨p2, hp2, hpk⟩ := perfmux_slot0_key h1 p hp
    obtain ⟨q2, hq2, hqk, -⟩ := slot_key_present h3 i q hq
    refine ⟨p2, q2, hp2, hq2, ?_⟩
    simpa [aliases, hpk, hqk] using ha
  · exact id

theorem tracked_congr {pma pma2 rtr rtr2 : hwpm_ip}
    (h1 : pma2.ip_perfmux.map slot_key = pma.ip_perfmux.map slot_key)
    (h2 : pma2.ip_perfmon.map slot_key = pma.ip_perfmon.map slot_key)
    (h3 : rtr2.ip_perfmux.map slot_key = rtr.ip_perfmux.map slot_key)
    (ip : IpId) (kind : SlotKind) (i : Nat) :
    tracked pma2 rtr2 ip kind i ↔ tracked pma rtr ip kind i :=
  ⟨tracked_congr_one h1.symm h2.symm h3.symm ip kind i, tracked_congr_one h1 h2 h3 ip kind i⟩

theorem block_inv_congr {T T2 : SlotKind → Nat → Prop} {ip : IpId} {res : Bool}
    {tr : List Event} (h : ∀ kind i, T2 kind i ↔ T kind i) (hinv : block_inv T ip res tr) :
    block_inv T2 ip res tr := by
  obtain ⟨i1, i2⟩ := hinv
  constructor
  · intro hr hnf kind i hT
    exact i1 hr hnf kind i ((h kind i).1 hT)
  · intro hr kind i hT hmax
    exact i2 hr kind i ((h kind i).1 hT) (fun k2 j hT2 => hmax k2 j ((h k2 j).2 hT2))

theorem exists_greatest {P : Nat → Prop} :
    ∀ (n : Nat), (∀ j, P j → j < n) → (∃ i, P i) → ∃ m, P m ∧ ∀ j, P j → j ≤ m := by
  intro n
  induction n with
  | zero =>
    rintro hb ⟨i, hi⟩
    exact absurd (hb i hi) (Nat.not_lt_zero _)
  | succ n ih =>
    intro hb hex
    by_cases hn : P n
    · exact ⟨n, hn, fun j hj => Nat.lt_succ_iff.mp (hb j hj)⟩
    · apply ih _ hex
      intro j hj
      have := hb j hj
      have hne : j ≠ n := fun e => hn (e ▸ hj)
      omega

theorem exists_last_slot {T : SlotKind → Nat → Prop} (n : Nat)
    (hb : ∀ kind i, T kind i → i < n) (hex : ∃ kind i, T kind i) :
    ∃ kind i, T kind i ∧ ∀ kind2 j, T kind2 j → ¬ slot_before kind i kind2 j := by
  by_cases hmon : ∃ i, T SlotKind.perfmon i
  · obtain ⟨m, hm, hmax⟩ := exists_greatest n (fun j hj => hb _ j hj) hmon
    refine ⟨SlotKind.perfmon, m, hm, ?_⟩
    rintro kind2 j hT (⟨h, -⟩ | ⟨rfl, hlt⟩)
    · exact absurd h (by decide)
    · exact absurd (hmax j hT) (by omega)
  · have hmux : ∃ i, T SlotKind.perfmux i := by
      obtain ⟨kind, i, hT⟩ := hex
      cases kind with
      | perfmux => exact ⟨i, hT⟩
      | perfmon => exact absurd ⟨i, hT⟩ hmon
    obtain ⟨m, hm, hmax⟩ := exists_greatest n (fun j hj => hb _ j hj) hmux
    refine ⟨SlotKind.perfmux, m, hm, ?_⟩
    rintro kind2 j hT (⟨-, rfl⟩ | ⟨rfl, hlt⟩)
    · exact hmon ⟨j, hT⟩
    · exact absurd (hmax j hT) (by omega)

theorem tracked_bound (pma rtr : hwpm_ip) (ip : IpId) (kind : SlotKind) (i : Nat)
    (h : tracked pma rtr ip kind i) :
    i < pma.ip_perfmux.length + pma.ip_perfmon.length + rtr.ip_perfmux.length := by
  cases ip <;> cases kind
  · obtain ⟨p, hp⟩ := h
    have := (List.getElem?_eq_some_iff.mp hp).1
    omega
  · obtain ⟨p, hp⟩ := h
    have := (List.getElem?_eq_some_iff.mp hp).1
    omega
  · obtain ⟨p, q, -, hq, -⟩ := h
    have := (List.getElem?_eq_some_iff.mp hq).1
    omega
  · exact absurd h id

theorem blocks_inv_step {W : Type} {s s2 : tegra_soc_hwpm W} (hinv : blocks_inv s)
    (hout : call_outcome s s2) : blocks_inv s2 := by
  intro pma2 rtr2 hp2 hr2 ip
  obtain ⟨pma, rtr, new, hp, hr, htr, hT, hstep⟩ := hout pma2 rtr2 hp2 hr2
  rw [htr]
  exact block_inv_congr (hT ip) (block_inv_step (hinv pma rtr hp hr ip) (hstep ip))

theorem call_outcome_refl {W : Type} (s : tegra_soc_hwpm W) : call_outcome s s := by
  intro pma rtr hp hr
  refine ⟨pma, rtr, [], hp, hr, by simp, fun _ _ _ => Iff.rfl, fun ip => Or.inl ⟨rfl, ?_⟩⟩
  intro op kind i h
  simp at h

theorem run_op_none {W : Type} (ops : SubOps W) (op : Op) (s : tegra_soc_hwpm W)
    (h : pma_ip s = none) : run_op ops op s = none := by
  unfold pma_ip at h
  cases hc : s.active_chip with
  | none =>
    cases op <;>
      simp [run_op, t234_hwpm_reserve_pma, t234_hwpm_release_pma, t234_hwpm_reserve_rtr,
        t234_hwpm_release_rtr, hc]
  | some c =>
    simp only [hc] at h
    cases op <;>
      simp [run_op, t234_hwpm_reserve_pma, t234_hwpm_release_pma, t234_hwpm_reserve_rtr,
        t234_hwpm_release_rtr, hc, h]

theorem not_mem_expected_of_ip {calls : hwpm_ip_perfmux → Bool} {op : SubOp} {ip : IpId}
    {kind : SlotKind} {slots : List (Option hwpm_ip_perfmux)} {idx : Nat}
    {o : SubOp} {i : IpId} {kd : SlotKind} {j : Nat} {e : Int} (hne : i ≠ ip) :
    Event.call o i kd j e ∉ expected_calls calls op ip kind idx slots :=
  fun h => hne (expected_calls_event h).2.1

theorem expected_take_lt {calls : hwpm_ip_perfmux → Bool} {op : SubOp} {ip : IpId}
    {kind : SlotKind} {slots : List (Option hwpm_ip_perfmux)} {k : Nat}
    {o : SubOp} {i : IpId} {kd : SlotKind} {j : Nat} {e : Int}
    (h : Event.call o i kd j e ∈ expected_calls calls op ip kind 0 (slots.take k)) :
    kd = kind ∧ j < k := by
  obtain ⟨-, -, h3, -, n, p, hn, -, rfl⟩ := expected_calls_event h
  refine ⟨h3, ?_⟩
  have := (List.getElem?_eq_some_iff.mp hn).1
  simp at this
  omega

theorem reserve_pma_outcome {W : Type} (ops : SubOps W) (s s2 : tegra_soc_hwpm W) (r : Int)
    (h : t234_hwpm_reserve_pma ops s = some (r, s2)) : call_outcome s s2 := by
  cases hpm : pma_ip s with
  | none =>
    have := run_op_none ops Op.reserve_pma s hpm
    simp [run_op, h] at this
  | some pma =>
    by_cases hres : pma.reserved = true
    · obtain ⟨c, hc, hp⟩ := pma_ip_eq_some hpm
      have h0 : t234_hwpm_reserve_pma ops s = some (0, s) := by
        simp [t234_hwpm_reserve_pma, hc, hp, hres]
      rw [h0] at h
      simp only [Option.some.injEq, Prod.mk.injEq] at h
      rw [← h.2]
      exact call_outcome_refl s
    · have hres : pma.reserved = false := by simpa using hres
      obtain ⟨r0, s0, pma0, hrun, htr, hp0, hrt, hk1, hk2, hcases⟩ :=
        reserve_pma_cases ops s pma hpm hres
      rw [hrun] at h
      simp only [Option.some.injEq, Prod.mk.injEq] at h
      obtain ⟨rfl, rfl⟩ := h
      intro pma2 rtr2 hp2 hr2
      rw [hp0] at hp2
      cases hp2
      refine ⟨pma, rtr2, new_events s.trace s0.trace, hpm, by rw [← hrt, hr2], htr,
        tracked_congr hk1 hk2 rfl, ?_⟩
      rcases hcases with ⟨k, p, hk, hr, hnew, hres2, -⟩ |
        ⟨k, p, evs3, hk, hr, hnew, hev3, -, hres2⟩ | ⟨hr, hnew, hres2, -⟩
      · intro ip
        cases ip with
        | pma =>
          refine Or.inr (Or.inr (Or.inl ⟨hres, hres2, ?_⟩))
          intro kind i hm
          rw [hnew] at hm
          simp only [List.mem_append, List.mem_singleton] at hm
          rcases hm with hm | hm
          · obtain ⟨rfl, hlt⟩ := expected_take_lt hm
            exact ⟨SlotKind.perfmux, k, ⟨p, hk⟩, Or.inr ⟨rfl, hlt⟩⟩
          · simp only [Event.call.injEq, true_and] at hm
            exact absurd hm.2.2.symm hr
        | rtr =>
          refine Or.inl ⟨rfl, ?_⟩
          intro op kind i hm
          rw [hnew] at hm
          simp only [List.mem_append, List.mem_singleton] at hm
          rcases hm with hm | hm
          · exact not_mem_expected_of_ip (by decide) hm
          · simp at hm
      · intro ip
        cases ip with
        | pma =>
          refine Or.inr (Or.inr (Or.inl ⟨hres, hres2, ?_⟩))
          intro kind i hm
          rw [hnew] at hm
          simp only [List.mem_append, List.mem_singleton] at hm
          rcases hm with (hm | hm | hm) | hm
          · obtain ⟨-, -, rfl, -⟩ := expected_calls_event hm
            exact ⟨SlotKind.perfmon, k, ⟨p, hk⟩, Or.inl ⟨rfl, rfl⟩⟩
          · obtain ⟨rfl, hlt⟩ := expected_take_lt hm
            exact ⟨SlotKind.perfmon, k, ⟨p, hk⟩, Or.inr ⟨rfl, hlt⟩⟩
          · simp only [Event.call.injEq, true_and] at hm
            exact absurd hm.2.2.symm hr
          · obtain ⟨j, q, ret, -, hq⟩ := hev3 _ hm
            simp at hq
        | rtr =>
          refine Or.inl ⟨rfl, ?_⟩
          intro op kind i hm
          rw [hnew] at hm
          simp only [List.mem_append, List.mem_singleton] at hm
          rcases hm with (hm | hm | hm) | hm
          · exact not_mem_expected_of_ip (by decide) hm
          · exact not_mem_expected_of_ip (by decide) hm
          · simp at hm
          · obtain ⟨j, q, ret, -, hq⟩ := hev3 _ hm
            simp at hq
      · intro ip
        cases ip with
        | pma =>
          refine Or.inr (Or.inl ⟨hres2, ?_⟩)
          intro kind i hT
          have hall : ∀ (op : SubOp),
              Event.call op IpId.pma kind i 0 ∈ new_events s.trace s0.trace →
              op = SubOp.reserve := by
            intro op hm
            rw [hnew] at hm
            simp only [List.mem_append] at hm
            rcases hm with hm | hm <;> exact (expected_calls_event hm).1
          refine ⟨?_, hall⟩
          rw [hnew]
          cases kind with
          | perfmux =>
            obtain ⟨q, hq⟩ := hT
            have := @mem_expected_calls (fun _ => true) SubOp.reserve IpId.pma
              SlotKind.perfmux pma.ip_perfmux 0 i q hq rfl
            exact List.mem_append_left _ (by simpa using this)
          | perfmon =>
            obtain ⟨q, hq⟩ := hT
            have := @mem_expected_calls (fun _ => true) SubOp.reserve IpId.pma
              SlotKind.perfmon pma.ip_perfmon 0 i q hq rfl
            exact List.mem_append_right _ (by simpa using this)
        | rtr =>
          refine Or.inl ⟨rfl, ?_⟩
          intro op kind i hm
          rw [hnew] at hm
          simp only [List.mem_append] at hm
          rcases hm with hm | hm <;> exact not_mem_expected_of_ip (by decide) hm

theorem release_pma_outcome {W : Type} (ops : SubOps W) (s s2 : tegra_soc_hwpm W) (r : Int)
    (h : t234_hwpm_release_pma ops s = some (r, s2)) : call_outcome s s2 := by
  cases hpm : pma_ip s with
  | none =>
    have := run_op_none ops Op.release_pma s hpm
    simp [run_op, h] at this
  | some pma =>
    by_cases hres : pma.reserved = true
    · obtain ⟨r0, s0, pma0, hrun, htr, hp0, hrt, hk1, hk2, hcases⟩ :=
        release_pma_cases ops s pma hpm hres
      rw [hrun] at h
      simp only [Option.some.injEq, Prod.mk.injEq] at h
      obtain ⟨rfl, rfl⟩ := h
      intro pma2 rtr2 hp2 hr2
      rw [hp0] at hp2
      cases hp2
      refine ⟨pma, rtr2, new_events s.trace s0.trace, hpm, by rw [← hrt, hr2], htr,
        tracked_congr hk1 hk2 rfl, ?_⟩
      rcases hcases with ⟨k, p, hk, hr, hnew, hres2, -⟩ |
        ⟨k, p, hk, hr, hnew, hres2, -⟩ | ⟨hr, hnew, hres2, -⟩
      · intro ip
        cases ip with
        | pma =>
          refine Or.inr (Or.inr (Or.inr (Or.inr ⟨hres2, SlotKind.perfmux, k, r0, hr, ?_⟩)))
          rw [hnew]
          simp
        | rtr =>
          refine Or.inl ⟨rfl, ?_⟩
          intro op kind i hm
          rw [hnew] at hm
          simp only [List.mem_append, List.mem_singleton] at hm
          rcases hm with hm | hm
          · exact not_mem_expected_of_ip (by decide) hm
          · simp at hm
      · intro ip
        cases ip with
        | pma =>
          refine Or.inr (Or.inr (Or.inr (Or.inr ⟨hres2, SlotKind.perfmon, k, r0, hr, ?_⟩)))
          rw [hnew]
          simp
        | rtr =>
          refine Or.inl ⟨rfl, ?_⟩
          intro op kind i hm
          rw [hnew] at hm
          simp only [List.mem_append, List.mem_singleton] at hm
          rcases hm with hm | hm | hm
          · exact not_mem_expected_of_ip (by decide) hm
          · exact not_mem_expected_of_ip (by decide) hm
          · simp at hm
      · intro ip
        cases ip with
        | pma =>
          refine Or.inr (Or.inr (Or.inr (Or.inl ⟨hres2, ?_⟩)))
          intro kind i hT
          have hall : ∀ (op : SubOp),
              Event.call op IpId.pma kind i 0 ∈ new_events s.trace s0.trace →
              op = SubOp.release := by
            intro op hm
            rw [hnew] at hm
            simp only [List.mem_append] at hm
            rcases hm with hm | hm <;> exact (expected_calls_event hm).1
          refine ⟨?_, hall⟩
          rw [hnew]
          cases kind with
          | perfmux =>
            obtain ⟨q, hq⟩ := hT
            have := @mem_expected_calls (fun _ => true) SubOp.release IpId.pma
              SlotKind.perfmux pma.ip_perfmux 0 i q hq rfl
            exact List.mem_append_left _ (by simpa using this)
          | perfmon =>
            obtain ⟨q, hq⟩ := hT
            have := @mem_expected_calls (fun _ => true) SubOp.release IpId.pma
              SlotKind.perfmon pma.ip_perfmon 0 i q hq rfl
            exact List.mem_append_right _ (by simpa using this)
        | rtr =>
          refine Or.inl ⟨rfl, ?_⟩
          intro op kind i hm
          rw [hnew] at hm
          simp only [List.mem_append] at hm
          rcases hm with hm | hm <;> exact not_mem_expected_of_ip (by decide) hm
    · have hres : pma.reserved = false := by simpa using hres
      obtain ⟨c, hc, hp⟩ := pma_ip_eq_some hpm
      have h0 : t234_hwpm_release_pma ops s = some (0, s) := by
        simp [t234_hwpm_release_pma, hc, hp, hres]
      rw [h0] at h
      simp only [Option.some.injEq, Prod.mk.injEq] at h
      rw [← h.2]
      exact call_outcome_refl s

theorem release_rtr_cases {W : Type} (ops : SubOps W) (hwpm : tegra_soc_hwpm W)
    (pma rtr : hwpm_ip) (p : hwpm_ip_perfmux)
    (hpma : pma_ip hwpm = some pma) (hrtr : rtr_ip hwpm = some rtr)
    (hpr : pma.reserved = true) (hrr : rtr.reserved = true)
    (hp0 : perfmux_slot0 pma = some p) :
    ∃ r s rtr2, t234_hwpm_release_rtr ops hwpm = some (r, s) ∧
      s.trace = hwpm.trace ++ new_events hwpm.trace s.trace ∧
      rtr_ip s = some rtr2 ∧ pma_ip s = some pma ∧
      rtr2.ip_perfmux.map slot_key = rtr.ip_perfmux.map slot_key ∧
      ((∃ (k : Nat) (q : hwpm_ip_perfmux), rtr.ip_perfmux[k]? = some (some q) ∧
          aliases p q = false ∧ r ≠ 0 ∧
          new_events hwpm.trace s.trace =
            expected_calls (fun x => !aliases p x) SubOp.release IpId.rtr SlotKind.perfmux 0
              (rtr.ip_perfmux.take k) ++
            [Event.call SubOp.release IpId.rtr SlotKind.perfmux k r] ∧
          rtr2.reserved = true ∧
          rtr2.fs_mask = and_not_masks rtr.fs_mask (rtr.ip_perfmux.take k)) ∨
       (r = 0 ∧
          new_events hwpm.trace s.trace =
            expected_calls (fun x => !aliases p x) SubOp.release IpId.rtr SlotKind.perfmux 0
              rtr.ip_perfmux ∧
          rtr2.reserved = false ∧
          rtr2.fs_mask = and_not_masks rtr.fs_mask rtr.ip_perfmux)) := by
  obtain ⟨c, hc, hp⟩ := pma_ip_eq_some hpma
  obtain ⟨c2, hc2, hr⟩ := rtr_ip_eq_some hrtr
  rw [hc] at hc2
  cases hc2
  obtain ⟨-, -, -, -, -, -, hk1⟩ :=
    for_each_slot_runs (release_rtr_body_spec ops hwpm.fake_registers_enabled p)
      rtr.ip_perfmux 0 ⟨0, rtr.fs_mask, hwpm.world, hwpm.trace⟩
  obtain ⟨hs1f, hs1t⟩ := for_each_slot_stop
    (release_rtr_body_spec ops hwpm.fake_registers_enabled p)
    (release_rtr_body_mask ops hwpm.fake_registers_enabled p) rtr.ip_perfmux 0
    ⟨0, rtr.fs_mask, hwpm.world, hwpm.trace⟩ _ rfl
  generalize hl1 : for_each_slot (release_rtr_body ops hwpm.fake_registers_enabled p) 0
      rtr.ip_perfmux ⟨0, rtr.fs_mask, hwpm.world, hwpm.trace⟩ = l1 at hk1 hs1f hs1t
  simp only at hs1f hs1t
  cases h1 : l1.1 with
  | true =>
    obtain ⟨k, q, g1, g2, g3, g4, g5, -, -⟩ := hs1t h1
    refine ⟨l1.2.2.ret,
      store_rtr hwpm c { rtr with ip_perfmux := l1.2.1, fs_mask := l1.2.2.fs_mask } l1.2.2,
      { rtr with ip_perfmux := l1.2.1, fs_mask := l1.2.2.fs_mask },
      by simp [t234_hwpm_release_rtr, hc, hp, hpr, hr, hrr, hp0, hl1, h1], trace_ext g4, rfl,
      by simp [hp], hk1, Or.inl ⟨k, q, g1, by simpa using g2, g3, ?_, hrr, ?_⟩⟩
    · simp [store_rtr, g4, new_events_append]
    · simp only [g5]
      exact and_not_masks_eq_fold _ _
  | false =>
    obtain ⟨f1, f2, -⟩ := hs1f h1
    refine ⟨0,
      store_rtr hwpm c { rtr with ip_perfmux := l1.2.1, fs_mask := l1.2.2.fs_mask,
                                  reserved := false } l1.2.2,
      { rtr with ip_perfmux := l1.2.1, fs_mask := l1.2.2.fs_mask, reserved := false },
      by simp [t234_hwpm_release_rtr, hc, hp, hpr, hr, hrr, hp0, hl1, h1], trace_ext f1,
      rfl, by simp [hp], hk1, Or.inr ⟨rfl, ?_, rfl, ?_⟩⟩
    · simp [store_rtr, f1, new_events_append]
    · simp only [f2]
      exact and_not_masks_eq_fold _ _

theorem rtr_loop_outcome {W : Type} {s s0 : tegra_soc_hwpm W} {pma rtr rtr0 : hwpm_ip}
    {p : hwpm_ip_perfmux} {o : SubOp} {r0 : Int} {resf ress : Bool}
    (hpm : pma_ip s = some pma) (hrm : rtr_ip s = some rtr)
    (hs0 : perfmux_slot0 pma = some p)
    (htr : s0.trace = s.trace ++ new_events s.trace s0.trace)
    (hr0 : rtr_ip s0 = some rtr0) (hp0 : pma_ip s0 = some pma)
    (hk : rtr0.ip_perfmux.map slot_key = rtr.ip_perfmux.map slot_key)
    (hcases :
      (∃ (k : Nat) (q : hwpm_ip_perfmux), rtr.ip_perfmux[k]? = some (some q) ∧
          aliases p q = false ∧ r0 ≠ 0 ∧
          new_events s.trace s0.trace =
            expected_calls (fun x => !aliases p x) o IpId.rtr SlotKind.perfmux 0
              (rtr.ip_perfmux.take k) ++
            [Event.call o IpId.rtr SlotKind.perfmux k r0] ∧
          rtr0.reserved = resf) ∨
       (new_events s.trace s0.trace =
            expected_calls (fun x => !aliases p x) o IpId.rtr SlotKind.perfmux 0
              rtr.ip_perfmux ∧
          rtr0.reserved = ress))
    (hfail : ∀ (k : Nat) (q : hwpm_ip_perfmux), rtr.ip_perfmux[k]? = some (some q) →
      aliases p q = false → r0 ≠ 0 → rtr0.reserved = resf →
      new_events s.trace s0.trace =
        expected_calls (fun x => !aliases p x) o IpId.rtr SlotKind.perfmux 0
          (rtr.ip_perfmux.take k) ++ [Event.call o IpId.rtr SlotKind.perfmux k r0] →
      step_outcome (tracked pma rtr IpId.rtr) IpId.rtr rtr.reserved rtr0.reserved
        (new_events s.trace s0.trace))
    (hsucc : rtr0.reserved = ress →
      (∀ (kind : SlotKind) (i : Nat), tracked pma rtr IpId.rtr kind i →
        Event.call o IpId.rtr kind i 0 ∈ new_events s.trace s0.trace ∧
        ∀ (op : SubOp), Event.call op IpId.rtr kind i 0 ∈ new_events s.trace s0.trace →
          op = o) →
      step_outcome (tracked pma rtr IpId.rtr) IpId.rtr rtr.reserved rtr0.reserved
        (new_events s.trace s0.trace)) :
    call_outcome s s0 := by
  intro pma2 rtr2 hp2 hr2
  rw [hp0] at hp2
  rw [hr0] at hr2
  cases hp2
  cases hr2
  refine ⟨pma, rtr, new_events s.trace s0.trace, hpm, hrm, htr, tracked_congr rfl rfl hk, ?_⟩
  intro ip
  cases ip with
  | pma =>
    refine Or.inl ⟨rfl, ?_⟩
    intro op kind i hm
    rcases hcases with ⟨k, q, -, -, -, hnew, -⟩ | ⟨hnew, -⟩
    · rw [hnew] at hm
      simp only [List.mem_append, List.mem_singleton] at hm
      rcases hm with hm | hm
      · exact not_mem_expected_of_ip (by decide) hm
      · simp at hm
    · rw [hnew] at hm
      exact not_mem_expected_of_ip (by decide) hm
  | rtr =>
    rcases hcases with ⟨k, q, hkq, hal, hr, hnew, hres⟩ | ⟨hnew, hres⟩
    · exact hfail k q hkq hal hr hres hnew
    · apply hsucc hres
      intro kind i hT
      cases kind with
      | perfmon => exact absurd hT id
      | perfmux =>
        obtain ⟨p2, q, hp2, hq, ha⟩ := hT
        rw [hs0] at hp2
        cases hp2
        rw [hnew]
        refine ⟨?_, fun op hm => (expected_calls_event hm).1⟩
        have := @mem_expected_calls (fun x => !aliases p x) o IpId.rtr
          SlotKind.perfmux rtr.ip_perfmux 0 i q hq (by simp [ha])
        simpa using this

theorem rtr_flag_outcome {W : Type} {s : tegra_soc_hwpm W} {c : tegra_soc_hwpm_chip}
    {pma rtr : hwpm_ip} (res : Bool) (hc : s.active_chip = some c) (hp : c.ip_pma = some pma)
    (hr : c.ip_rtr = some rtr) (hs0 : perfmux_slot0 pma = none) :
    call_outcome s
      (store_rtr s c { rtr with reserved := res } ⟨0, rtr.fs_mask, s.world, s.trace⟩) := by
  intro pma2 rtr2 hp2 hr2
  simp only [pma_ip_store_rtr, rtr_ip_store_rtr, Option.some.injEq] at hp2 hr2
  rw [hp] at hp2
  cases hp2
  subst hr2
  refine ⟨pma, rtr, [], by simp [pma_ip, hc, hp], by simp [rtr_ip, hc, hr],
    by simp [store_rtr], tracked_congr rfl rfl rfl, ?_⟩
  intro ip
  cases ip with
  | pma =>
    refine Or.inl ⟨rfl, ?_⟩
    intro op kind i hm
    simp at hm
  | rtr =>
    have hT : ∀ (kind : SlotKind) (i : Nat), ¬ tracked pma rtr IpId.rtr kind i := by
      intro kind i hT
      cases kind with
      | perfmon => exact hT
      | perfmux =>
        obtain ⟨p2, q, hp2, -, -⟩ := hT
        rw [hs0] at hp2
        cases hp2
    cases res with
    | true => exact Or.inr (Or.inl ⟨rfl, fun kind i h => absurd h (hT kind i)⟩)
    | false =>
      exact Or.inr (Or.inr (Or.inr (Or.inl ⟨rfl, fun kind i h => absurd h (hT kind i)⟩)))

theorem reserve_rtr_outcome {W : Type} (ops : SubOps W) (s s2 : tegra_soc_hwpm W) (r : Int)
    (h : t234_hwpm_reserve_rtr ops s = some (r, s2)) : call_outcome s s2 := by
  cases hpm : pma_ip s with
  | none =>
    have := run_op_none ops Op.reserve_rtr s hpm
    simp [run_op, h] at this
  | some pma =>
    obtain ⟨c, hc, hp⟩ := pma_ip_eq_some hpm
    by_cases hpr : pma.reserved = true
    swap
    · have hpr : pma.reserved = false := by simpa using hpr
      have h0 : t234_hwpm_reserve_rtr ops s = some (-EINVAL, s) := by
        simp [t234_hwpm_reserve_rtr, hc, hp, hpr]
      rw [h0] at h
      simp only [Option.some.injEq, Prod.mk.injEq] at h
      rw [← h.2]
      exact call_outcome_refl s
    cases hr : c.ip_rtr with
    | none => simp [t234_hwpm_reserve_rtr, hc, hp, hpr, hr] at h
    | some rtr =>
      have hrm : rtr_ip s = some rtr := by simp [rtr_ip, hc, hr]
      by_cases hrr : rtr.reserved = true
      · have h0 : t234_hwpm_reserve_rtr ops s = some (0, s) := by
          simp [t234_hwpm_reserve_rtr, hc, hp, hpr, hr, hrr]
        rw [h0] at h
        simp only [Option.some.injEq, Prod.mk.injEq] at h
        rw [← h.2]
        exact call_outcome_refl s
      have hrr : rtr.reserved = false := by simpa using hrr
      cases hs0 : perfmux_slot0 pma with
      | none =>
        by_cases hps : has_present_slot rtr.ip_perfmux = true
        · simp [t234_hwpm_reserve_rtr, hc, hp, hpr, hr, hrr, hs0, hps] at h
        · have hps : has_present_slot rtr.ip_perfmux = false := by simpa using hps
          have h0 : t234_hwpm_reserve_rtr ops s = some (0,
              store_rtr s c { rtr with reserved := true }
                ⟨0, rtr.fs_mask, s.world, s.trace⟩) := by
            simp [t234_hwpm_reserve_rtr, hc, hp, hpr, hr, hrr, hs0, hps]
          rw [h0] at h
          simp only [Option.some.injEq, Prod.mk.injEq] at h
          rw [← h.2]
          exact rtr_flag_outcome true hc hp hr hs0
      | some p =>
        obtain ⟨r0, s0, rtr0, hrun, htr, hr0, hp0, hk, -, hcases⟩ :=
          reserve_rtr_cases ops s pma rtr p hpm hrm hpr hrr hs0
        rw [hrun] at h
        simp only [Option.some.injEq, Prod.mk.injEq] at h
        obtain ⟨rfl, rfl⟩ := h
        refine @rtr_loop_outcome _ _ _ _ _ _ _ SubOp.reserve r0 false true
          hpm hrm hs0 htr hr0 hp0 hk ?_ ?_ ?_
        · rcases hcases with ⟨k, q, h1, h2, h3, h4, h5, -⟩ | ⟨-, h4, h5, -⟩
          · exact Or.inl ⟨k, q, h1, h2, h3, h4, h5⟩
          · exact Or.inr ⟨h4, h5⟩
        · intro k q hkq hal hr1 hres hnew
          refine Or.inr (Or.inr (Or.inl ⟨hrr, hres, ?_⟩))
          intro kind i hm
          rw [hnew] at hm
          simp only [List.mem_append, List.mem_singleton] at hm
          rcases hm with hm | hm
          · obtain ⟨rfl, hlt⟩ := expected_take_lt hm
            exact ⟨SlotKind.perfmux, k, ⟨p, q, hs0, hkq, hal⟩, Or.inr ⟨rfl, hlt⟩⟩
          · simp only [Event.call.injEq, true_and] at hm
            exact absurd hm.2.2.symm hr1
        · intro hres hall
          exact Or.inr (Or.inl ⟨hres, hall⟩)

theorem release_rtr_outcome {W : Type} (ops : SubOps W) (s s2 : tegra_soc_hwpm W) (r : Int)
    (h : t234_hwpm_release_rtr ops s = some (r, s2)) : call_outcome s s2 := by
  cases hpm : pma_ip s with
  | none =>
    have := run_op_none ops Op.release_rtr s hpm
    simp [run_op, h] at this
  | some pma =>
    obtain ⟨c, hc, hp⟩ := pma_ip_eq_some hpm
    by_cases hpr : pma.reserved = true
    swap
    · have hpr : pma.reserved = false := by simpa using hpr
      have h0 : t234_hwpm_release_rtr ops s = some (-EINVAL, s) := by
        simp [t234_hwpm_release_rtr, hc, hp, hpr]
      rw [h0] at h
      simp only [Option.some.injEq, Prod.mk.injEq] at h
      rw [← h.2]
      exact call_outcome_refl s
    cases hr : c.ip_rtr with
    | none => simp [t234_hwpm_release_rtr, hc, hp, hpr, hr] at h
    | some rtr =>
      have hrm : rtr_ip s = some rtr := by simp [rtr_ip, hc, hr]
      by_cases hrr : rtr.reserved = true
      swap
      · have hrr : rtr.reserved = false := by simpa using hrr
        have h0 : t234_hwpm_release_rtr ops s = some (0, s) := by
          simp [t234_hwpm_release_rtr, hc, hp, hpr, hr, hrr]
        rw [h0] at h
        simp only [Option.some.injEq, Prod.mk.injEq] at h
        rw [← h.2]
        exact call_outcome_refl s
      cases hs0 : perfmux_slot0 pma with
      | none =>
        by_cases hps : has_present_slot rtr.ip_perfmux = true
        · simp [t234_hwpm_release_rtr, hc, hp, hpr, hr, hrr, hs0, hps] at h
        · have hps : has_present_slot rtr.ip_perfmux = false := by simpa using hps
          have h0 : t234_hwpm_release_rtr ops s = some (0,
              store_rtr s c { rtr with reserved := false }
                ⟨0, rtr.fs_mask, s.world, s.trace⟩) := by
            simp [t234_hwpm_release_rtr, hc, hp, hpr, hr, hrr, hs0, hps]
          rw [h0] at h
          simp only [Option.some.injEq, Prod.mk.injEq] at h
          rw [← h.2]
          exact rtr_flag_outcome false hc hp hr hs0
      | some p =>
        obtain ⟨r0, s0, rtr0, hrun, htr, hr0, hp0, hk, hcases⟩ :=
          release_rtr_cases ops s pma rtr p hpm hrm hpr hrr hs0
        rw [hrun] at h
        simp only [Option.some.injEq, Prod.mk.injEq] at h
        obtain ⟨rfl, rfl⟩ := h
        refine @rtr_loop_outcome _ _ _ _ _ _ _ SubOp.release r0 true false
          hpm hrm hs0 htr hr0 hp0 hk ?_ ?_ ?_
        · rcases hcases with ⟨k, q, h1, h2, h3, h4, h5, -⟩ | ⟨-, h4, h5, -⟩
          · exact Or.inl ⟨k, q, h1, h2, h3, h4, h5⟩
          · exact Or.inr ⟨h4, h5⟩
        · intro k q hkq hal hr1 hres hnew
          refine Or.inr (Or.inr (Or.inr (Or.inr ⟨hres, SlotKind.perfmux, k, r0, hr1, ?_⟩)))
          rw [hnew]
          simp
        · intro hres hall
          exact Or.inr (Or.inr (Or.inr (Or.inl ⟨hres, hall⟩)))

theorem run_ops_keeps_blocks_inv {W : Type} (ops : SubOps W) :
    ∀ (sequence : List Op) (hwpm s : tegra_soc_hwpm W), blocks_inv hwpm →
      run_ops ops sequence hwpm = some s → blocks_inv s := by
  intro sequence
  induction sequence with
  | nil =>
    intro hwpm s hinv h
    simp only [run_ops, Option.some.injEq] at h
    rw [← h]
    exact hinv
  | cons op rest ih =>
    intro hwpm s hinv h
    simp only [run_ops] at h
    cases hop : run_op ops op hwpm with
    | none => simp [hop] at h
    | some r =>
      simp only [hop] at h
      refine ih r.2 s (blocks_inv_step hinv ?_) h
      cases op with
      | reserve_pma => exact reserve_pma_outcome ops hwpm r.2 r.1 hop
      | release_pma => exact release_pma_outcome ops hwpm r.2 r.1 hop
      | reserve_rtr => exact reserve_rtr_outcome ops hwpm r.2 r.1 hop
      | release_rtr => exact release_rtr_outcome ops hwpm r.2 r.1 hop

theorem blocks_inv_init {W : Type} (hwpm : tegra_soc_hwpm W)
    (hp : pma_reserved hwpm = false) (hr : rtr_reserved hwpm = false)
    (ht : hwpm.trace = []) : blocks_inv hwpm := by
  intro pma rtr hpm hrm ip
  have hres : block_reserved pma rtr ip = false := by
    cases ip with
    | pma => simpa [pma_reserved, hpm, block_reserved] using hp
    | rtr => simpa [rtr_reserved, hrm, block_reserved] using hr
  constructor
  · intro h; rw [hres] at h; exact absurd h (by decide)
  · intro _ kind i _ _
    rw [ht]
    rfl

end T234Hwpm
